import Mathlib

/-!
# Milestone orchestration of the NGO funding platform

A shallow embedding of `backend/controllers/orchestrationController.js`,
`backend/services/blockchain.js` and `backend/models/Project.js`.

Every request handler is a function from the request, the mirror (the Mongo
collection of projects) and the ledger as seen through the RPC client to a
response and the mirror after the request.

Conventions of the embedding:

* JavaScript numbers that carry amounts are binary64 values: a finite value is
  given by the rational it denotes and `+` and `-` round their exact result to the
  nearest binary64 value (`JSNumber.round`).
* Timestamps, ledger indices and milestone indices are natural numbers, and the
  day count of `releaseFunds` is the exact ceiling of the quotient: remaining times
  stay far below `2 ^ 53` seconds, where the binary64 quotient has that ceiling.
* Mongo object ids are natural numbers; `createdAt`/`updatedAt` and the version
  key, which the store maintains on its own, are not part of the documents.
* An exception that leaves a handler (and is turned into a 500 reply by the error
  middleware) is the response `Response.thrown`.
* The times of a ledger milestone reach the handlers as `bigint` values. A reply
  body that carries a ledger milestone goes through `resJson`, the model of
  `res.json`, where `JSON.stringify` throws on them.
-/

namespace Orchestration

/-! ## JavaScript values -/

/-- A JavaScript number (binary64): `NaN`, an infinity, or a finite value given by
the rational it denotes; `-0` is not told apart from `0`. -/
inductive JSNumber where
  | nan
  | inf (negative : Bool)
  | num (q : ℚ)
  deriving DecidableEq

namespace JSNumber

/-- The power `2 ^ e` for an integer exponent. -/
def pow2 : ℤ → ℚ
  | .ofNat n => ((2 ^ n : ℕ) : ℚ)
  | .negSucc n => 1 / ((2 ^ (n + 1) : ℕ) : ℚ)

/-- Halving `n` until it is below 2, at most `fuel` times: the number of halvings. -/
def halvings : Nat → Nat → Nat
  | 0, _ => 0
  | fuel + 1, n => if n < 2 then 0 else halvings fuel (n / 2) + 1

/-- The integer part of the binary logarithm of `n` (0 for `n = 0`). -/
def floorLog2 (n : Nat) : Nat := halvings n n

/-- The exponent `e` with `2 ^ e ≤ q < 2 ^ (e + 1)`, for a positive `q`. -/
def exponent (q : ℚ) : ℤ :=
  let e : ℤ := (floorLog2 q.num.natAbs : ℤ) - (floorLog2 q.den : ℤ)
  if pow2 e ≤ q then e else e - 1

/-- The integer nearest to a non-negative `q`, a tie going to the even one. -/
def nearestEven (q : ℚ) : ℤ :=
  let f : ℤ := ⌊q⌋
  let r : ℚ := q - f
  if r < 1 / 2 then f
  else if 1 / 2 < r then f + 1
  else if f % 2 = 0 then f else f + 1

/-- The binary64 result for the real value `q`: round to nearest, ties to even, with
gradual underflow below `2 ^ -1022` and overflow to an infinity from `2 ^ 1024`. -/
def round (q : ℚ) : JSNumber :=
  if q = 0 then num 0 else
  let e := max (exponent |q|) (-1022)
  let quantum := pow2 (e - 52)
  let v := (nearestEven (|q| / quantum) : ℚ) * quantum
  if pow2 1024 ≤ v then inf (decide (q < 0)) else num (if q < 0 then -v else v)

/-- The operator `a + b` on numbers. -/
def add : JSNumber → JSNumber → JSNumber
  | num a, num b => round (a + b)
  | inf s, inf t => if s = t then inf s else nan
  | inf s, num _ => inf s
  | num _, inf t => inf t
  | _, _ => nan

/-- The operator `a - b` on numbers. -/
def sub : JSNumber → JSNumber → JSNumber
  | num a, num b => round (a - b)
  | inf s, inf t => if s = t then nan else inf s
  | inf s, num _ => inf s
  | num _, inf t => inf (!t)
  | _, _ => nan

/-- The function `Math.abs`. -/
def abs : JSNumber → JSNumber
  | num a => num |a|
  | inf _ => inf false
  | nan => nan

/-- The comparison `a > b`; every comparison with `NaN` is false. -/
def gt : JSNumber → JSNumber → Bool
  | num a, num b => decide (b < a)
  | inf s, num _ => !s
  | num _, inf t => t
  | inf s, inf t => !s && t
  | _, _ => false

/-- Truthiness of a number: `NaN` and `0` are falsy. -/
def truthy : JSNumber → Bool
  | num a => decide (a ≠ 0)
  | inf _ => true
  | nan => false

/-- The expression `x || 0`. -/
def orZero (x : JSNumber) : JSNumber :=
  if x.truthy then x else num 0

end JSNumber

/-- The call `parseFloat(v)` for a numeric field of a parsed JSON body: the field holds a
finite number (given by its value, which `parseFloat` returns) or is absent
(`undefined`), and `parseFloat(undefined)` is `NaN`. -/
def parseFloat : Option ℚ → JSNumber
  | some q => .num q
  | none => .nan

/-- Truthiness of a numeric field of a JSON body (`!v` is its negation), for a field
that holds a finite number or is absent. A field that holds another JSON value (such
as the string `"0"`, which is truthy while `parseFloat` gives 0) is not represented
in the typed request bodies. -/
def truthyNum : Option ℚ → Bool
  | some q => decide (q ≠ 0)
  | none => false

/-- Truthiness of a string field of a JSON body: absent and `''` are falsy. -/
def truthyStr : Option String → Bool
  | some s => decide (s ≠ "")
  | none => false

/-! ## The mirror: `models/Project.js` and `models/User.js` -/

/-- The `status` enum of `milestoneSchema`. -/
inductive LocalStatus where
  | pending
  | inProgress
  | completed
  deriving DecidableEq

/-- The `onChainState` enum of `milestoneSchema`. -/
inductive OnChainState where
  | PENDING
  | SUBMITTED
  | APPROVED
  | DISPUTED
  deriving DecidableEq

/-- A stored milestone (`milestoneSchema`). -/
structure Milestone where
  title : String
  description : String
  requiredAmount : ℚ
  status : LocalStatus
  proofDocument : Option String
  proofHash : Option String
  onChainState : OnChainState
  submissionTxHash : Option String
  approvalTxHash : Option String
  releaseTxHash : Option String
  completedAt : Option Nat
  deriving DecidableEq

/-- A stored project (`projectSchema`); `id` is the document's `_id`. -/
structure Project where
  id : Nat
  ngo : Nat
  title : String
  description : String
  category : String
  totalRequired : ℚ
  totalFunded : ℚ
  milestones : List Milestone
  escrowContractAddress : Option String
  multisigWalletAddress : Option String
  onChainProjectIndex : Option Nat
  contractAddress : Option String
  active : Bool
  deriving DecidableEq

/-- The `role` enum of `userSchema`. -/
inductive Role where
  | ngo
  | funder
  deriving DecidableEq

/-- The authenticated caller `req.user`. -/
structure User where
  id : Nat
  role : Role
  email : String
  walletAddress : Option String
  deriving DecidableEq

/-- The collection of projects; `nextId` is the `_id` the next created document gets. -/
structure Store where
  projects : List Project
  nextId : Nat
  deriving DecidableEq

/-- The query `Project.findById(id)`. -/
def Store.findById (s : Store) (id : Nat) : Option Project :=
  s.projects.find? (fun p => p.id == id)

/-- The call `project.save()`: the stored document with the same `_id` is replaced. The
documents of the collection passed the schema when they were written, so the
validation that `save` repeats succeeds. -/
def Store.save (s : Store) (p : Project) : Store :=
  { s with projects := s.projects.map (fun q => if q.id == p.id then p else q) }

/-- A milestone as handed to `Project.create` by `createProject`. -/
structure MilestoneDraft where
  title : Option String
  description : Option String
  requiredAmount : JSNumber
  status : LocalStatus
  onChainState : OnChainState

/-- Casting and validation of one sub-document against `milestoneSchema`:
`title`, `description` and `requiredAmount` are `required: true` (an empty string
does not satisfy `required`, `NaN` cannot be cast to `Number`); the remaining
paths take their schema defaults. The drafts of `createProject` hold `NaN` or a
finite amount. -/
def castMilestone (d : MilestoneDraft) : Except String Milestone :=
  match d.title, d.description, d.requiredAmount with
  | some t, some ds, .num a =>
    if t = "" ∨ ds = "" then .error "ValidationError" else
    .ok { title := t, description := ds, requiredAmount := a, status := d.status,
          proofDocument := none, proofHash := none, onChainState := d.onChainState,
          submissionTxHash := none, approvalTxHash := none, releaseTxHash := none,
          completedAt := none }
  | _, _, _ => .error "ValidationError"

/-- The document handed to `Project.create` by `createProject`. -/
structure ProjectDraft where
  ngo : Nat
  title : String
  description : String
  category : String
  totalRequired : JSNumber
  milestones : List MilestoneDraft
  escrowContractAddress : String
  multisigWalletAddress : String
  active : Bool

/-- Casting of the `milestones` array: every sub-document has to be valid. -/
def castMilestones : List MilestoneDraft → Except String (List Milestone)
  | [] => .ok []
  | d :: ds =>
    match castMilestone d, castMilestones ds with
    | .ok m, .ok ms => .ok (m :: ms)
    | _, _ => .error "ValidationError"

/-- The call `Project.create(doc)`: the document is cast and validated against
`projectSchema`; when valid it is stored under a fresh `_id` with the schema
defaults (`totalFunded` 0, `onChainProjectIndex` null, `contractAddress` null);
otherwise the call throws and nothing is stored. -/
def Store.create (s : Store) (d : ProjectDraft) : Except String (Project × Store) :=
  match d.totalRequired, castMilestones d.milestones with
  | .num total, .ok ms =>
    if d.title = "" ∨ d.description = "" ∨ d.category = "" then .error "ValidationError" else
    let p : Project :=
      { id := s.nextId, ngo := d.ngo, title := d.title, description := d.description,
        category := d.category, totalRequired := total, totalFunded := 0,
        milestones := ms, escrowContractAddress := some d.escrowContractAddress,
        multisigWalletAddress := some d.multisigWalletAddress,
        onChainProjectIndex := none, contractAddress := none, active := d.active }
    .ok (p, { projects := s.projects ++ [p], nextId := s.nextId + 1 })
  | _, _ => .error "ValidationError"

/-! ## The ledger gateway: `services/blockchain.js` -/

/-- The tuple `getMilestone` returns; amounts are in wei, `state` is the `uint8`
0 = PENDING, 1 = SUBMITTED, 2 = APPROVED, 3 = DISPUTED. The object
`getOnChainMilestone` builds from it holds `submissionTime`, `approvalTime` and
`disputeWindowEnd` as the `bigint` values the RPC client decodes a `uint256` to. -/
structure OnChainMilestone where
  amount : Nat
  fundedAmount : Nat
  state : Nat
  proofHash : String
  submissionTime : Nat
  approvalTime : Nat
  disputeWindowEnd : Nat
  released : Bool
  deriving DecidableEq

/-- The tuple `getProject` returns. -/
structure OnChainProject where
  ngoAddress : String
  projectId : Nat
  multisigWallet : String
  totalFunded : Nat
  milestoneCount : Nat
  active : Bool
  deriving DecidableEq

/-- What `verifyTransaction` returns; `status` is `receipt.status === 'success'`. -/
structure Receipt where
  status : Bool
  blockNumber : Nat
  transactionHash : String
  gasUsed : Nat
  deriving DecidableEq

/-- The RPC peer behind `getPublicClient()`: each read either returns or throws. -/
structure Ledger where
  getProject : Option String → Nat → Except String OnChainProject
  getMilestone : Option String → Nat → Nat → Except String OnChainMilestone
  getProjectByProjectId : Option String → Nat → Except String Nat
  waitForTransactionReceipt : String → Except String Receipt

/-- One argument of an ABI call. -/
inductive AbiArg where
  | uint (n : Nat)
  | string (s : String)
  deriving DecidableEq

/-- The result of `encodeFunctionData`, kept symbolic: the function and its arguments. -/
structure CallData where
  functionName : String
  args : List AbiArg
  deriving DecidableEq

/-- An unsigned transaction proposal; `toAddress` is its field `to`. -/
structure TxData where
  toAddress : Option String
  data : CallData
  deriving DecidableEq

/-- The process environment and what the handlers call outside the repository:
`ESCROW_CONTRACT_ADDRESS`, the RPC peer, and the ABI encoding of a `createProject`
call (`encodeFunctionData` over `parseEther(amount.toString())`), which throws on
arguments it cannot encode (a malformed address, an amount that is not a
non-negative decimal). -/
structure Env where
  escrowContractAddress : Option String
  ledger : Ledger
  encodeCreateProject : Nat → String → String → List JSNumber → Except String CallData

/-- The function `getOnChainProject(escrowAddress, projectIndex)`. -/
def getOnChainProject (env : Env) (escrowAddress : Option String) (projectIndex : Nat) :
    Except String OnChainProject :=
  match env.ledger.getProject escrowAddress projectIndex with
  | .ok project => .ok project
  | .error e => .error ("Failed to read on-chain project: " ++ e)

/-- The function `getOnChainMilestone(escrowAddress, projectIndex, milestoneIndex)`; the two
amounts are kept in wei (their `formatEther` rendering is not needed). -/
def getOnChainMilestone (env : Env) (escrowAddress : Option String)
    (projectIndex milestoneIndex : Nat) : Except String OnChainMilestone :=
  match env.ledger.getMilestone escrowAddress projectIndex milestoneIndex with
  | .ok milestone => .ok milestone
  | .error e => .error ("Failed to read on-chain milestone: " ++ e)

/-- The function `getProjectIndex(escrowAddress, projectId)`: a failed read is answered with 0. -/
def getProjectIndex (env : Env) (escrowAddress : Option String) (projectId : Nat) : Nat :=
  match env.ledger.getProjectByProjectId escrowAddress projectId with
  | .ok index => index
  | .error _ => 0

/-- The function `verifyTransaction(txHash)`. -/
def verifyTransaction (env : Env) (txHash : String) : Except String Receipt :=
  match env.ledger.waitForTransactionReceipt txHash with
  | .ok receipt => .ok receipt
  | .error e => .error ("Failed to verify transaction: " ++ e)

/-- The function `prepareCreateProjectTransaction`. -/
def prepareCreateProjectTransaction (env : Env) (escrowAddress : String) (projectId : Nat)
    (ngoAddress multisigWallet : String) (milestoneAmounts : List JSNumber) :
    Except String TxData :=
  match env.encodeCreateProject projectId ngoAddress multisigWallet milestoneAmounts with
  | .ok data => .ok { toAddress := some escrowAddress, data := data }
  | .error e => .error e

/-- The function `prepareSubmitMilestoneTransaction`. -/
def prepareSubmitMilestoneTransaction (escrowAddress : Option String)
    (projectIndex milestoneIndex : Nat) (proofHash : String) : TxData :=
  { toAddress := escrowAddress,
    data := { functionName := "submitMilestone",
              args := [.uint projectIndex, .uint milestoneIndex, .string proofHash] } }

/-- The function `prepareApproveMilestoneTransaction`. -/
def prepareApproveMilestoneTransaction (escrowAddress : Option String)
    (projectIndex milestoneIndex : Nat) : TxData :=
  { toAddress := escrowAddress,
    data := { functionName := "approveMilestone",
              args := [.uint projectIndex, .uint milestoneIndex] } }

/-- The function `prepareReleaseFundsTransaction`. -/
def prepareReleaseFundsTransaction (escrowAddress : Option String)
    (projectIndex milestoneIndex : Nat) : TxData :=
  { toAddress := escrowAddress,
    data := { functionName := "releaseFunds",
              args := [.uint projectIndex, .uint milestoneIndex] } }

/-! ## Replies of the handlers -/

/-- The `message` of an error reply, one constructor per message of
`orchestrationController.js`. -/
inductive Msg where
  /-- The message 'Access denied. NGO role required.' -/
  | accessDeniedNgo
  /-- The message 'Please provide title, description, category, totalRequired, and milestones array' -/
  | missingCreateFields
  /-- The message 'Multisig wallet address is required' -/
  | multisigRequired
  /-- The message 'At least one milestone is required' -/
  | noMilestones
  /-- The message 'Milestone amounts must sum to totalRequired' -/
  | milestoneSum
  /-- The message 'Escrow contract address not configured' -/
  | escrowNotConfigured
  /-- The message 'Transaction hash is required' -/
  | txHashRequired
  /-- The message 'Project not found' -/
  | projectNotFound
  /-- The message 'Transaction failed on blockchain' -/
  | transactionFailed
  /-- The message 'Project not found on blockchain' -/
  | notFoundOnBlockchain
  /-- The message 'Please provide projectId, milestoneIndex, and proofHash' -/
  | missingSubmitFields
  /-- The message 'Not authorized to submit milestone for this project' -/
  | notAuthorizedSubmit
  /-- The message 'Milestone not found' -/
  | milestoneNotFound
  /-- The message 'Milestone already submitted' -/
  | alreadySubmitted
  /-- The message 'Project not yet created on blockchain. Please sync project first.' -/
  | notYetOnBlockchainSyncFirst
  /-- The message 'Please provide projectId and milestoneIndex' -/
  | missingMilestoneFields
  /-- The message 'Project not yet created on blockchain' -/
  | notYetOnBlockchain
  /-- The message 'Milestone is not in SUBMITTED state on-chain (current state: s)' -/
  | notSubmittedOnChain (state : Nat)
  /-- The message 'Milestone is not APPROVED on-chain (current state: s)' -/
  | notApprovedOnChain (state : Nat)
  /-- The message 'Dispute window has not elapsed. d day(s) remaining.' -/
  | disputeWindowNotElapsed (daysRemaining : Nat)
  /-- The message 'Funds already released for this milestone' -/
  | alreadyReleased
  deriving DecidableEq

/-- What a handler answers. -/
inductive Response where
  /-- The reply `res.status(status).json(message)` -/
  | error (status : Nat) (message : Msg)
  /-- the 201 reply of `createProject` -/
  | created (project : Project) (transactionData : TxData)
  /-- the reply of `syncProject` -/
  | synced (project : Project) (onChainState : OnChainProject) (transactionReceipt : Receipt)
  /-- the body of the success reply of `submitMilestone`, `verifyMilestone` and
  `releaseFunds`; the last two add the ledger milestone as `onChainState` -/
  | proposal (project : Project) (milestone : Milestone)
      (onChainState : Option OnChainMilestone) (transactionData : TxData)
  /-- an exception left the handler -/
  | thrown (err : String)
  deriving DecidableEq

/-- The transaction proposal a reply carries, if any. -/
def Response.transactionData : Response → Option TxData
  | .created _ tx => some tx
  | .proposal _ _ _ tx => some tx
  | _ => none

/-- The message of the `TypeError` that `JSON.stringify` throws on a `bigint`. -/
def bigIntNotSerializable : String := "Do not know how to serialize a BigInt"

/-- The call `res.json(body)` on the body a handler built. `res.json` serialises the
body with `JSON.stringify`, which throws a `TypeError` on a `bigint`: a body whose
`onChainState` is a ledger milestone (with its three `bigint` times) is not sent, and
the exception leaves the handler. Every other body is sent as it is. -/
def resJson : Response → Response
  | .error status message => .error status message
  | .created project transactionData => .created project transactionData
  | .synced project onChainState receipt => .synced project onChainState receipt
  | .proposal project milestone none transactionData =>
    .proposal project milestone none transactionData
  | .proposal _ _ (some _) _ => .thrown bigIntNotSerializable
  | .thrown err => .thrown err

/-! ## `createProject` -/

/-- One entry of `req.body.milestones`. -/
structure MilestoneInput where
  title : Option String
  description : Option String
  requiredAmount : Option ℚ
  deriving DecidableEq

/-- The body of `POST /api/project/create`; `milestones` is `none` when the field
is absent or not an array. -/
structure CreateProjectBody where
  title : Option String
  description : Option String
  category : Option String
  totalRequired : Option ℚ
  milestones : Option (List MilestoneInput)
  multisigWalletAddress : Option String
  deriving DecidableEq

/-- The expression `milestones.reduce((sum, m) => sum + (parseFloat(m.requiredAmount) || 0), 0)`. -/
def milestoneSum (milestones : List MilestoneInput) : JSNumber :=
  milestones.foldl (fun sum m => sum.add (parseFloat m.requiredAmount).orZero) (.num 0)

/-- The literal `0.0001` of the milestone-sum test: the binary64 value nearest to
`1 / 10000`, which is `7378697629483821 / 2 ^ 66`. -/
def sumTolerance : ℚ := 7378697629483821 / 73786976294838206464

/-- The test `Math.abs(milestoneSum - parseFloat(totalRequired)) > 0.0001`. -/
def sumMismatch (milestones : List MilestoneInput) (totalRequired : Option ℚ) : Bool :=
  (((milestoneSum milestones).sub (parseFloat totalRequired)).abs).gt (.num sumTolerance)

/-- The `milestones.map(...)` handed to `Project.create`. -/
def draftMilestone (m : MilestoneInput) : MilestoneDraft :=
  { title := m.title, description := m.description,
    requiredAmount := parseFloat m.requiredAmount,
    status := .pending, onChainState := .PENDING }

/-- The expression `req.user.walletAddress || req.user.email`. -/
def ngoAddressOf (user : User) : String :=
  if truthyStr user.walletAddress then user.walletAddress.getD "" else user.email

/-- The handler `createProject`. -/
def createProject (env : Env) (user : User) (body : CreateProjectBody) (store : Store) :
    Response × Store :=
  if user.role ≠ .ngo then (.error 403 .accessDeniedNgo, store) else
  match body.milestones with
  | none => (.error 400 .missingCreateFields, store)
  | some milestones =>
    if !truthyStr body.title || !truthyStr body.description || !truthyStr body.category
        || !truthyNum body.totalRequired then
      (.error 400 .missingCreateFields, store)
    else if !truthyStr body.multisigWalletAddress then
      (.error 400 .multisigRequired, store)
    else if milestones.length = 0 then
      (.error 400 .noMilestones, store)
    else if sumMismatch milestones body.totalRequired then
      (.error 400 .milestoneSum, store)
    else if !truthyStr env.escrowContractAddress then
      (.error 500 .escrowNotConfigured, store)
    else
      let escrowAddress := env.escrowContractAddress.getD ""
      let multisigWalletAddress := body.multisigWalletAddress.getD ""
      match store.create
          { ngo := user.id, title := body.title.getD "", description := body.description.getD "",
            category := body.category.getD "", totalRequired := parseFloat body.totalRequired,
            milestones := milestones.map draftMilestone,
            escrowContractAddress := escrowAddress,
            multisigWalletAddress := multisigWalletAddress, active := true } with
      | .error e => (.thrown e, store)
      | .ok (project, store1) =>
        let milestoneAmounts := milestones.map (fun m => parseFloat m.requiredAmount)
        let ngoAddress := ngoAddressOf user
        match prepareCreateProjectTransaction env escrowAddress project.id ngoAddress
            multisigWalletAddress milestoneAmounts with
        | .error e => (.thrown e, store1)
        | .ok transactionData => (.created project transactionData, store1)

/-! ## `syncProject` -/

/-- Truthiness of `project.onChainProjectIndex`: `null` and `0` are falsy. -/
def truthyIndex : Option Nat → Bool
  | some k => decide (k ≠ 0)
  | none => false

/-- The body of `POST /api/project/sync/:id`. -/
structure SyncBody where
  txHash : Option String
  deriving DecidableEq

/-- The handler `syncProject`; `id` is `req.params.id`. -/
def syncProject (env : Env) (id : Nat) (body : SyncBody) (store : Store) : Response × Store :=
  if !truthyStr body.txHash then (.error 400 .txHashRequired, store) else
  match store.findById id with
  | none => (.error 404 .projectNotFound, store)
  | some project =>
    match verifyTransaction env (body.txHash.getD "") with
    | .error e => (.thrown e, store)
    | .ok receipt =>
      if !receipt.status then (.error 400 .transactionFailed, store) else
      let onChainIndex := getProjectIndex env project.escrowContractAddress project.id
      if onChainIndex = 0 then (.error 400 .notFoundOnBlockchain, store) else
      let project1 := { project with onChainProjectIndex := some onChainIndex }
      let store1 := store.save project1
      match getOnChainProject env project1.escrowContractAddress onChainIndex with
      | .error e => (.thrown e, store1)
      | .ok onChainProject => (.synced project1 onChainProject receipt, store1)

/-! ## `submitMilestone` -/

/-- The body of `POST /api/milestone/submit`. -/
structure SubmitBody where
  projectId : Option Nat
  milestoneIndex : Option Nat
  proofHash : Option String
  proofDocument : Option String
  deriving DecidableEq

/-- The four assignments of `submitMilestone` to `project.milestones[milestoneIndex]`;
`proofDocument || null` keeps a non-empty document and is `null` otherwise. -/
def recordProof (milestone : Milestone) (proofHash : String) (proofDocument : Option String) :
    Milestone :=
  { milestone with
    proofHash := some proofHash,
    proofDocument := if truthyStr proofDocument then proofDocument else none,
    onChainState := .PENDING,
    status := .inProgress }

/-- The handler `submitMilestone`, on a typed request body: `projectId` is a
well-formed id, `milestoneIndex` an array index and `proofHash` a string, and the
database answers. The exceptions of the source outside this domain (the `CastError`
of `Project.findById` on a malformed id, a failing `project.save()`, an argument the
encoder refuses) are not represented. -/
def submitMilestone (user : User) (body : SubmitBody) (store : Store) : Response × Store :=
  if user.role ≠ .ngo then (.error 403 .accessDeniedNgo, store) else
  match body.projectId, body.milestoneIndex with
  | some projectId, some milestoneIndex =>
    if !truthyStr body.proofHash then (.error 400 .missingSubmitFields, store) else
    match store.findById projectId with
    | none => (.error 404 .projectNotFound, store)
    | some project =>
      if project.ngo ≠ user.id then (.error 403 .notAuthorizedSubmit, store) else
      match project.milestones[milestoneIndex]? with
      | none => (.error 404 .milestoneNotFound, store)
      | some milestone =>
        if milestone.onChainState = .SUBMITTED ∨ milestone.onChainState = .APPROVED then
          (.error 400 .alreadySubmitted, store)
        else if !truthyIndex project.onChainProjectIndex then
          (.error 400 .notYetOnBlockchainSyncFirst, store)
        else
          let proofHash := body.proofHash.getD ""
          let milestone1 := recordProof milestone proofHash body.proofDocument
          let project1 :=
            { project with milestones := project.milestones.set milestoneIndex milestone1 }
          let store1 := store.save project1
          let transactionData := prepareSubmitMilestoneTransaction project1.escrowContractAddress
            (project1.onChainProjectIndex.getD 0) milestoneIndex proofHash
          (.proposal project1 milestone1 none transactionData, store1)
  | _, _ => (.error 400 .missingSubmitFields, store)

/-! ## `verifyMilestone` and `releaseFunds` -/

/-- The body of `POST /api/milestone/verify` and of `POST /api/milestone/release`. -/
structure MilestoneBody where
  projectId : Option Nat
  milestoneIndex : Option Nat
  deriving DecidableEq

/-- The handler `verifyMilestone`. Its last statement hands the project, the milestone,
the ledger milestone and the prepared transaction to `res.json`. -/
def verifyMilestone (env : Env) (body : MilestoneBody) (store : Store) : Response × Store :=
  match body.projectId, body.milestoneIndex with
  | some projectId, some milestoneIndex =>
    match store.findById projectId with
    | none => (.error 404 .projectNotFound, store)
    | some project =>
      match project.milestones[milestoneIndex]? with
      | none => (.error 404 .milestoneNotFound, store)
      | some milestone =>
        if !truthyIndex project.onChainProjectIndex then
          (.error 400 .notYetOnBlockchain, store)
        else
          let projectIndex := project.onChainProjectIndex.getD 0
          match getOnChainMilestone env project.escrowContractAddress projectIndex
              milestoneIndex with
          | .error e => (.thrown e, store)
          | .ok onChainMilestone =>
            if onChainMilestone.state ≠ 1 then
              (.error 400 (.notSubmittedOnChain onChainMilestone.state), store)
            else
              let transactionData := prepareApproveMilestoneTransaction
                project.escrowContractAddress projectIndex milestoneIndex
              (resJson (.proposal project milestone (some onChainMilestone) transactionData),
               store)
  | _, _ => (.error 400 .missingMilestoneFields, store)

/-- The expression `Math.ceil(remainingTime / (24 * 60 * 60))`. -/
def daysRemaining (remainingTime : Nat) : Nat :=
  ⌈(remainingTime : ℚ) / (24 * 60 * 60)⌉₊

/-- The handler `releaseFunds`; `now` is `Math.floor(Date.now() / 1000)`. Its last
statement hands the project, the milestone, the ledger milestone and the prepared
transaction to `res.json`. -/
def releaseFunds (env : Env) (now : Nat) (body : MilestoneBody) (store : Store) :
    Response × Store :=
  match body.projectId, body.milestoneIndex with
  | some projectId, some milestoneIndex =>
    match store.findById projectId with
    | none => (.error 404 .projectNotFound, store)
    | some project =>
      match project.milestones[milestoneIndex]? with
      | none => (.error 404 .milestoneNotFound, store)
      | some milestone =>
        if !truthyIndex project.onChainProjectIndex then
          (.error 400 .notYetOnBlockchain, store)
        else
          let projectIndex := project.onChainProjectIndex.getD 0
          match getOnChainMilestone env project.escrowContractAddress projectIndex
              milestoneIndex with
          | .error e => (.thrown e, store)
          | .ok onChainMilestone =>
            if onChainMilestone.state ≠ 2 then
              (.error 400 (.notApprovedOnChain onChainMilestone.state), store)
            else if onChainMilestone.disputeWindowEnd ≠ 0
                ∧ now < onChainMilestone.disputeWindowEnd then
              let remainingTime := onChainMilestone.disputeWindowEnd - now
              (.error 400 (.disputeWindowNotElapsed (daysRemaining remainingTime)), store)
            else if onChainMilestone.released then
              (.error 400 .alreadyReleased, store)
            else
              let transactionData := prepareReleaseFundsTransaction
                project.escrowContractAddress projectIndex milestoneIndex
              (resJson (.proposal project milestone (some onChainMilestone) transactionData),
               store)
  | _, _ => (.error 400 .missingMilestoneFields, store)

/-! ## Vocabulary of the statements -/

/-- The exact sum of the requested amounts, an absent amount counting 0. -/
def amountSum (milestones : List MilestoneInput) : ℚ :=
  (milestones.map (fun m => m.requiredAmount.getD 0)).sum

/-- The request of the claim on `createProject`: an NGO caller, every field of the
body present, a non-empty `milestones` array and the escrow address configured. -/
def CompleteCreateRequest (env : Env) (user : User) (body : CreateProjectBody)
    (milestones : List MilestoneInput) : Prop :=
  user.role = .ngo ∧ truthyStr body.title = true ∧ truthyStr body.description = true ∧
  truthyStr body.category = true ∧ truthyNum body.totalRequired = true ∧
  body.milestones = some milestones ∧ milestones ≠ [] ∧
  truthyStr body.multisigWalletAddress = true ∧ truthyStr env.escrowContractAddress = true

/-- A milestone entry that passes `milestoneSchema`: a non-empty title, a non-empty
description and an amount. -/
def MilestoneInput.wellFormed (m : MilestoneInput) : Bool :=
  truthyStr m.title && truthyStr m.description && m.requiredAmount.isSome

/-- The project with the mirrored ledger state of milestone `idx` replaced. -/
def Project.withOnChainState (p : Project) (idx : Nat) (state : OnChainState) : Project :=
  match p.milestones[idx]? with
  | some m => { p with milestones := p.milestones.set idx { m with onChainState := state } }
  | none => p

/-- What a reply decides, without the documents it echoes: the transaction
proposal, the rejection, the exception, or a reply of another kind. -/
inductive Verdict where
  | proposed (transactionData : TxData)
  | rejected (status : Nat) (message : Msg)
  | failed (err : String)
  | answered
  deriving DecidableEq

/-- The verdict of a reply. -/
def Response.verdict : Response → Verdict
  | .error status message => .rejected status message
  | .created _ tx => .proposed tx
  | .synced _ _ _ => .answered
  | .proposal _ _ _ tx => .proposed tx
  | .thrown e => .failed e

/-! ## Example data -/

/-- A stored milestone in a given mirrored ledger state. -/
def exMilestone (state : OnChainState) : Milestone :=
  { title := "Well", description := "Dig a well", requiredAmount := 1, status := .pending,
    proofDocument := none, proofHash := none, onChainState := state,
    submissionTxHash := none, approvalTxHash := none, releaseTxHash := none,
    completedAt := none }

/-- A stored project of NGO 7 with one milestone. -/
def exProject (index : Option Nat) (state : OnChainState) : Project :=
  { id := 1, ngo := 7, title := "Water", description := "Clean water", category := "health",
    totalRequired := 1, totalFunded := 0, milestones := [exMilestone state],
    escrowContractAddress := some "0xE5C", multisigWalletAddress := some "0x5AFE",
    onChainProjectIndex := index, contractAddress := none, active := true }

/-- A mirror holding `exProject`. -/
def exStore (index : Option Nat) (state : OnChainState) : Store :=
  { projects := [exProject index state], nextId := 2 }

/-- A ledger milestone. -/
def exOnChain (state disputeWindowEnd : Nat) (released : Bool) : OnChainMilestone :=
  { amount := 10 ^ 18, fundedAmount := 10 ^ 18, state := state, proofHash := "Qm123",
    submissionTime := 1000, approvalTime := 2000, disputeWindowEnd := disputeWindowEnd,
    released := released }

/-- A ledger that answers every milestone read with `m`, resolves every project id
to index 3 and confirms every transaction. -/
def exLedger (m : OnChainMilestone) : Ledger :=
  { getProject := fun _ _ =>
      .ok { ngoAddress := "0xA11CE", projectId := 1, multisigWallet := "0x5AFE",
            totalFunded := 10 ^ 18, milestoneCount := 1, active := true },
    getMilestone := fun _ _ _ => .ok m,
    getProjectByProjectId := fun _ _ => .ok 3,
    waitForTransactionReceipt := fun h =>
      .ok { status := true, blockNumber := 12, transactionHash := h, gasUsed := 21000 } }

/-- An environment over `exLedger` whose encoder accepts every call. -/
def exEnv (m : OnChainMilestone) : Env :=
  { escrowContractAddress := some "0xE5C",
    ledger := exLedger m,
    encodeCreateProject := fun projectId ngoAddress multisigWallet _ =>
      .ok { functionName := "createProject",
            args := [.uint projectId, .string ngoAddress, .string multisigWallet] } }

/-- The NGO that owns `exProject`. -/
def exNgo : User := { id := 7, role := .ngo, email := "ngo@example.org", walletAddress := some "0xA11CE" }

/-- Another NGO. -/
def otherNgo : User := { id := 8, role := .ngo, email := "other@example.org", walletAddress := none }

/-- A funder. -/
def exFunder : User := { id := 9, role := .funder, email := "f@example.org", walletAddress := none }

/-- An empty mirror. -/
def emptyStore : Store := { projects := [], nextId := 1 }

/-- The milestones 0.5, 0.3, 0.2 of the escrow test script, as the binary64 values
of these literals. -/
def exMilestoneInputs : List MilestoneInput :=
  [{ title := some "Survey", description := some "Site survey", requiredAmount := some (1 / 2) },
   { title := some "Drill", description := some "Drilling",
     requiredAmount := some (5404319552844595 / 18014398509481984) },
   { title := some "Pump", description := some "Pump house",
     requiredAmount := some (3602879701896397 / 18014398509481984) }]

/-- A complete `createProject` body over given milestones. -/
def exCreateBody (totalRequired : ℚ) (milestones : List MilestoneInput) : CreateProjectBody :=
  { title := some "Water", description := some "Clean water", category := some "health",
    totalRequired := some totalRequired, milestones := some milestones,
    multisigWalletAddress := some "0x5AFE" }

/-- The body of the example submission of proof `Qm123` for milestone 0. -/
def exSubmitBody : SubmitBody :=
  { projectId := some 1, milestoneIndex := some 0, proofHash := some "Qm123",
    proofDocument := none }

/-- The milestone of the example after the submission of `Qm123`. -/
def exSubmittedMilestone : Milestone :=
  { exMilestone .PENDING with proofHash := some "Qm123", status := .inProgress }

/-- The example project after the submission of `Qm123`. -/
def exSubmittedProject : Project :=
  { exProject (some 3) .PENDING with milestones := [exSubmittedMilestone] }

/-- Two milestones of `2 ^ 53` and of 1. -/
def exLargeMilestoneInputs : List MilestoneInput :=
  [{ title := some "Dam", description := some "Build a dam",
     requiredAmount := some 9007199254740992 },
   { title := some "Gate", description := some "Fit the gate", requiredAmount := some 1 }]

/-- A milestone entry with an amount and a description but no title. -/
def untitledMilestone : MilestoneInput :=
  { title := none, description := some "Site survey", requiredAmount := some 1 }

/-! ## `getProjectState` -/

/-- One entry of `milestonesState`: the ledger milestone under its index, or the
message of the failed read under its index. -/
inductive MilestoneStateEntry where
  | state (index : Nat) (milestone : OnChainMilestone)
  | error (index : Nat) (message : String)
  deriving DecidableEq

/-- The field `index` of an entry. -/
def MilestoneStateEntry.index : MilestoneStateEntry → Nat
  | .state index _ => index
  | .error index _ => index

/-- What `getProjectState` answers: the 404 reply, the project with `onChainState`
and `milestonesState`, or an exception that left the handler. -/
inductive StateReply where
  | notFound
  | state (project : Project) (onChainState : Option OnChainProject)
      (milestonesState : List MilestoneStateEntry)
  | thrown (err : String)
  deriving DecidableEq

/-- The entry spreads a ledger milestone (`{ index: i, ...milestoneState }`). -/
def MilestoneStateEntry.isState : MilestoneStateEntry → Bool
  | .state _ _ => true
  | .error _ _ => false

/-- The call `res.json(body)` on the body of `getProjectState`: an entry that spreads
a ledger milestone holds its three `bigint` times, on which `JSON.stringify` throws a
`TypeError`; the ledger project (`formatEther`, `Number`) and the error records hold
none. -/
def resJsonState : StateReply → StateReply
  | .state project onChainState milestonesState =>
    if milestonesState.any MilestoneStateEntry.isState then .thrown bigIntNotSerializable
    else .state project onChainState milestonesState
  | .notFound => .notFound
  | .thrown err => .thrown err

/-- The body of the loop of `getProjectState` for milestone `i`: the inner
`try`/`catch` turns a failed read into an error record. -/
def milestoneStateEntry (env : Env) (escrowAddress : Option String) (projectIndex i : Nat) :
    MilestoneStateEntry :=
  match getOnChainMilestone env escrowAddress projectIndex i with
  | .ok milestoneState => .state i milestoneState
  | .error e => .error i e

/-- The handler `getProjectState` (`GET /api/project/:id/state`); the populated `ngo`
of the reply is not modelled. The outer `catch` only logs, so a failed project read
leaves `onChainState` null and `milestonesState` empty. The call of `res.json` is
outside both `try` blocks. -/
def getProjectState (env : Env) (id : Nat) (store : Store) : StateReply :=
  match store.findById id with
  | none => .notFound
  | some project =>
    if truthyIndex project.onChainProjectIndex && truthyStr project.escrowContractAddress then
      let projectIndex := project.onChainProjectIndex.getD 0
      match getOnChainProject env project.escrowContractAddress projectIndex with
      | .error _ => resJsonState (.state project none [])
      | .ok onChainState =>
        resJsonState (.state project (some onChainState)
          ((List.range project.milestones.length).map
            (milestoneStateEntry env project.escrowContractAddress projectIndex)))
    else resJsonState (.state project none [])

/-! ## `controllers/projectController.js` -/

/-- The `message` of an error reply of `projectController.js`. -/
inductive ProjectMsg where
  /-- The message 'Project not found' -/
  | projectNotFound
  /-- The message 'Not authorized' -/
  | notAuthorized
  /-- The message 'Milestone not found' -/
  | milestoneNotFound
  /-- The `message` of a caught exception -/
  | caught (message : String)
  deriving DecidableEq

/-- What `updateProject` and `updateMilestone` answer. -/
inductive ProjectReply where
  /-- The reply `res.json(project)` -/
  | document (project : Project)
  /-- The reply `res.status(status).json(message)` -/
  | error (status : Nat) (message : ProjectMsg)
  deriving DecidableEq

/-- A milestone sub-document as a request body may carry it; an absent path is
`none`. The two enums are typed, so a string outside an enum is not represented. -/
structure MilestonePatch where
  title : Option String
  description : Option String
  requiredAmount : Option ℚ
  status : Option LocalStatus
  proofDocument : Option String
  proofHash : Option String
  onChainState : Option OnChainState
  submissionTxHash : Option String
  approvalTxHash : Option String
  releaseTxHash : Option String
  completedAt : Option Nat

/-- Casting and validation of one sub-document of an update against
`milestoneSchema` (`runValidators: true`): the three required paths have to be
present, the strings non-empty; an absent path takes its schema default. -/
def castMilestonePatch (d : MilestonePatch) : Except String Milestone :=
  match d.title, d.description, d.requiredAmount with
  | some t, some ds, some a =>
    if t = "" ∨ ds = "" then .error "Validation failed" else
    .ok { title := t, description := ds, requiredAmount := a,
          status := d.status.getD .pending,
          proofDocument := d.proofDocument, proofHash := d.proofHash,
          onChainState := d.onChainState.getD .PENDING,
          submissionTxHash := d.submissionTxHash, approvalTxHash := d.approvalTxHash,
          releaseTxHash := d.releaseTxHash, completedAt := d.completedAt }
  | _, _, _ => .error "Validation failed"

/-- Casting of the `milestones` array of an update. -/
def castMilestonePatches : List MilestonePatch → Except String (List Milestone)
  | [] => .ok []
  | d :: ds =>
    match castMilestonePatch d, castMilestonePatches ds with
    | .ok m, .ok ms => .ok (m :: ms)
    | _, _ => .error "Validation failed"

/-- The body of `PUT /api/projects/:id`, handed to `findByIdAndUpdate` as it is: every
path of `projectSchema` may be present (`some`) or absent (`none`); a present
nullable path carries its new value, which may be null. -/
structure ProjectUpdate where
  ngo : Option Nat
  title : Option String
  description : Option String
  category : Option String
  totalRequired : Option ℚ
  totalFunded : Option ℚ
  milestones : Option (List MilestonePatch)
  escrowContractAddress : Option (Option String)
  multisigWalletAddress : Option (Option String)
  onChainProjectIndex : Option (Option Nat)
  contractAddress : Option (Option String)
  active : Option Bool

/-- Validation of a present required string path: the empty string fails `required`. -/
def requiredOk : Option String → Bool
  | some s => s != ""
  | none => true

/-- The call `Project.findByIdAndUpdate(id, body, { new: true, runValidators: true })`
on the stored document `p`: the present paths are validated and replace the stored
ones, a present `milestones` array replaces the whole array. -/
def applyUpdate (p : Project) (body : ProjectUpdate) : Except String Project :=
  if !(requiredOk body.title && requiredOk body.description && requiredOk body.category) then
    .error "Validation failed"
  else
    match body.milestones.map castMilestonePatches with
    | some (.error e) => .error e
    | cast =>
      .ok { id := p.id,
            ngo := body.ngo.getD p.ngo,
            title := body.title.getD p.title,
            description := body.description.getD p.description,
            category := body.category.getD p.category,
            totalRequired := body.totalRequired.getD p.totalRequired,
            totalFunded := body.totalFunded.getD p.totalFunded,
            milestones := match cast with
              | some (.ok ms) => ms
              | _ => p.milestones,
            escrowContractAddress := body.escrowContractAddress.getD p.escrowContractAddress,
            multisigWalletAddress := body.multisigWalletAddress.getD p.multisigWalletAddress,
            onChainProjectIndex := body.onChainProjectIndex.getD p.onChainProjectIndex,
            contractAddress := body.contractAddress.getD p.contractAddress,
            active := body.active.getD p.active }

/-- The handler `updateProject` (`PUT /api/projects/:id`). -/
def updateProject (user : User) (id : Nat) (body : ProjectUpdate) (store : Store) :
    ProjectReply × Store :=
  match store.findById id with
  | none => (.error 404 .projectNotFound, store)
  | some project =>
    if project.ngo ≠ user.id then (.error 403 .notAuthorized, store) else
    match applyUpdate project body with
    | .error e => (.error 500 (.caught e), store)
    | .ok project1 => (.document project1, store.save project1)

/-- The `status` of the body of `updateMilestone`: absent, a member of the enum, or
another value. -/
inductive StatusInput where
  | absent
  | valid (status : LocalStatus)
  | invalid
  deriving DecidableEq

/-- The body of `PUT /api/projects/:id/milestones/:milestoneId`. -/
structure UpdateMilestoneBody where
  status : StatusInput
  proofDocument : Option String

/-- The handler `updateMilestone`; `now` is `new Date()`. A sub-document id is
modelled by the position of the milestone. A `status` outside the enum fails the
validation of `save`; an absent `status` unsets the path, which reads as its default. -/
def updateMilestone (now : Nat) (id milestoneId : Nat) (body : UpdateMilestoneBody)
    (store : Store) : ProjectReply × Store :=
  match store.findById id with
  | none => (.error 404 .projectNotFound, store)
  | some project =>
    match project.milestones[milestoneId]? with
    | none => (.error 404 .milestoneNotFound, store)
    | some milestone =>
      match body.status with
      | .invalid => (.error 500 (.caught "Validation failed"), store)
      | status =>
        let milestone1 : Milestone :=
          { milestone with
            status := match status with
              | .valid s => s
              | _ => .pending }
        let milestone2 : Milestone :=
          if truthyStr body.proofDocument then
            { milestone1 with proofDocument := body.proofDocument }
          else milestone1
        let milestone3 : Milestone :=
          if status = .valid .completed then { milestone2 with completedAt := some now }
          else milestone2
        let project1 := { project with milestones := project.milestones.set milestoneId milestone3 }
        (.document project1, store.save project1)

/-! ## The multisig panel of `components/NGODashboard.js` -/

/-- One element of `transactions`, as `loadTransactions` builds it from
`getTransaction(i)`; `value` is kept in wei. -/
structure MultisigTx where
  id : Nat
  toAddress : String
  value : Nat
  data : String
  executed : Bool
  approvalCount : Nat
  deriving DecidableEq

/-- The state of the component the multisig panel is rendered from. An object of
`transactionApprovals` is the map from its keys to its values. -/
structure DashboardState where
  account : Option String
  multisigOwners : List String
  requiredApprovals : Nat
  transactions : List MultisigTx
  transactionApprovals : Nat → Option (String → Option Bool)
  loading : Bool

/-- The method `toLowerCase()` of a string, on the letters A to Z. -/
def toLowerCase (s : String) : String :=
  String.mk (s.data.map Char.toLower)

/-- The function `isOwner(address)`: some owner equals the address up to letter case. -/
def isOwner (s : DashboardState) (address : Option String) : Bool :=
  s.multisigOwners.any (fun owner => some (toLowerCase owner) == address.map toLowerCase)

/-- What is rendered for one pending transaction: the status flag, the mark of
every owner, and which of the controls are present; `disabled` is the `disabled`
attribute of the buttons. -/
structure PendingCard where
  tx : MultisigTx
  canExecute : Bool
  ownerMarks : List (String × Bool)
  approveButton : Bool
  youApproved : Bool
  executeButton : Bool
  disabled : Bool
  deriving DecidableEq

/-- The card of one pending transaction (the body of the `map` over the pending
transactions). -/
def pendingCard (s : DashboardState) (tx : MultisigTx) : PendingCard :=
  let approvals : String → Option Bool := (s.transactionApprovals tx.id).getD (fun _ => none)
  let canExecute := decide (tx.approvalCount ≥ s.requiredApprovals)
  let userApproved :=
    if truthyStr s.account then (approvals (toLowerCase (s.account.getD ""))).getD false else false
  { tx := tx,
    canExecute := canExecute,
    ownerMarks :=
      s.multisigOwners.map (fun owner => (owner, (approvals (toLowerCase owner)).getD false)),
    approveButton := isOwner s s.account && !userApproved,
    youApproved := isOwner s s.account && userApproved,
    executeButton := isOwner s s.account && canExecute,
    disabled := s.loading }

/-- The list under 'Pending Transactions': one card per transaction that is not executed. -/
def pendingCards (s : DashboardState) : List PendingCard :=
  (s.transactions.filter (fun tx => !tx.executed)).map (pendingCard s)

/-- The list under 'Executed Transactions': the executed transactions, shown without a control. -/
def executedCards (s : DashboardState) : List MultisigTx :=
  s.transactions.filter (fun tx => tx.executed)

/-- The panel renders an 'Execute Transaction' button for `tx`. -/
def executeOffered (s : DashboardState) (tx : MultisigTx) : Bool :=
  (pendingCards s).any (fun card => card.tx == tx && card.executeButton)

/-! ## Vocabulary of the statements on the mirrored ledger state -/

/-- The mirrored name of a ledger state number (`0=PENDING, 1=SUBMITTED, 2=APPROVED,
3=DISPUTED`). -/
def OnChainState.ofCode : Nat → Option OnChainState
  | 0 => some .PENDING
  | 1 => some .SUBMITTED
  | 2 => some .APPROVED
  | 3 => some .DISPUTED
  | _ => none

/-- The state `b` is the state `a` or reached from it by legal advances: PENDING to
SUBMITTED, SUBMITTED to APPROVED, and SUBMITTED or APPROVED to DISPUTED. -/
def OnChainState.advancesTo : OnChainState → OnChainState → Bool
  | .PENDING, .PENDING => true
  | .PENDING, .SUBMITTED => true
  | .PENDING, .APPROVED => true
  | .PENDING, .DISPUTED => true
  | .SUBMITTED, .SUBMITTED => true
  | .SUBMITTED, .APPROVED => true
  | .SUBMITTED, .DISPUTED => true
  | .APPROVED, .APPROVED => true
  | .APPROVED, .DISPUTED => true
  | .DISPUTED, .DISPUTED => true
  | _, _ => false

/-- The mirrored ledger states of the milestones of project `id`, in order. -/
def Store.ledgerStates (s : Store) (id : Nat) : Option (List OnChainState) :=
  (s.findById id).map (fun p => p.milestones.map (fun m => m.onChainState))

/-! ## Example data for the ledger reads -/

/-- The ledger project of the examples. -/
def exOnChainProject : OnChainProject :=
  { ngoAddress := "0xA11CE", projectId := 1, multisigWallet := "0x5AFE",
    totalFunded := 10 ^ 18, milestoneCount := 1, active := true }

/-- A ledger given by the outcome of each read: the status of every receipt, the
resolved index, the project read, and the read of each milestone. -/
def ledgerOf (receiptStatus : Bool) (index : Except String Nat)
    (project : Except String OnChainProject)
    (milestone : Nat → Except String OnChainMilestone) : Ledger :=
  { getProject := fun _ _ => project,
    getMilestone := fun _ _ i => milestone i,
    getProjectByProjectId := fun _ _ => index,
    waitForTransactionReceipt := fun h =>
      .ok { status := receiptStatus, blockNumber := 12, transactionHash := h, gasUsed := 21000 } }

/-- An environment over a given ledger. -/
def envOf (ledger : Ledger) : Env :=
  { escrowContractAddress := some "0xE5C",
    ledger := ledger,
    encodeCreateProject := fun projectId ngoAddress multisigWallet _ =>
      .ok { functionName := "createProject",
            args := [.uint projectId, .string ngoAddress, .string multisigWallet] } }

/-- The body of the example sync. -/
def exSyncBody : SyncBody := { txHash := some "0xABC" }

/-- The receipt the example ledgers return for the example sync. -/
def exReceipt (status : Bool) : Receipt :=
  { status := status, blockNumber := 12, transactionHash := "0xABC", gasUsed := 21000 }

/-- A project of NGO 7 with two milestones. -/
def exProject2 (index : Option Nat) : Project :=
  { exProject index .PENDING with milestones := [exMilestone .PENDING, exMilestone .PENDING] }

/-- An update body that replaces the milestones by one milestone in a given state and
leaves every other path absent. -/
def exMilestonesUpdate (state : OnChainState) : ProjectUpdate :=
  { ngo := none, title := none, description := none, category := none,
    totalRequired := none, totalFunded := none,
    milestones := some [{ title := some "Well", description := some "Dig a well",
                          requiredAmount := some 1, status := none, proofDocument := none,
                          proofHash := none, onChainState := some state,
                          submissionTxHash := none, approvalTxHash := none,
                          releaseTxHash := none, completedAt := none }],
    escrowContractAddress := none, multisigWalletAddress := none,
    onChainProjectIndex := none, contractAddress := none, active := none }

/-- A panel state of the owner `0xa11ce` over a two-owner wallet that requires two
approvals, holding one transaction. -/
def exDashboard (tx : MultisigTx) : DashboardState :=
  { account := some "0xa11ce", multisigOwners := ["0xA11CE", "0xB0B"],
    requiredApprovals := 2, transactions := [tx],
    transactionApprovals := fun _ => none, loading := false }

/-- A multisig transaction with a given approval count. -/
def exTx (approvalCount : Nat) (executed : Bool) : MultisigTx :=
  { id := 0, toAddress := "0xC0FFEE", value := 10 ^ 17, data := "0x", executed := executed,
    approvalCount := approvalCount }

/-! ## The wallet calls of `context/Web3Context.js` and their handlers -/

/-- The tuple `getTransaction(txId)` of the wallet contract returns; `value` is in wei. -/
structure TransactionTuple where
  item0 : String
  item1 : Nat
  item2 : String
  item3 : Bool
  item4 : Nat
  deriving DecidableEq

/-- The wallet contract behind `smartWalletContract`: what a sent transaction ends in
(its receipt, or the error it fails with) and what its views return. -/
structure WalletContract where
  approveTransaction : Nat → Except String Receipt
  executeTransaction : Nat → Except String Receipt
  getTransactionCount : Except String Nat
  getTransaction : Nat → Except String TransactionTuple
  isApprovedBy : Nat → String → Except String Bool

/-- A call sent to the wallet contract. -/
inductive WalletCall where
  | approveTransaction (txId : Nat)
  | executeTransaction (txId : Nat)
  deriving DecidableEq

/-- The function `approveTransaction(txId)` of the context: its outcome and the calls
it sent; `signer` says whether a signer is set. -/
def approveTransaction (contract : Option WalletContract) (signer : Bool) (txId : Nat) :
    Except String Receipt × List WalletCall :=
  match contract, signer with
  | some c, true => (c.approveTransaction txId, [.approveTransaction txId])
  | _, _ => (.error "SmartWallet not connected", [])

/-- The function `executeTransaction(txId)` of the context: its outcome and the calls
it sent. -/
def executeTransaction (contract : Option WalletContract) (signer : Bool) (txId : Nat) :
    Except String Receipt × List WalletCall :=
  match contract, signer with
  | some c, true => (c.executeTransaction txId, [.executeTransaction txId])
  | _, _ => (.error "SmartWallet not connected", [])

/-- The object literal `txData` of `loadTransactions`. -/
def txData (i : Nat) (tx : TransactionTuple) : MultisigTx :=
  { id := i, toAddress := tx.item0, value := tx.item1, data := tx.item2,
    executed := tx.item3, approvalCount := tx.item4 }

/-- The object `ownerApprovals` that `loadTransactions` builds for transaction `i`:
for each owner in turn the property named by the owner string, as the wallet
returned it, is set to the result of `isTransactionApprovedBy(i, owner)`, or to
`false` when that call fails. -/
def ownerApprovals (c : WalletContract) (owners : List String) (i : Nat) :
    String → Option Bool :=
  owners.foldl
    (fun obj owner =>
      let approved :=
        match c.isApprovedBy i owner with
        | .ok b => b
        | .error _ => false
      fun key => if key = owner then some approved else obj key)
    (fun _ => none)

/-- The array `txs` of `loadTransactions` for the indices of a list; a failed
`getTransaction` ends the loop with its error. -/
def loadTxs (c : WalletContract) : List Nat → Except String (List MultisigTx)
  | [] => .ok []
  | i :: rest =>
    match c.getTransaction i with
    | .error e => .error e
    | .ok tx =>
      match loadTxs c rest with
      | .error e => .error e
      | .ok txs => .ok (txData i tx :: txs)

/-- The function `loadTransactions` of the dashboard: the state it leaves and the
error message it sets, if any. Without contract or account nothing is done. -/
def loadTransactions (contract : Option WalletContract) (s : DashboardState) :
    DashboardState × Option String :=
  match contract with
  | none => (s, none)
  | some c =>
    if !truthyStr s.account then (s, none) else
    match c.getTransactionCount with
    | .error _ => (s, some "Failed to load transactions")
    | .ok count =>
      match loadTxs c (List.range count) with
      | .error _ => (s, some "Failed to load transactions")
      | .ok txs =>
        ({ s with
           transactions := txs,
           transactionApprovals := fun i =>
             if i < count then some (ownerApprovals c s.multisigOwners i) else none },
         none)

/-- What a click handler of the panel leaves: the state, the error message shown, and
the calls sent to the wallet contract. -/
structure HandlerOutcome where
  state : DashboardState
  error : Option String
  calls : List WalletCall

/-- The handler `handleApproveTransaction(txId)`: the approval is sent, then the
transactions are loaded again; an error of the call is shown as it is. -/
def handleApproveTransaction (contract : Option WalletContract) (signer : Bool)
    (s : DashboardState) (txId : Nat) : HandlerOutcome :=
  match approveTransaction contract signer txId with
  | (.error e, calls) => { state := { s with loading := false }, error := some e, calls := calls }
  | (.ok _, calls) =>
    let loaded := loadTransactions contract s
    { state := { loaded.1 with loading := false }, error := loaded.2, calls := calls }

/-- The handler `handleExecuteTransaction(txId)`; the wallet balance it loads
afterwards is not modelled. -/
def handleExecuteTransaction (contract : Option WalletContract) (signer : Bool)
    (s : DashboardState) (txId : Nat) : HandlerOutcome :=
  match executeTransaction contract signer txId with
  | (.error e, calls) => { state := { s with loading := false }, error := some e, calls := calls }
  | (.ok _, calls) =>
    let loaded := loadTransactions contract s
    { state := { loaded.1 with loading := false }, error := loaded.2, calls := calls }

/-! ## The project tuple: `getOnChainProject` and the dashboards' `loadProjects` -/

/-- The tuple `getProject(index)` of the escrow contract returns, by position; the
positions 0, 1 and 2 hold strings (two addresses and the project id), 3 the funded
amount in wei, 4 the milestone count, 5 the active flag. -/
structure ProjectTuple where
  item0 : String
  item1 : String
  item2 : String
  item3 : Nat
  item4 : Nat
  item5 : Bool
  deriving DecidableEq

/-- A decoded project tuple; `totalFunded` is kept in wei. -/
structure DecodedProject where
  ngoAddress : String
  projectId : String
  multisigWallet : String
  totalFunded : Nat
  milestoneCount : Nat
  active : Bool
  deriving DecidableEq

/-- The object `getOnChainProject` of `services/blockchain.js` returns for a tuple.
The record `OnChainProject` of the handlers is this decoding, with the project id
read as the document id. -/
def gatewayProject (project : ProjectTuple) : DecodedProject :=
  { ngoAddress := project.item0,
    projectId := project.item1,
    multisigWallet := project.item2,
    totalFunded := project.item3,
    milestoneCount := project.item4,
    active := project.item5 }

/-- The object `loadProjects` of `NGODashboard.js` and of `FunderDashboard.js` pushes
for a tuple (the two object literals are the same); `index` and `milestones` are left out. -/
def dashboardProject (project : ProjectTuple) : DecodedProject :=
  { projectId := project.item0,
    ngoAddress := project.item1,
    multisigWallet := project.item2,
    totalFunded := project.item3,
    milestoneCount := project.item4,
    active := project.item5 }

/-- The ownership filter of the NGO dashboard: `project[1] === user?.walletAddress`. -/
def ngoOwnsProject (walletAddress : Option String) (project : ProjectTuple) : Bool :=
  some project.item1 == walletAddress

/-- The filter of the funder dashboard: `project[5]`. -/
def funderShowsProject (project : ProjectTuple) : Bool :=
  project.item5

/-! ## `getDaysRemaining` of `components/FunderDashboard.js` -/

/-- The function `getDaysRemaining(disputeWindowEnd)`; `now` is
`Math.floor(Date.now() / 1000)`, `none` is `null`. The two times are whole seconds,
which the numbers of the dashboard hold exactly below `2 ^ 53`; the difference and the
rounded-up quotient are then the exact ones, as in `daysRemaining`. -/
def getDaysRemaining (now disputeWindowEnd : Nat) : Option Nat :=
  if disputeWindowEnd = 0 then none else
  let remaining : Int := (disputeWindowEnd : Int) - (now : Int)
  if remaining ≤ 0 then some 0 else
  some (daysRemaining remaining.toNat)

/-! ## Vocabulary of the statements on reachable mirrors -/

/-- The escrow address and the multisig address the mirror holds for project `id`. -/
def Store.addresses (s : Store) (id : Nat) : Option (Option String × Option String) :=
  (s.findById id).map (fun p => (p.escrowContractAddress, p.multisigWalletAddress))

/-- The mirrors reachable from an empty collection by calls of `createProject`,
`syncProject`, `submitMilestone`, `verifyMilestone` and `releaseFunds`, with any
caller, body, ledger and time. -/
inductive Reachable : Store → Prop where
  | empty (nextId : Nat) : Reachable { projects := [], nextId := nextId }
  | createProject (env : Env) (user : User) (body : CreateProjectBody) (s : Store) :
      Reachable s → Reachable (createProject env user body s).2
  | syncProject (env : Env) (id : Nat) (body : SyncBody) (s : Store) :
      Reachable s → Reachable (syncProject env id body s).2
  | submitMilestone (user : User) (body : SubmitBody) (s : Store) :
      Reachable s → Reachable (submitMilestone user body s).2
  | verifyMilestone (env : Env) (body : MilestoneBody) (s : Store) :
      Reachable s → Reachable (verifyMilestone env body s).2
  | releaseFunds (env : Env) (now : Nat) (body : MilestoneBody) (s : Store) :
      Reachable s → Reachable (releaseFunds env now body s).2

/-- Every milestone of the mirror is mirrored as PENDING. -/
def Store.allPending (s : Store) : Prop :=
  ∀ p ∈ s.projects, ∀ m ∈ p.milestones, m.onChainState = .PENDING

/-- The sub-document `Project.create` stores for a well-formed entry of
`req.body.milestones`: the three given fields, `pending`, `PENDING`, and the schema
defaults. -/
def MilestoneInput.stored (m : MilestoneInput) : Milestone :=
  { title := m.title.getD "", description := m.description.getD "",
    requiredAmount := m.requiredAmount.getD 0, status := .pending,
    proofDocument := none, proofHash := none, onChainState := .PENDING,
    submissionTxHash := none, approvalTxHash := none, releaseTxHash := none,
    completedAt := none }

/-! ## Example data for the dashboards and the creation requests -/

/-- A wallet contract holding one transaction with two approvals, executed or not,
that every owner approved; a call sent for an executed transaction reverts. -/
def exWallet (executed : Bool) : WalletContract :=
  { approveTransaction := fun _ =>
      if executed then .error "execution reverted" else .ok (exReceipt true),
    executeTransaction := fun _ =>
      if executed then .error "execution reverted" else .ok (exReceipt true),
    getTransactionCount := .ok 1,
    getTransaction := fun _ =>
      .ok { item0 := "0xC0FFEE", item1 := 10 ^ 17, item2 := "0x", item3 := executed, item4 := 2 },
    isApprovedBy := fun _ _ => .ok true }

/-- The panel state after `loadTransactions` against the wallet whose transaction is
not executed. -/
def exLoadedDashboard : DashboardState :=
  (loadTransactions (some (exWallet false)) (exDashboard (exTx 2 false))).1

/-- A project tuple in the order of the `getProject` outputs of `ESCROW_ABI`:
NGO address, project id, multisig wallet, funded amount, milestone count, active. -/
def exProjectTuple : ProjectTuple :=
  { item0 := "0xA11CE", item1 := "665f1c0de", item2 := "0x5AFE", item3 := 10 ^ 18,
    item4 := 1, item5 := true }

/-- Two milestones of 1 and of 0. -/
def exZeroMilestoneInputs : List MilestoneInput :=
  [{ title := some "Survey", description := some "Site survey", requiredAmount := some 1 },
   { title := some "Report", description := some "Final report", requiredAmount := some 0 }]

/-- The project the example request (milestones 0.5, 0.3, 0.2 against 1) stores in an
empty mirror. -/
def exCreatedProject : Project :=
  { id := 1, ngo := 7, title := "Water", description := "Clean water", category := "health",
    totalRequired := 1, totalFunded := 0,
    milestones := exMilestoneInputs.map MilestoneInput.stored,
    escrowContractAddress := some "0xE5C", multisigWalletAddress := some "0x5AFE",
    onChainProjectIndex := none, contractAddress := none, active := true }

/-- The proposal the example request is answered with. -/
def exCreateTx : TxData :=
  { toAddress := some "0xE5C",
    data := { functionName := "createProject",
              args := [.uint 1, .string "0xA11CE", .string "0x5AFE"] } }

/-- The mirror after the example request has been created in an empty mirror and
synced against a ledger that resolves it to index 3 and reports its milestones as
SUBMITTED. -/
def exReachedStore : Store :=
  (syncProject (exEnv (exOnChain 1 0 false)) 1 exSyncBody
    (createProject (exEnv (exOnChain 1 0 false)) exNgo (exCreateBody 1 exMilestoneInputs)
      emptyStore).2).2

/-- A `createProject` body without title and without multisig address. -/
def exBareBody : CreateProjectBody :=
  { title := none, description := some "Clean water", category := some "health",
    totalRequired := some 1, milestones := some exZeroMilestoneInputs,
    multisigWalletAddress := none }

/-- An update body that sets the two addresses and leaves every other path absent. -/
def exAddressUpdate : ProjectUpdate :=
  { ngo := none, title := none, description := none, category := none,
    totalRequired := none, totalFunded := none, milestones := none,
    escrowContractAddress := some (some "0xBAD"),
    multisigWalletAddress := some (some "0xBAD"),
    onChainProjectIndex := none, contractAddress := none, active := none }

/-! ## Lemmas on `createProject` -/

/-- A truthy string field is a non-empty string. -/
theorem truthyStr_iff (a : Option String) : truthyStr a = true ↔ ∃ s, a = some s ∧ s ≠ "" := by
  cases a <;> simp [truthyStr]

/-- The drafted milestones pass the schema exactly when every entry is well formed. -/
theorem castMilestones_ok_iff (ms : List MilestoneInput) :
    (∃ out, castMilestones (ms.map draftMilestone) = .ok out) ↔
      ∀ m ∈ ms, m.wellFormed = true := by
  induction ms with
  | nil => simp [castMilestones]
  | cons m ms ih =>
    simp only [List.map_cons, castMilestones, List.mem_cons, forall_eq_or_imp, ← ih]
    rcases m with ⟨t, d, a⟩
    cases hc : castMilestones (List.map draftMilestone ms) <;>
      cases t <;> cases d <;> cases a <;>
      simp [castMilestone, draftMilestone, parseFloat, MilestoneInput.wellFormed, truthyStr]
    all_goals split_ifs <;> simp_all
    all_goals tauto

/-- The literal `0.0001` denotes `sumTolerance`. -/
theorem round_sumTolerance : JSNumber.round (1 / 10000) = .num sumTolerance := by
  decide!

/-- In binary64, `0.1 + 0.2` is `0.30000000000000004`. -/
theorem add_tenth_fifth :
    JSNumber.add (JSNumber.round (1 / 10)) (JSNumber.round (1 / 5)) =
      .num (1351079888211149 / 4503599627370496) := by
  decide!

/-- In binary64, `2 ^ 53 + 1` is `2 ^ 53`. -/
theorem add_two_pow_53_one :
    JSNumber.add (.num 9007199254740992) (.num 1) = .num 9007199254740992 := by
  decide!

/-- The sum test works on rounded sums: the amounts `2 ^ 53` and 1 against a
totalRequired of `2 ^ 53` pass it although the exact sums differ by 1. -/
theorem sumMismatch_rounding_example :
    sumMismatch exLargeMilestoneInputs (some 9007199254740992) = false ∧
      |amountSum exLargeMilestoneInputs - 9007199254740992| = 1 := by
  decide!

/-- C1 (as amended): for a `createProject` request of an NGO caller that carries
title, description, category, a non-zero totalRequired, a non-empty milestones
array and a multisig address, with the escrow address configured: the reply is the
milestone-sum error exactly when `|milestoneSum − totalRequired| > 0.0001` as
computed in binary64 (an absent amount counting 0), and then nothing is stored; the
request succeeds exactly when that test is negative, every milestone passes the
schema (non-empty title and description, an amount) and the call data can be
encoded. -/
theorem createProject_sum_rule (env : Env) (user : User) (body : CreateProjectBody)
    (store : Store) (milestones : List MilestoneInput)
    (h : CompleteCreateRequest env user body milestones) :
    ((createProject env user body store).1 = .error 400 .milestoneSum ↔
        sumMismatch milestones body.totalRequired = true) ∧
    (sumMismatch milestones body.totalRequired = true →
        (createProject env user body store).2 = store) ∧
    ((∃ project tx, (createProject env user body store).1 = .created project tx) ↔
        sumMismatch milestones body.totalRequired = false ∧
        (∀ m ∈ milestones, m.wellFormed = true) ∧
        ∃ data, env.encodeCreateProject store.nextId (ngoAddressOf user)
          (body.multisigWalletAddress.getD "")
          (milestones.map (fun m => parseFloat m.requiredAmount)) = .ok data) := by
  obtain ⟨hrole, htitle, hdesc, hcat, htot, hms, hne, hmulti, hescrow⟩ := h
  obtain ⟨total, htotal⟩ : ∃ t, body.totalRequired = some t := by
    cases hb : body.totalRequired <;> simp [hb, truthyNum] at htot ⊢
  have hlen : milestones.length ≠ 0 := by simpa using hne
  have hcast := castMilestones_ok_iff milestones
  obtain ⟨t, ht, ht0⟩ := (truthyStr_iff _).1 htitle
  obtain ⟨d, hd, hd0⟩ := (truthyStr_iff _).1 hdesc
  obtain ⟨c, hc, hc0⟩ := (truthyStr_iff _).1 hcat
  have htot1 : truthyNum (some total) = true := htotal ▸ htot
  have hpf : parseFloat (some total) = JSNumber.num total := rfl
  simp only [createProject, hrole, hms, htitle, hdesc, hcat, hmulti, hescrow, hlen, htotal,
    htot1, Option.getD_some]
  cases hmis : sumMismatch milestones (some total) with
  | true => simp
  | false =>
    simp only [Bool.false_eq_true, if_false]
    cases hcm : castMilestones (List.map draftMilestone milestones) with
    | error e =>
      have : ¬ ∀ m ∈ milestones, m.wellFormed = true := by
        rw [← hcast]; simp [hcm]
      simp [Store.create, hpf, hcm, this]
    | ok out =>
      have hall : ∀ m ∈ milestones, m.wellFormed = true := by
        rw [← hcast]; exact ⟨out, hcm⟩
      simp only [Store.create, hpf, hcm, ht, hd, hc, Option.getD_some, ht0, hd0, hc0]
      cases henc : env.encodeCreateProject store.nextId (ngoAddressOf user)
          (body.multisigWalletAddress.getD "")
          (milestones.map (fun m => parseFloat m.requiredAmount)) with
      | error e => simp [prepareCreateProjectTransaction, henc]
      | ok data =>
        simp [prepareCreateProjectTransaction, henc]
        exact hall

/-- C1 (witness): the milestones 0.5, 0.3, 0.2 against totalRequired 1 pass the sum
test and the project is created. -/
theorem createProject_sum_rule_witness :
    CompleteCreateRequest (exEnv (exOnChain 0 0 false)) exNgo (exCreateBody 1 exMilestoneInputs)
        exMilestoneInputs ∧
      sumMismatch exMilestoneInputs (some 1) = false ∧
      ∃ project tx, (createProject (exEnv (exOnChain 0 0 false)) exNgo
        (exCreateBody 1 exMilestoneInputs) emptyStore).1 = .created project tx :=
  ⟨by unfold CompleteCreateRequest; decide!, by decide!,
   (createProject_sum_rule (exEnv (exOnChain 0 0 false)) exNgo (exCreateBody 1 exMilestoneInputs)
      emptyStore exMilestoneInputs (by unfold CompleteCreateRequest; decide!)).2.2.2
      ⟨by decide!, by decide, _, rfl⟩⟩

/-- C1 (counterexample): a request that carries every listed field, whose single
milestone has amount 1 against totalRequired 1 but no title, passes the sum test
and still does not succeed: `Project.create` throws and nothing is stored. -/
theorem createProject_untitled_milestone_fails :
    CompleteCreateRequest (exEnv (exOnChain 0 0 false)) exNgo (exCreateBody 1 [untitledMilestone])
        [untitledMilestone] ∧
      |amountSum [untitledMilestone] - 1| ≤ 1 / 10000 ∧
      sumMismatch [untitledMilestone] (some 1) = false ∧
      createProject (exEnv (exOnChain 0 0 false)) exNgo (exCreateBody 1 [untitledMilestone])
        emptyStore = (.thrown "ValidationError", emptyStore) := by
  unfold CompleteCreateRequest
  decide!

/-! ## Lemmas on the milestone handlers -/

/-- A truthy `onChainProjectIndex` is a non-zero index. -/
theorem truthyIndex_iff (i : Option Nat) : truthyIndex i = true ↔ ∃ k, i = some k ∧ k ≠ 0 := by
  cases i <;> simp [truthyIndex]

/-- The function `getOnChainMilestone` returns what the RPC read returns. -/
theorem getOnChainMilestone_ok_iff (env : Env) (a : Option String) (k idx : Nat)
    (m : OnChainMilestone) :
    getOnChainMilestone env a k idx = .ok m ↔ env.ledger.getMilestone a k idx = .ok m := by
  unfold getOnChainMilestone
  cases env.ledger.getMilestone a k idx <;> simp

/-- The steps of `releaseFunds` after a successful ledger read: a rejection, or the
exception of `res.json` on the reply that carries the ledger milestone. -/
theorem releaseFunds_after_read (env : Env) (now pid idx k : Nat) (store : Store) (p : Project)
    (milestone : Milestone) (m : OnChainMilestone)
    (hp : store.findById pid = some p) (hm : p.milestones[idx]? = some milestone)
    (hk : p.onChainProjectIndex = some k) (hk0 : k ≠ 0)
    (hr : getOnChainMilestone env p.escrowContractAddress k idx = .ok m) :
    releaseFunds env now ⟨some pid, some idx⟩ store =
      if m.state ≠ 2 then (.error 400 (.notApprovedOnChain m.state), store)
      else if m.disputeWindowEnd ≠ 0 ∧ now < m.disputeWindowEnd then
        (.error 400 (.disputeWindowNotElapsed (daysRemaining (m.disputeWindowEnd - now))), store)
      else if m.released then (.error 400 .alreadyReleased, store)
      else (.thrown bigIntNotSerializable, store) := by
  simp [releaseFunds, hp, hm, hk, hk0, truthyIndex, hr, resJson]

/-- The steps of `verifyMilestone` after a successful ledger read: the rejection, or
the exception of `res.json` on the reply that carries the ledger milestone. -/
theorem verifyMilestone_after_read (env : Env) (pid idx k : Nat) (store : Store) (p : Project)
    (milestone : Milestone) (m : OnChainMilestone)
    (hp : store.findById pid = some p) (hm : p.milestones[idx]? = some milestone)
    (hk : p.onChainProjectIndex = some k) (hk0 : k ≠ 0)
    (hr : getOnChainMilestone env p.escrowContractAddress k idx = .ok m) :
    verifyMilestone env ⟨some pid, some idx⟩ store =
      if m.state ≠ 1 then (.error 400 (.notSubmittedOnChain m.state), store)
      else (.thrown bigIntNotSerializable, store) := by
  simp [verifyMilestone, hp, hm, hk, hk0, truthyIndex, hr, resJson]

/-- The handler `releaseFunds` does not change the mirror. -/
theorem releaseFunds_store (env : Env) (now : Nat) (body : MilestoneBody) (store : Store) :
    (releaseFunds env now body store).2 = store := by
  unfold releaseFunds
  repeat' first
    | rfl
    | split
    | dsimp only

/-- The handler `verifyMilestone` does not change the mirror. -/
theorem verifyMilestone_store (env : Env) (body : MilestoneBody) (store : Store) :
    (verifyMilestone env body store).2 = store := by
  unfold verifyMilestone
  repeat' first
    | rfl
    | split
    | dsimp only

/-- C2 (as amended): `releaseFunds` answers with a rejection (an error reply, which
carries no proposal) exactly when one of these fails: both fields are given, the
project exists, the milestone index addresses an existing milestone, the project's
onChainIndex is set and is not 0, and, the ledger read having succeeded, the ledger
state is APPROVED (2), `now ≥ disputeWindowEnd` and `released` is false. A failed
ledger read surfaces as the error of the read, and the mirror is never changed. -/
theorem releaseFunds_rejected_iff (env : Env) (now : Nat) (body : MilestoneBody) (store : Store) :
    ((∃ status message, (releaseFunds env now body store).1 = .error status message) ↔
      ¬ ∃ pid idx p k, body.projectId = some pid ∧ body.milestoneIndex = some idx ∧
        store.findById pid = some p ∧ idx < p.milestones.length ∧
        p.onChainProjectIndex = some k ∧ k ≠ 0 ∧
        ∀ m, getOnChainMilestone env p.escrowContractAddress k idx = .ok m →
          m.state = 2 ∧ m.disputeWindowEnd ≤ now ∧ m.released = false) ∧
    (∀ pid idx p k e, body.projectId = some pid → body.milestoneIndex = some idx →
      store.findById pid = some p → idx < p.milestones.length →
      p.onChainProjectIndex = some k → k ≠ 0 →
      getOnChainMilestone env p.escrowContractAddress k idx = .error e →
      (releaseFunds env now body store).1 = .thrown e) ∧
    (releaseFunds env now body store).2 = store := by
  refine ⟨?_, ?_, releaseFunds_store env now body store⟩
  · rcases body with ⟨_ | pid, _ | idx⟩
    · simp [releaseFunds]
    · simp [releaseFunds]
    · simp [releaseFunds]
    cases hp : store.findById pid with
    | none => simp [releaseFunds, hp]
    | some p =>
      cases hm : p.milestones[idx]? with
      | none =>
        have hlen : ¬ idx < p.milestones.length := by
          intro h; simp [List.getElem?_eq_getElem h] at hm
        simp [releaseFunds, hp, hm, hlen]
      | some milestone =>
        have hlen : idx < p.milestones.length := by
          by_contra h
          rw [List.getElem?_eq_none (not_lt.1 h)] at hm
          cases hm
        cases hk : p.onChainProjectIndex with
        | none => simp [releaseFunds, hp, hm, hk, truthyIndex]
        | some k =>
          by_cases hk0 : k = 0
          · subst hk0
            simp [releaseFunds, hp, hm, hk, truthyIndex]
          · cases hr : getOnChainMilestone env p.escrowContractAddress k idx with
            | error e =>
              simp [releaseFunds, hp, hm, hk, hk0, truthyIndex, hr, hlen]
            | ok m =>
              rw [releaseFunds_after_read env now pid idx k store p milestone m hp hm hk hk0 hr]
              by_cases h1 : m.state = 2
              · by_cases h2 : now < m.disputeWindowEnd
                · have h0 : m.disputeWindowEnd ≠ 0 := by omega
                  simp [h1, h2, h0, hp, hk, hr, hk0, hlen]
                · cases h3 : m.released
                  · simp [h1, h2, h3, hp, hk, hr, hk0, hlen, not_lt.1 h2]
                  · simp [h1, h2, h3, hp, hk, hr, hk0, hlen]
              · simp [h1, hp, hk, hr, hk0, hlen]
  · intro pid idx p k e hpid hidx hp hlen hk hk0 hr
    rcases body with ⟨bp, bi⟩
    simp only at hpid hidx
    subst hpid hidx
    simp [releaseFunds, hp, List.getElem?_eq_getElem hlen, hk, hk0, truthyIndex, hr]

/-- C4: whatever the project, milestone index and time, when the ledger reports
`released == true` for the milestone, `releaseFunds` returns no release proposal. -/
theorem releaseFunds_released_no_proposal (env : Env) (now pid idx k : Nat) (store : Store)
    (p : Project) (m : OnChainMilestone)
    (hp : store.findById pid = some p) (hk : p.onChainProjectIndex = some k)
    (hr : getOnChainMilestone env p.escrowContractAddress k idx = .ok m)
    (hrel : m.released = true) :
    (releaseFunds env now ⟨some pid, some idx⟩ store).1.transactionData = none := by
  cases hm : p.milestones[idx]? with
  | none => simp [releaseFunds, Response.transactionData, hp, hm]
  | some milestone =>
    by_cases hk0 : k = 0
    · subst hk0
      simp [releaseFunds, Response.transactionData, hp, hm, hk, truthyIndex]
    · rw [releaseFunds_after_read env now pid idx k store p milestone m hp hm hk hk0 hr]
      split_ifs <;> simp_all [Response.transactionData]

/-- A positive remaining time has at least one day remaining. -/
theorem daysRemaining_pos (r : Nat) (h : 0 < r) : 1 ≤ daysRemaining r := by
  unfold daysRemaining
  rw [Nat.one_le_iff_ne_zero, ← Nat.pos_iff_ne_zero, Nat.ceil_pos]
  have : (0 : ℚ) < r := by exact_mod_cast h
  positivity

/-- One second remaining is one day remaining. -/
theorem daysRemaining_one : daysRemaining 1 = 1 := by
  unfold daysRemaining
  rw [Nat.ceil_eq_iff (by norm_num)]
  norm_num

/-- C3: the ledger reports milestone 0 of the example project (index 3) APPROVED and
not released, with dispute window end 606800. One second before the end
`releaseFunds` is rejected with 1 day remaining. At the end, and at every later
time, every check passes and the handler prepares the release transaction, but the
reply it builds carries the ledger milestone, so `res.json` throws: the call ends in
the exception and no proposal is sent. -/
theorem releaseFunds_after_window_throws :
    releaseFunds (exEnv (exOnChain 2 606800 false)) 606799 ⟨some 1, some 0⟩
        (exStore (some 3) .PENDING) =
      (.error 400 (.disputeWindowNotElapsed 1), exStore (some 3) .PENDING) ∧
    (∀ now, 606800 ≤ now →
      releaseFunds (exEnv (exOnChain 2 606800 false)) now ⟨some 1, some 0⟩
          (exStore (some 3) .PENDING) =
        (.thrown "Do not know how to serialize a BigInt", exStore (some 3) .PENDING)) ∧
    (releaseFunds (exEnv (exOnChain 2 606800 false)) 606800 ⟨some 1, some 0⟩
        (exStore (some 3) .PENDING)).1.transactionData = none ∧
    resJson (.proposal (exProject (some 3) .PENDING) (exMilestone .PENDING)
        (some (exOnChain 2 606800 false))
        (prepareReleaseFundsTransaction (some "0xE5C") 3 0)) =
      .thrown "Do not know how to serialize a BigInt" := by
  have h : ∀ now, releaseFunds (exEnv (exOnChain 2 606800 false)) now ⟨some 1, some 0⟩
      (exStore (some 3) .PENDING) = _ :=
    fun now => releaseFunds_after_read (exEnv (exOnChain 2 606800 false)) now 1 0 3
      (exStore (some 3) .PENDING) (exProject (some 3) .PENDING) (exMilestone .PENDING)
      (exOnChain 2 606800 false) rfl rfl rfl (by decide) rfl
  refine ⟨?_, fun now hnow => ?_, ?_, rfl⟩
  · have e : (exOnChain 2 606800 false).disputeWindowEnd - 606799 = 1 := by decide
    rw [h, if_neg (by decide), if_pos (by decide), e, daysRemaining_one]
  · have h2 : ¬ ((exOnChain 2 606800 false).disputeWindowEnd ≠ 0 ∧
        now < (exOnChain 2 606800 false).disputeWindowEnd) :=
      fun hc => absurd hc.2 (not_lt.2 hnow)
    rw [h, if_neg (by decide), if_neg h2, if_neg (by decide)]
    rfl
  · rfl

/-- C2 (counterexample): a project whose onChainIndex is set to 0, with an existing
milestone that the ledger reports APPROVED, not released and past its dispute
window, is still refused a release proposal. -/
theorem releaseFunds_index_zero_rejected :
    (exStore (some 0) .PENDING).findById 1 = some (exProject (some 0) .PENDING) ∧
    0 < (exProject (some 0) .PENDING).milestones.length ∧
    (exProject (some 0) .PENDING).onChainProjectIndex = some 0 ∧
    getOnChainMilestone (exEnv (exOnChain 2 606800 false))
      (exProject (some 0) .PENDING).escrowContractAddress 0 0 = .ok (exOnChain 2 606800 false) ∧
    (exOnChain 2 606800 false).state = 2 ∧
    (exOnChain 2 606800 false).disputeWindowEnd ≤ 700000 ∧
    (exOnChain 2 606800 false).released = false ∧
    releaseFunds (exEnv (exOnChain 2 606800 false)) 700000 ⟨some 1, some 0⟩
        (exStore (some 0) .PENDING) =
      (.error 400 .notYetOnBlockchain, exStore (some 0) .PENDING) := by
  refine ⟨rfl, by decide, rfl, rfl, rfl, by decide, rfl, rfl⟩

/-- C4 (witness): an APPROVED, released milestone long after its dispute window. -/
theorem releaseFunds_released_no_proposal_witness :
    (exOnChain 2 606800 true).released = true ∧
    (releaseFunds (exEnv (exOnChain 2 606800 true)) 700000 ⟨some 1, some 0⟩
        (exStore (some 3) .PENDING)).1.transactionData = none :=
  ⟨rfl, releaseFunds_released_no_proposal (exEnv (exOnChain 2 606800 true)) 700000 1 0 3
    (exStore (some 3) .PENDING) (exProject (some 3) .PENDING) (exOnChain 2 606800 true)
    rfl rfl rfl rfl⟩

/-- A project found under an id has that id. -/
theorem findById_id (s : Store) (id : Nat) (p : Project) (h : s.findById id = some p) :
    p.id = id := by
  have := List.find?_some h
  simpa using this

/-- Replacing by id keeps the replaced document findable. -/
theorem find_map_self (l : List Project) (p q : Project)
    (h : l.find? (fun r => r.id == q.id) = some p) :
    (l.map (fun r => if r.id == q.id then q else r)).find? (fun r => r.id == q.id) = some q := by
  induction l with
  | nil => simp at h
  | cons r l ih =>
    rw [List.map_cons, List.find?_cons]
    rw [List.find?_cons] at h
    cases hr : (r.id == q.id) with
    | true => simp
    | false =>
      rw [hr] at h
      simp only [Bool.false_eq_true, if_false, hr]
      exact ih h

/-- Replacing by id does not change what is found under another id. -/
theorem find_map_other (l : List Project) (q : Project) (id : Nat) (h : id ≠ q.id) :
    (l.map (fun r => if r.id == q.id then q else r)).find? (fun r => r.id == id) =
      l.find? (fun r => r.id == id) := by
  induction l with
  | nil => rfl
  | cons r l ih =>
    rw [List.map_cons, List.find?_cons, List.find?_cons, ih]
    cases hr : (r.id == q.id) with
    | true =>
      have h1 : (q.id == id) = false := by simpa using fun e => h e.symm
      have h2 : (r.id == id) = false := by
        have : r.id = q.id := by simpa using hr
        simpa [this] using fun e => h e.symm
      simp only [if_true, h1, h2]
    | false => simp only [Bool.false_eq_true, if_false]

/-- After `save` the saved document is what `findById` returns. -/
theorem findById_save_self (s : Store) (p q : Project) (h : s.findById q.id = some p) :
    (s.save q).findById q.id = some q :=
  find_map_self s.projects p q h

/-- After `save` every other document is as before. -/
theorem findById_save_other (s : Store) (q : Project) (id : Nat) (h : id ≠ q.id) :
    (s.save q).findById id = s.findById id :=
  find_map_other s.projects q id h

/-- The steps of `submitMilestone` once the caller is the owning NGO and the
request addresses an existing milestone with a proof hash. -/
theorem submitMilestone_owner (user : User) (store : Store) (pid idx : Nat) (hash : String)
    (doc : Option String) (p : Project) (milestone : Milestone)
    (hrole : user.role = .ngo) (hhash : hash ≠ "")
    (hp : store.findById pid = some p) (hown : p.ngo = user.id)
    (hm : p.milestones[idx]? = some milestone) :
    submitMilestone user ⟨some pid, some idx, some hash, doc⟩ store =
      if milestone.onChainState = .SUBMITTED ∨ milestone.onChainState = .APPROVED then
        (.error 400 .alreadySubmitted, store)
      else if truthyIndex p.onChainProjectIndex = false then
        (.error 400 .notYetOnBlockchainSyncFirst, store)
      else
        (.proposal { p with milestones := p.milestones.set idx (recordProof milestone hash doc) }
          (recordProof milestone hash doc) none
          (prepareSubmitMilestoneTransaction p.escrowContractAddress
            (p.onChainProjectIndex.getD 0) idx hash),
         store.save { p with milestones := p.milestones.set idx (recordProof milestone hash doc) }) := by
  simp [submitMilestone, hrole, hhash, hp, hown, hm, truthyStr]

/-- A proposal of `submitMilestone` comes from the owning NGO addressing an existing
milestone of a project on the ledger. -/
theorem submitMilestone_proposal_inv (user : User) (body : SubmitBody) (store store1 : Store)
    (p1 : Project) (m1 : Milestone) (oc : Option OnChainMilestone) (tx : TxData)
    (h : submitMilestone user body store = (.proposal p1 m1 oc tx, store1)) :
    ∃ pid idx hash p m k,
      body.projectId = some pid ∧ body.milestoneIndex = some idx ∧
      body.proofHash = some hash ∧ hash ≠ "" ∧ user.role = .ngo ∧
      store.findById pid = some p ∧ p.ngo = user.id ∧ p.milestones[idx]? = some m ∧
      m.onChainState ≠ .SUBMITTED ∧ m.onChainState ≠ .APPROVED ∧
      p.onChainProjectIndex = some k ∧ k ≠ 0 ∧
      m1 = recordProof m hash body.proofDocument ∧
      p1 = { p with milestones := p.milestones.set idx m1 } ∧
      oc = none ∧ tx = prepareSubmitMilestoneTransaction p.escrowContractAddress k idx hash ∧
      store1 = store.save p1 := by
  by_cases hrole : user.role = .ngo
  swap
  · simp [submitMilestone, hrole] at h
  rcases body with ⟨_ | pid, _ | idx, hashO, doc⟩
  · simp [submitMilestone, hrole] at h
  · simp [submitMilestone, hrole] at h
  · simp [submitMilestone, hrole] at h
  cases hhash : truthyStr hashO with
  | false => simp [submitMilestone, hrole, hhash] at h
  | true =>
    obtain ⟨hash, rfl, hne⟩ := (truthyStr_iff _).1 hhash
    cases hp : store.findById pid with
    | none => simp [submitMilestone, hrole, hhash, hp] at h
    | some p =>
      by_cases hown : p.ngo = user.id
      swap
      · simp [submitMilestone, hrole, hhash, hp, hown] at h
      cases hm : p.milestones[idx]? with
      | none => simp [submitMilestone, hrole, hhash, hp, hown, hm] at h
      | some m =>
        rw [submitMilestone_owner user store pid idx hash doc p m hrole hne hp hown hm] at h
        split_ifs at h with h1 h2
        · simp at h
        · simp at h
        · have h2' : truthyIndex p.onChainProjectIndex = true := by simpa using h2
          obtain ⟨k, hk, hk0⟩ := (truthyIndex_iff _).1 h2'
          simp only [Prod.mk.injEq, Response.proposal.injEq] at h
          obtain ⟨⟨hp1, hm1, hoc, htx⟩, hs1⟩ := h
          refine ⟨pid, idx, hash, p, m, k, rfl, rfl, rfl, hne, hrole, hp, hown, hm,
            fun e => h1 (Or.inl e), fun e => h1 (Or.inr e), hk, hk0, hm1.symm, ?_, hoc.symm, ?_, ?_⟩
          · rw [← hm1]; exact hp1.symm
          · rw [← htx, hk]; rfl
          · rw [← hs1, hp1]

/-- Replacing a mirrored ledger state keeps the id, the addresses, the ledger index
and the number of milestones. -/
theorem withOnChainState_frame (p : Project) (j : Nat) (state : OnChainState) :
    (p.withOnChainState j state).id = p.id ∧
    (p.withOnChainState j state).escrowContractAddress = p.escrowContractAddress ∧
    (p.withOnChainState j state).onChainProjectIndex = p.onChainProjectIndex ∧
    (p.withOnChainState j state).milestones.length = p.milestones.length := by
  unfold Project.withOnChainState
  cases p.milestones[j]? <;> simp

/-- The verdict of `verifyMilestone` is determined by the found project's escrow
address and ledger index and by whether the milestone index is in range. -/
theorem verifyMilestone_verdict_congr (env : Env) (pid idx : Nat) (s1 s2 : Store)
    (p1 p2 : Project) (h1 : s1.findById pid = some p1) (h2 : s2.findById pid = some p2)
    (ha : p2.escrowContractAddress = p1.escrowContractAddress)
    (hk : p2.onChainProjectIndex = p1.onChainProjectIndex)
    (hl : p2.milestones.length = p1.milestones.length) :
    (verifyMilestone env ⟨some pid, some idx⟩ s2).1.verdict =
      (verifyMilestone env ⟨some pid, some idx⟩ s1).1.verdict := by
  by_cases hlt : idx < p1.milestones.length
  · have hlt2 : idx < p2.milestones.length := hl ▸ hlt
    simp only [verifyMilestone, h1, h2, List.getElem?_eq_getElem hlt,
      List.getElem?_eq_getElem hlt2, ha, hk]
    split_ifs
    · rfl
    · cases getOnChainMilestone env p1.escrowContractAddress (p1.onChainProjectIndex.getD 0) idx with
      | error e => rfl
      | ok m => dsimp only; split_ifs <;> rfl
  · have hlt2 : ¬ idx < p2.milestones.length := hl ▸ hlt
    simp [verifyMilestone, h1, h2, List.getElem?_eq_none (not_lt.1 hlt),
      List.getElem?_eq_none (not_lt.1 hlt2), Response.verdict]

/-- C6 (as amended): `verifyMilestone` answers with a rejection (an error reply, which
carries no proposal) exactly when one of these fails: both fields are given, the
project and the milestone exist, the project's onChainIndex is set and is not 0, and,
the ledger read having succeeded, the ledger state is SUBMITTED (1). A failed ledger
read surfaces as the error of the read. Replacing the mirrored ledgerState of any
milestone of any project leaves the verdict unchanged. -/
theorem verifyMilestone_rejected_iff (env : Env) (body : MilestoneBody) (store : Store) :
    ((∃ status message, (verifyMilestone env body store).1 = .error status message) ↔
      ¬ ∃ pid idx p k, body.projectId = some pid ∧ body.milestoneIndex = some idx ∧
        store.findById pid = some p ∧ idx < p.milestones.length ∧
        p.onChainProjectIndex = some k ∧ k ≠ 0 ∧
        ∀ m, getOnChainMilestone env p.escrowContractAddress k idx = .ok m → m.state = 1) ∧
    (∀ pid idx p k e, body.projectId = some pid → body.milestoneIndex = some idx →
      store.findById pid = some p → idx < p.milestones.length →
      p.onChainProjectIndex = some k → k ≠ 0 →
      getOnChainMilestone env p.escrowContractAddress k idx = .error e →
      (verifyMilestone env body store).1 = .thrown e) ∧
    (∀ pid p j state, store.findById pid = some p →
      (verifyMilestone env body (store.save (p.withOnChainState j state))).1.verdict =
        (verifyMilestone env body store).1.verdict) := by
  refine ⟨?_, ?_, ?_⟩
  · rcases body with ⟨_ | pid, _ | idx⟩
    · simp [verifyMilestone]
    · simp [verifyMilestone]
    · simp [verifyMilestone]
    cases hp : store.findById pid with
    | none => simp [verifyMilestone, hp]
    | some p =>
      cases hm : p.milestones[idx]? with
      | none =>
        have hlen : ¬ idx < p.milestones.length := by
          intro h; simp [List.getElem?_eq_getElem h] at hm
        simp [verifyMilestone, hp, hm, hlen]
      | some milestone =>
        have hlen : idx < p.milestones.length := by
          by_contra h
          rw [List.getElem?_eq_none (not_lt.1 h)] at hm
          cases hm
        cases hk : p.onChainProjectIndex with
        | none => simp [verifyMilestone, hp, hm, hk, truthyIndex]
        | some k =>
          by_cases hk0 : k = 0
          · subst hk0
            simp [verifyMilestone, hp, hm, hk, truthyIndex]
          · cases hr : getOnChainMilestone env p.escrowContractAddress k idx with
            | error e =>
              simp [verifyMilestone, hp, hm, hk, hk0, truthyIndex, hr, hlen]
            | ok m =>
              rw [verifyMilestone_after_read env pid idx k store p milestone m hp hm hk hk0 hr]
              by_cases h1 : m.state = 1
              · simp [h1, hp, hk, hr, hk0, hlen]
              · simp [h1, hp, hk, hr, hk0, hlen]
  · intro pid idx p k e hpid hidx hp hlen hk hk0 hr
    rcases body with ⟨bp, bi⟩
    simp only at hpid hidx
    subst hpid hidx
    simp [verifyMilestone, hp, List.getElem?_eq_getElem hlen, hk, hk0, truthyIndex, hr]
  · intro pid p j state hp
    have hid := findById_id store pid p hp
    obtain ⟨fid, fa, fk, fl⟩ := withOnChainState_frame p j state
    rcases body with ⟨_ | pid', _ | idx⟩
    · rfl
    · rfl
    · rfl
    by_cases hpid : pid' = pid
    · subst hpid
      have hs : (store.save (p.withOnChainState j state)).findById pid' =
          some (p.withOnChainState j state) := by
        have := findById_save_self store p (p.withOnChainState j state) (by rw [fid, hid]; exact hp)
        rwa [fid, hid] at this
      exact verifyMilestone_verdict_congr env pid' idx store _ p _ hp hs fa fk fl
    · have hs : (store.save (p.withOnChainState j state)).findById pid' = store.findById pid' :=
        findById_save_other store _ pid' (by rw [fid, hid]; exact hpid)
      cases hq : store.findById pid' with
      | none => simp [verifyMilestone, hs, hq]
      | some q =>
        exact verifyMilestone_verdict_congr env pid' idx store _ q q hq (hs.trans hq) rfl rfl rfl

/-- C6 (counterexample): a project whose onChainIndex is set to 0, with an existing
milestone that the ledger reports SUBMITTED, is refused an approval proposal. -/
theorem verifyMilestone_index_zero_rejected :
    (exStore (some 0) .SUBMITTED).findById 1 = some (exProject (some 0) .SUBMITTED) ∧
    0 < (exProject (some 0) .SUBMITTED).milestones.length ∧
    (exProject (some 0) .SUBMITTED).onChainProjectIndex = some 0 ∧
    getOnChainMilestone (exEnv (exOnChain 1 0 false))
      (exProject (some 0) .SUBMITTED).escrowContractAddress 0 0 = .ok (exOnChain 1 0 false) ∧
    (exOnChain 1 0 false).state = 1 ∧
    verifyMilestone (exEnv (exOnChain 1 0 false)) ⟨some 1, some 0⟩ (exStore (some 0) .SUBMITTED) =
      (.error 400 .notYetOnBlockchain, exStore (some 0) .SUBMITTED) := by
  refine ⟨rfl, by decide, rfl, rfl, rfl, rfl⟩

/-- A `submitMilestone` reply without proposal leaves the mirror unchanged. -/
theorem submitMilestone_store_of_error (user : User) (body : SubmitBody) (store : Store) :
    (submitMilestone user body store).1.transactionData = none →
      (submitMilestone user body store).2 = store := by
  unfold submitMilestone
  repeat' first
    | (intro _; rfl)
    | split
    | dsimp only
  intro h
  simp [Response.transactionData] at h

/-- C5 (as amended): once the ledger reports `released == true` for a milestone of
a project that is on the ledger, `releaseFunds` fails with the already-released
message when the ledger state is APPROVED and the dispute window has elapsed, with
the dispute-window message while the window is open, and with the not-APPROVED
message when the state is not APPROVED; `verifyMilestone` does not look at the flag:
it is rejected with the not-SUBMITTED message when the ledger state is not SUBMITTED,
and with ledger state SUBMITTED it sends no rejection, the already-released one
included. -/
theorem released_outcomes (env : Env) (now pid idx k : Nat) (store : Store) (p : Project)
    (milestone : Milestone) (m : OnChainMilestone)
    (hp : store.findById pid = some p) (hm : p.milestones[idx]? = some milestone)
    (hk : p.onChainProjectIndex = some k) (hk0 : k ≠ 0)
    (hr : getOnChainMilestone env p.escrowContractAddress k idx = .ok m)
    (hrel : m.released = true) :
    (m.state = 2 → m.disputeWindowEnd ≤ now →
      releaseFunds env now ⟨some pid, some idx⟩ store = (.error 400 .alreadyReleased, store)) ∧
    (m.state = 2 → now < m.disputeWindowEnd →
      releaseFunds env now ⟨some pid, some idx⟩ store =
        (.error 400 (.disputeWindowNotElapsed (daysRemaining (m.disputeWindowEnd - now))), store)) ∧
    (m.state ≠ 2 →
      releaseFunds env now ⟨some pid, some idx⟩ store =
        (.error 400 (.notApprovedOnChain m.state), store)) ∧
    (m.state ≠ 1 →
      verifyMilestone env ⟨some pid, some idx⟩ store =
        (.error 400 (.notSubmittedOnChain m.state), store)) ∧
    (m.state = 1 → ∀ status message,
      (verifyMilestone env ⟨some pid, some idx⟩ store).1 ≠ .error status message) := by
  rw [releaseFunds_after_read env now pid idx k store p milestone m hp hm hk hk0 hr,
    verifyMilestone_after_read env pid idx k store p milestone m hp hm hk hk0 hr]
  refine ⟨fun h1 h2 => ?_, fun h1 h2 => ?_, fun h1 => ?_, fun h1 => ?_, fun h1 => ?_⟩
  · have : ¬ now < m.disputeWindowEnd := by omega
    simp [h1, this, hrel]
  · have : m.disputeWindowEnd ≠ 0 := by omega
    simp [h1, h2, this]
  · simp [h1]
  · simp [h1]
  · simp [h1]

/-- C5 (witness): an APPROVED, released milestone after its dispute window. -/
theorem released_outcomes_witness :
    (exOnChain 2 606800 true).released = true ∧
    releaseFunds (exEnv (exOnChain 2 606800 true)) 700000 ⟨some 1, some 0⟩
        (exStore (some 3) .PENDING) =
      (.error 400 .alreadyReleased, exStore (some 3) .PENDING) :=
  ⟨rfl, (released_outcomes (exEnv (exOnChain 2 606800 true)) 700000 1 0 3
    (exStore (some 3) .PENDING) (exProject (some 3) .PENDING) (exMilestone .PENDING)
    (exOnChain 2 606800 true) rfl rfl rfl (by decide) rfl rfl).1 rfl (by decide)⟩

/-- C5 (counterexample): the ledger reports the milestone APPROVED and released, the
mirror still holds PENDING, and `submitMilestone` returns a submission proposal. -/
theorem submitMilestone_ignores_released :
    getOnChainMilestone (exEnv (exOnChain 2 606800 true)) (some "0xE5C") 3 0 =
      .ok (exOnChain 2 606800 true) ∧
    (exOnChain 2 606800 true).released = true ∧
    (submitMilestone exNgo exSubmitBody (exStore (some 3) .PENDING)).1.transactionData =
      some (prepareSubmitMilestoneTransaction (some "0xE5C") 3 0 "Qm123") := by
  refine ⟨rfl, rfl, ?_⟩
  decide

/-- C7: a `submitMilestone` request by the owning NGO with a non-empty proofHash,
for a milestone whose mirrored ledgerState is SUBMITTED or APPROVED, is rejected
with the already-submitted message; no proposal is returned and the mirror is the
one before the request. -/
theorem submitMilestone_already_submitted (user : User) (store : Store) (pid idx : Nat)
    (hash : String) (doc : Option String) (p : Project) (milestone : Milestone)
    (hrole : user.role = .ngo) (hhash : hash ≠ "")
    (hp : store.findById pid = some p) (hown : p.ngo = user.id)
    (hm : p.milestones[idx]? = some milestone)
    (hstate : milestone.onChainState = .SUBMITTED ∨ milestone.onChainState = .APPROVED) :
    submitMilestone user ⟨some pid, some idx, some hash, doc⟩ store =
        (.error 400 .alreadySubmitted, store) ∧
      (submitMilestone user ⟨some pid, some idx, some hash, doc⟩ store).1.transactionData =
        none := by
  rw [submitMilestone_owner user store pid idx hash doc p milestone hrole hhash hp hown hm]
  simp [hstate, Response.transactionData]

/-- C7 (witness): the owner submits for a milestone mirrored as SUBMITTED. -/
theorem submitMilestone_already_submitted_witness :
    (exMilestone .SUBMITTED).onChainState = .SUBMITTED ∧
    submitMilestone exNgo exSubmitBody (exStore (some 3) .SUBMITTED) =
      (.error 400 .alreadySubmitted, exStore (some 3) .SUBMITTED) :=
  ⟨rfl, (submitMilestone_already_submitted exNgo (exStore (some 3) .SUBMITTED) 1 0 "Qm123" none
    (exProject (some 3) .SUBMITTED) (exMilestone .SUBMITTED) rfl (by decide) rfl rfl rfl
    (Or.inl rfl)).1⟩

/-- C8: after a successful `submitMilestone` the addressed milestone has status
in-progress, ledgerState PENDING, the supplied proofHash and the supplied
proofDocument (null when none is supplied); its other fields, every other
milestone, every other field of the project and every other project of the mirror
are unchanged. -/
theorem submitMilestone_effect (user : User) (body : SubmitBody) (store store1 : Store)
    (p1 : Project) (m1 : Milestone) (oc : Option OnChainMilestone) (tx : TxData)
    (h : submitMilestone user body store = (.proposal p1 m1 oc tx, store1)) :
    ∃ pid idx hash p m,
      body.projectId = some pid ∧ body.milestoneIndex = some idx ∧
      body.proofHash = some hash ∧ store.findById pid = some p ∧
      p.milestones[idx]? = some m ∧
      m1.status = .inProgress ∧ m1.onChainState = .PENDING ∧ m1.proofHash = some hash ∧
      m1.proofDocument = (if truthyStr body.proofDocument then body.proofDocument else none) ∧
      { m1 with status := m.status, onChainState := m.onChainState, proofHash := m.proofHash,
                proofDocument := m.proofDocument } = m ∧
      p1.milestones[idx]? = some m1 ∧
      (∀ j, j ≠ idx → p1.milestones[j]? = p.milestones[j]?) ∧
      p1.milestones.length = p.milestones.length ∧
      { p1 with milestones := p.milestones } = p ∧
      store1.findById pid = some p1 ∧
      (∀ q, q ≠ pid → store1.findById q = store.findById q) ∧
      store1.nextId = store.nextId ∧ store1.projects.length = store.projects.length := by
  obtain ⟨pid, idx, hash, p, m, k, hpid, hidx, hhash, hne, hrole, hp, hown, hm, hs, ha, hk, hk0,
    hm1, hp1, hoc, htx, hs1⟩ := submitMilestone_proposal_inv user body store store1 p1 m1 oc tx h
  have hid := findById_id store pid p hp
  have hlt : idx < p.milestones.length := by
    by_contra hc
    rw [List.getElem?_eq_none (not_lt.1 hc)] at hm
    cases hm
  have hp1id : p1.id = pid := by rw [hp1]; exact hid
  refine ⟨pid, idx, hash, p, m, hpid, hidx, hhash, hp, hm, ?_, ?_, ?_, ?_, ?_, ?_, ?_, ?_, ?_,
    ?_, ?_, ?_, ?_⟩
  · rw [hm1]; rfl
  · rw [hm1]; rfl
  · rw [hm1]; rfl
  · rw [hm1]; rfl
  · rw [hm1]; rfl
  · rw [hp1]; simp [List.getElem?_set, hlt]
  · intro j hj
    rw [hp1]
    simp [List.getElem?_set, Ne.symm hj]
  · rw [hp1]; simp
  · rw [hp1]
  · rw [hs1]
    have := findById_save_self store p p1 (by rw [hp1id]; exact hp)
    rwa [hp1id] at this
  · intro q hq
    rw [hs1]
    exact findById_save_other store p1 q (by rw [hp1id]; exact hq)
  · rw [hs1]; rfl
  · rw [hs1]; simp [Store.save]

/-- C8 (witness): the owner submits proof `Qm123` for milestone 0. -/
theorem submitMilestone_effect_witness :
    submitMilestone exNgo exSubmitBody (exStore (some 3) .PENDING) =
      (.proposal exSubmittedProject exSubmittedMilestone none
        (prepareSubmitMilestoneTransaction (some "0xE5C") 3 0 "Qm123"),
       { projects := [exSubmittedProject], nextId := 2 }) ∧
    exSubmittedMilestone.onChainState = .PENDING ∧
    exSubmittedMilestone.status = .inProgress ∧
    exSubmittedProject.milestones.length = (exProject (some 3) .PENDING).milestones.length := by
  have hrun : submitMilestone exNgo exSubmitBody (exStore (some 3) .PENDING) =
      (.proposal exSubmittedProject exSubmittedMilestone none
        (prepareSubmitMilestoneTransaction (some "0xE5C") 3 0 "Qm123"),
       { projects := [exSubmittedProject], nextId := 2 }) := rfl
  obtain ⟨pid, idx, hash, p, m, hpid, -, -, hp, -, hst, hpend, -, -, -, -, -, hlen, -⟩ :=
    submitMilestone_effect _ _ _ _ _ _ _ _ hrun
  have h1 : pid = 1 := by
    have : some 1 = some pid := hpid
    exact (Option.some.inj this).symm
  subst h1
  have h2 : p = exProject (some 3) .PENDING := by
    have : some (exProject (some 3) .PENDING) = some p := hp
    exact (Option.some.inj this).symm
  subst h2
  exact ⟨hrun, hpend, hst, hlen⟩

/-- C10 (as amended): a caller whose role is not ngo is rejected with the 403
access-denied reply; a caller of role ngo whose identity differs from the project's
ngo is rejected with the 403 not-authorized reply when the request carries
projectId, milestoneIndex and proofHash, and with the 400 missing-fields reply when
milestoneIndex or proofHash is missing; either caller gets an error reply and the
mirror is unchanged whatever the request carries; and a proposal is only returned
to the NGO that owns the project. -/
theorem submitMilestone_authorization (user : User) (body : SubmitBody) (store : Store) :
    (user.role ≠ .ngo → submitMilestone user body store = (.error 403 .accessDeniedNgo, store)) ∧
    (∀ pid idx p, user.role = .ngo → body.projectId = some pid → body.milestoneIndex = some idx →
      truthyStr body.proofHash = true → store.findById pid = some p → p.ngo ≠ user.id →
      submitMilestone user body store = (.error 403 .notAuthorizedSubmit, store)) ∧
    (user.role = .ngo → body.milestoneIndex = none ∨ truthyStr body.proofHash = false →
      submitMilestone user body store = (.error 400 .missingSubmitFields, store)) ∧
    (∀ pid p, body.projectId = some pid → store.findById pid = some p →
      user.role ≠ .ngo ∨ p.ngo ≠ user.id →
      (∃ status message, submitMilestone user body store = (.error status message, store))) ∧
    (∀ tx, (submitMilestone user body store).1.transactionData = some tx →
      user.role = .ngo ∧
      ∃ pid p, body.projectId = some pid ∧ store.findById pid = some p ∧ p.ngo = user.id) := by
  refine ⟨fun h => by simp [submitMilestone, h], ?_, ?_, ?_, ?_⟩
  · intro pid idx p hrole hpid hidx hhash hp hown
    rcases body with ⟨pidO, idxO, hashO, doc⟩
    simp only at hpid hidx hhash
    subst hpid hidx
    simp [submitMilestone, hrole, hhash, hp, hown]
  · intro hrole hmiss
    rcases body with ⟨pidO, idxO, hashO, doc⟩
    simp only at hmiss
    rcases hmiss with hidx | hhash
    · subst hidx
      cases pidO <;> simp [submitMilestone, hrole]
    · cases pidO <;> cases idxO <;> simp [submitMilestone, hrole, hhash]
  · intro pid p hpid hp hor
    by_cases hrole : user.role = .ngo
    · have hown : p.ngo ≠ user.id := hor.resolve_left (fun h => h hrole)
      rcases body with ⟨pidO, idxO, hashO, doc⟩
      simp only at hpid
      subst hpid
      cases idxO with
      | none => exact ⟨400, .missingSubmitFields, by simp [submitMilestone, hrole]⟩
      | some idx =>
        cases hhash : truthyStr hashO with
        | false => exact ⟨400, .missingSubmitFields, by simp [submitMilestone, hrole, hhash]⟩
        | true => exact ⟨403, .notAuthorizedSubmit, by simp [submitMilestone, hrole, hhash, hp, hown]⟩
    · exact ⟨403, .accessDeniedNgo, by simp [submitMilestone, hrole]⟩
  · intro tx htx
    cases hres : submitMilestone user body store with
    | mk resp store1 =>
      rw [hres] at htx
      cases resp with
      | proposal p1 m1 oc tx1 =>
        obtain ⟨pid, idx, hash, p, m, k, hpid, -, -, -, hrole, hp, hown, -⟩ :=
          submitMilestone_proposal_inv user body store store1 p1 m1 oc tx1 hres
        exact ⟨hrole, pid, p, hpid, hp, hown⟩
      | created p t =>
        exfalso
        revert hres
        unfold submitMilestone
        repeat' first
          | (intro h; cases h)
          | split
      | error s msg => simp [Response.transactionData] at htx
      | synced a b c => simp [Response.transactionData] at htx
      | thrown e => simp [Response.transactionData] at htx

/-- C10 (counterexample): an NGO that does not own the project and sends no
proofHash is answered with the 400 missing-fields reply, not an authorization error. -/
theorem submitMilestone_missing_hash_by_other_ngo :
    otherNgo.role = .ngo ∧
    (exStore (some 3) .PENDING).findById 1 = some (exProject (some 3) .PENDING) ∧
    (exProject (some 3) .PENDING).ngo ≠ otherNgo.id ∧
    submitMilestone otherNgo ⟨some 1, some 0, none, none⟩ (exStore (some 3) .PENDING) =
      (.error 400 .missingSubmitFields, exStore (some 3) .PENDING) := by
  refine ⟨rfl, rfl, by decide, rfl⟩

/-- A successful `syncProject` stored the resolved, non-zero index on the project. -/
theorem syncProject_synced_inv (env : Env) (pid : Nat) (body : SyncBody) (store store1 : Store)
    (p project : Project) (onChain : OnChainProject) (receipt : Receipt)
    (hp : store.findById pid = some p)
    (h : syncProject env pid body store = (.synced project onChain receipt, store1)) :
    ∃ k, k ≠ 0 ∧ k = getProjectIndex env p.escrowContractAddress p.id ∧
      project = { p with onChainProjectIndex := some k } ∧ store1 = store.save project := by
  unfold syncProject at h
  rw [hp] at h
  split_ifs at h with h1
  · cases h
  · dsimp only at h
    cases hv : verifyTransaction env (body.txHash.getD "") with
    | error e => rw [hv] at h; cases h
    | ok r =>
      rw [hv] at h
      dsimp only at h
      split_ifs at h with h2 h3
      · cases h
      · cases h
      · cases hg : getOnChainProject env p.escrowContractAddress
            (getProjectIndex env p.escrowContractAddress p.id) with
        | error e => rw [hg] at h; cases h
        | ok oc =>
          rw [hg] at h
          simp only [Prod.mk.injEq, Response.synced.injEq] at h
          obtain ⟨⟨hproj, -, -⟩, hs⟩ := h
          exact ⟨_, h3, rfl, hproj.symm, by rw [← hs, hproj]⟩

/-- C9 (as amended): for a project whose onChainIndex is null, `submitMilestone`,
`verifyMilestone` and `releaseFunds` answer with an error reply and leave the mirror
unchanged, and the replies of the two ledger-reading handlers do not depend on the
ledger or the time; the error is the not-yet-on-blockchain one when the request
passes the checks made before it (an existing milestone; for `submitMilestone` also
the owning NGO, a proofHash and a mirrored state that is neither SUBMITTED nor
APPROVED); and after a successful `syncProject` that same submission returns the
`submitMilestone` call on the resolved, non-zero index. -/
theorem null_index_refused (store : Store) (pid : Nat) (p : Project)
    (hp : store.findById pid = some p) (hnull : p.onChainProjectIndex = none) :
    (∀ user body, body.projectId = some pid →
      ∃ status message, submitMilestone user body store = (.error status message, store)) ∧
    (∀ env body, body.projectId = some pid →
      (∃ status message, verifyMilestone env body store = (.error status message, store)) ∧
      ∀ env', verifyMilestone env' body store = verifyMilestone env body store) ∧
    (∀ env now body, body.projectId = some pid →
      (∃ status message, releaseFunds env now body store = (.error status message, store)) ∧
      ∀ env' now', releaseFunds env' now' body store = releaseFunds env now body store) ∧
    (∀ env now idx milestone, p.milestones[idx]? = some milestone →
      verifyMilestone env ⟨some pid, some idx⟩ store = (.error 400 .notYetOnBlockchain, store) ∧
      releaseFunds env now ⟨some pid, some idx⟩ store =
        (.error 400 .notYetOnBlockchain, store)) ∧
    (∀ user idx hash doc milestone, user.role = .ngo → p.ngo = user.id → hash ≠ "" →
      p.milestones[idx]? = some milestone →
      milestone.onChainState ≠ .SUBMITTED → milestone.onChainState ≠ .APPROVED →
      submitMilestone user ⟨some pid, some idx, some hash, doc⟩ store =
        (.error 400 .notYetOnBlockchainSyncFirst, store) ∧
      ∀ env syncBody project onChain receipt store1,
        syncProject env pid syncBody store = (.synced project onChain receipt, store1) →
        ∃ k, k ≠ 0 ∧ project.onChainProjectIndex = some k ∧
          (submitMilestone user ⟨some pid, some idx, some hash, doc⟩ store1).1.transactionData =
            some (prepareSubmitMilestoneTransaction p.escrowContractAddress k idx hash)) := by
  refine ⟨?_, ?_, ?_, ?_, ?_⟩
  · intro user body hpid
    rcases body with ⟨pidO, idxO, hashO, doc⟩
    simp only at hpid
    subst hpid
    by_cases hrole : user.role = .ngo
    swap
    · exact ⟨403, .accessDeniedNgo, by simp [submitMilestone, hrole]⟩
    cases idxO with
    | none => exact ⟨400, .missingSubmitFields, by simp [submitMilestone, hrole]⟩
    | some idx =>
      cases hhash : truthyStr hashO with
      | false => exact ⟨400, .missingSubmitFields, by simp [submitMilestone, hrole, hhash]⟩
      | true =>
        by_cases hown : p.ngo = user.id
        swap
        · exact ⟨403, .notAuthorizedSubmit, by simp [submitMilestone, hrole, hhash, hp, hown]⟩
        cases hm : p.milestones[idx]? with
        | none =>
          exact ⟨404, .milestoneNotFound, by simp [submitMilestone, hrole, hhash, hp, hown, hm]⟩
        | some m =>
          obtain ⟨hash, rfl, hne⟩ := (truthyStr_iff _).1 hhash
          rw [submitMilestone_owner user store _ idx hash doc p m hrole hne hp hown hm]
          split_ifs with h1 h2
          · exact ⟨_, _, rfl⟩
          · exact ⟨_, _, rfl⟩
          · simp [hnull, truthyIndex] at h2
  · intro env body hpid
    rcases body with ⟨pidO, idxO⟩
    simp only at hpid
    subst hpid
    cases idxO with
    | none => exact ⟨⟨_, _, rfl⟩, fun _ => rfl⟩
    | some idx =>
      cases hm : p.milestones[idx]? with
      | none =>
        exact ⟨⟨404, .milestoneNotFound, by simp [verifyMilestone, hp, hm]⟩,
          fun _ => by simp [verifyMilestone, hp, hm]⟩
      | some m =>
        exact ⟨⟨400, .notYetOnBlockchain, by simp [verifyMilestone, hp, hm, hnull, truthyIndex]⟩,
          fun _ => by simp [verifyMilestone, hp, hm, hnull, truthyIndex]⟩
  · intro env now body hpid
    rcases body with ⟨pidO, idxO⟩
    simp only at hpid
    subst hpid
    cases idxO with
    | none => exact ⟨⟨_, _, rfl⟩, fun _ _ => rfl⟩
    | some idx =>
      cases hm : p.milestones[idx]? with
      | none =>
        exact ⟨⟨404, .milestoneNotFound, by simp [releaseFunds, hp, hm]⟩,
          fun _ _ => by simp [releaseFunds, hp, hm]⟩
      | some m =>
        exact ⟨⟨400, .notYetOnBlockchain, by simp [releaseFunds, hp, hm, hnull, truthyIndex]⟩,
          fun _ _ => by simp [releaseFunds, hp, hm, hnull, truthyIndex]⟩
  · intro env now idx m hm
    exact ⟨by simp [verifyMilestone, hp, hm, hnull, truthyIndex],
      by simp [releaseFunds, hp, hm, hnull, truthyIndex]⟩
  · intro user idx hash doc m hrole hown hne hm hs ha
    refine ⟨?_, ?_⟩
    · rw [submitMilestone_owner user store _ idx hash doc p m hrole hne hp hown hm]
      simp [hs, ha, hnull, truthyIndex]
    · intro env syncBody project onChain receipt store1 hsync
      obtain ⟨k, hk0, -, hproj, hs1⟩ :=
        syncProject_synced_inv env pid syncBody store store1 p project onChain receipt hp hsync
      have hid := findById_id store pid p hp
      have hpid : project.id = pid := by rw [hproj]; exact hid
      have hfind : store1.findById pid = some project := by
        rw [hs1]
        have := findById_save_self store p project (by rw [hpid]; exact hp)
        rwa [hpid] at this
      refine ⟨k, hk0, by rw [hproj], ?_⟩
      rw [submitMilestone_owner user store1 pid idx hash doc project m hrole hne hfind
        (by rw [hproj]; exact hown) (by rw [hproj]; exact hm)]
      simp [hs, ha, hproj, truthyIndex, hk0, Response.transactionData]

/-- C9 (witness): the submission of `Qm123` is refused while onChainIndex is null and
returns the call on index 3 after `syncProject`. -/
theorem null_index_refused_witness :
    (exProject none .PENDING).onChainProjectIndex = none ∧
    submitMilestone exNgo exSubmitBody (exStore none .PENDING) =
      (.error 400 .notYetOnBlockchainSyncFirst, exStore none .PENDING) ∧
    (submitMilestone exNgo exSubmitBody
        (syncProject (exEnv (exOnChain 0 0 false)) 1 ⟨some "0xabc"⟩
          (exStore none .PENDING)).2).1.transactionData =
      some (prepareSubmitMilestoneTransaction (some "0xE5C") 3 0 "Qm123") := by
  have h := (null_index_refused (exStore none .PENDING) 1 (exProject none .PENDING) rfl rfl).2.2.2.2
    exNgo 0 "Qm123" none (exMilestone .PENDING) rfl rfl (by decide) rfl (by decide) (by decide)
  refine ⟨rfl, h.1, ?_⟩
  obtain ⟨k, -, hk, htx⟩ := h.2 (exEnv (exOnChain 0 0 false)) ⟨some "0xabc"⟩ _ _ _ _ rfl
  have hk3 : k = 3 := by
    have : some 3 = some k := hk
    exact (Option.some.inj this).symm
  subst hk3
  exact htx

/-- C9 (counterexample): on a project whose onChainIndex is null, a request for a
milestone index that does not exist is answered with 404 milestone-not-found, not
with the not-yet-on-blockchain reply. -/
theorem verifyMilestone_null_index_unknown_milestone :
    (exStore none .PENDING).findById 1 = some (exProject none .PENDING) ∧
    (exProject none .PENDING).onChainProjectIndex = none ∧
    verifyMilestone (exEnv (exOnChain 1 0 false)) ⟨some 1, some 5⟩ (exStore none .PENDING) =
      (.error 404 .milestoneNotFound, exStore none .PENDING) := by
  refine ⟨rfl, rfl, rfl⟩

/-! ## Lemmas on `syncProject` -/

/-- The steps of `syncProject` once the hash is given, the project exists and the
receipt has been read; `k` is the index the project id resolves to. -/
theorem syncProject_after_receipt (env : Env) (pid k : Nat) (body : SyncBody) (store : Store)
    (p : Project) (r : Receipt)
    (hh : truthyStr body.txHash = true) (hp : store.findById pid = some p)
    (hv : verifyTransaction env (body.txHash.getD "") = .ok r)
    (hk : getProjectIndex env p.escrowContractAddress p.id = k) :
    syncProject env pid body store =
      if r.status = false then (.error 400 .transactionFailed, store) else
      if k = 0 then (.error 400 .notFoundOnBlockchain, store) else
      match getOnChainProject env p.escrowContractAddress k with
      | .error e => (.thrown e, store.save { p with onChainProjectIndex := some k })
      | .ok onChain =>
        (.synced { p with onChainProjectIndex := some k } onChain r,
         store.save { p with onChainProjectIndex := some k }) := by
  subst hk
  unfold syncProject
  rw [hp]
  simp only [hh, hv, Bool.not_true, Bool.false_eq_true, if_false]
  cases r.status <;> simp

/-- Saving a document twice is saving it once. -/
theorem save_save (s : Store) (q : Project) : (s.save q).save q = s.save q := by
  unfold Store.save
  simp only [List.map_map]
  congr 1
  apply List.map_congr_left
  intro a _
  simp only [Function.comp]
  by_cases h : (a.id == q.id) = true
  · simp [h]
  · simp [h]

/-- The mirror after `syncProject`: unchanged, or the project with the resolved,
non-zero index saved. -/
theorem syncProject_store (env : Env) (pid : Nat) (body : SyncBody) (store : Store) :
    (syncProject env pid body store).2 = store ∨
    ∃ p k, store.findById pid = some p ∧
      getProjectIndex env p.escrowContractAddress p.id = k ∧ k ≠ 0 ∧
      (syncProject env pid body store).2 = store.save { p with onChainProjectIndex := some k } := by
  by_cases hh : truthyStr body.txHash = true
  · cases hp : store.findById pid with
    | none => left; unfold syncProject; simp [hh, hp]
    | some p =>
      cases hv : verifyTransaction env (body.txHash.getD "") with
      | error e => left; unfold syncProject; simp [hh, hp, hv]
      | ok r =>
        rw [syncProject_after_receipt env pid _ body store p r hh hp hv rfl]
        by_cases h1 : r.status = false
        · left; simp [h1]
        · by_cases h2 : getProjectIndex env p.escrowContractAddress p.id = 0
          · left; simp [h1, h2]
          · right
            refine ⟨p, _, rfl, rfl, h2, ?_⟩
            simp only [h1, h2, if_false]
            cases getOnChainProject env p.escrowContractAddress
              (getProjectIndex env p.escrowContractAddress p.id) <;> rfl
  · left; unfold syncProject; simp [hh]

/-- After `save` of an updated copy of the document found under `pid`, the copy is
what `findById pid` returns. -/
theorem findById_save_found (s : Store) (pid : Nat) (p q : Project)
    (hp : s.findById pid = some p) (hq : q.id = p.id) :
    (s.save q).findById pid = some q := by
  have hid : p.id = pid := findById_id s pid p hp
  have h := findById_save_self s p q (by rw [hq, hid]; exact hp)
  rwa [hq, hid] at h

/-- C13: a `syncProject` call whose receipt reports a failed transaction is answered
400 'Transaction failed on blockchain' and leaves the mirror exactly as it was. -/
theorem syncProject_failed_receipt (env : Env) (pid : Nat) (body : SyncBody) (store : Store)
    (p : Project) (r : Receipt)
    (hh : truthyStr body.txHash = true) (hp : store.findById pid = some p)
    (hv : verifyTransaction env (body.txHash.getD "") = .ok r)
    (hs : r.status = false) :
    syncProject env pid body store = (.error 400 .transactionFailed, store) := by
  rw [syncProject_after_receipt env pid _ body store p r hh hp hv rfl]
  simp [hs]

/-- Witness of C13: the example sync against a ledger whose receipts report failure. -/
theorem syncProject_failed_receipt_witness :
    syncProject (envOf (ledgerOf false (.ok 3) (.ok exOnChainProject)
        (fun _ => .ok (exOnChain 0 0 false)))) 1 exSyncBody (exStore none .PENDING) =
      (.error 400 .transactionFailed, exStore none .PENDING) :=
  syncProject_failed_receipt
    (envOf (ledgerOf false (.ok 3) (.ok exOnChainProject) (fun _ => .ok (exOnChain 0 0 false))))
    1 exSyncBody (exStore none .PENDING)
    (exProject none .PENDING) (exReceipt false) rfl rfl rfl rfl

/-- C14: a `syncProject` call with a successful receipt whose index resolution
returns 0 is answered 400 'Project not found on blockchain' and leaves the mirror,
and so the project's `onChainProjectIndex`, as it was; and no `syncProject` call
stores the index 0 on a project that did not hold it. -/
theorem syncProject_zero_index (env : Env) (pid : Nat) (body : SyncBody) (store : Store)
    (p : Project) (r : Receipt)
    (hh : truthyStr body.txHash = true) (hp : store.findById pid = some p)
    (hv : verifyTransaction env (body.txHash.getD "") = .ok r)
    (hs : r.status = true)
    (h0 : getProjectIndex env p.escrowContractAddress p.id = 0) :
    syncProject env pid body store = (.error 400 .notFoundOnBlockchain, store) ∧
    (syncProject env pid body store).2.findById pid = some p ∧
    ∀ (env1 : Env) (body1 : SyncBody) (q : Project),
      (syncProject env1 pid body1 store).2.findById pid = some q →
      q.onChainProjectIndex = some 0 → p.onChainProjectIndex = some 0 := by
  have h : syncProject env pid body store = (.error 400 .notFoundOnBlockchain, store) := by
    rw [syncProject_after_receipt env pid 0 body store p r hh hp hv h0]
    simp [hs]
  refine ⟨h, by rw [h]; exact hp, ?_⟩
  intro env1 body1 q hq hq0
  rcases syncProject_store env1 pid body1 store with h1 | ⟨p1, k, hp1, -, hk, h1⟩
  · rw [h1, hp] at hq
    cases hq
    exact hq0
  · rw [hp] at hp1
    cases hp1
    rw [h1, findById_save_found store pid p { p with onChainProjectIndex := some k } hp rfl] at hq
    cases hq
    simp only [Option.some.injEq] at hq0
    exact absurd hq0 hk

/-- Witness of C14: the example sync against a ledger that resolves the project id to 0. -/
theorem syncProject_zero_index_witness :
    syncProject (envOf (ledgerOf true (.ok 0) (.ok exOnChainProject)
        (fun _ => .ok (exOnChain 0 0 false)))) 1 exSyncBody (exStore none .PENDING) =
      (.error 400 .notFoundOnBlockchain, exStore none .PENDING) :=
  (syncProject_zero_index
    (envOf (ledgerOf true (.ok 0) (.ok exOnChainProject) (fun _ => .ok (exOnChain 0 0 false))))
    1 exSyncBody (exStore none .PENDING)
    (exProject none .PENDING) (exReceipt true) rfl rfl rfl rfl rfl).1

/-- The mirrored ledger states of a project survive the `save` of a copy of it with
the same milestones. -/
theorem ledgerStates_save_same (s : Store) (pid : Nat) (p q : Project)
    (hp : s.findById pid = some p) (hid : q.id = p.id) (hms : q.milestones = p.milestones) :
    (s.save q).ledgerStates pid = s.ledgerStates pid := by
  unfold Store.ledgerStates
  rw [findById_save_found s pid p q hp hid, hp]
  simp [hms]

/-- C15 (as amended): after a successful `syncProject` the stored project holds the
index the ledger resolved, which is not 0, the reply carries the ledger project read
at that index, and nothing else of the project changed: its milestones, and so their
mirrored ledger states, are what they were before the call. -/
theorem syncProject_success_effect (env : Env) (pid : Nat) (body : SyncBody)
    (store store1 : Store) (project : Project) (onChain : OnChainProject) (receipt : Receipt)
    (h : syncProject env pid body store = (.synced project onChain receipt, store1)) :
    ∃ p k, store.findById pid = some p ∧
      getProjectIndex env p.escrowContractAddress p.id = k ∧ k ≠ 0 ∧
      project = { p with onChainProjectIndex := some k } ∧
      store1.findById pid = some project ∧
      project.milestones = p.milestones ∧
      store1.ledgerStates pid = store.ledgerStates pid := by
  cases hp : store.findById pid with
  | none =>
    unfold syncProject at h
    rw [hp] at h
    split_ifs at h <;> cases h
  | some p =>
    obtain ⟨k, hk0, hk, hproj, hs1⟩ := syncProject_synced_inv env pid body store store1 p project
      onChain receipt hp h
    refine ⟨p, k, rfl, hk.symm, hk0, hproj, ?_, ?_, ?_⟩
    · rw [hs1]
      exact findById_save_found store pid p project hp (by rw [hproj])
    · rw [hproj]
    · rw [hs1]
      exact ledgerStates_save_same store pid p project hp (by rw [hproj]) (by rw [hproj])

/-- Witness of C15 (as amended): the example sync stores index 3 and leaves the
milestone mirrored as PENDING. -/
theorem syncProject_success_effect_witness :
    ∃ p k, (exStore none .PENDING).findById 1 = some p ∧
      getProjectIndex (exEnv (exOnChain 1 0 false)) p.escrowContractAddress p.id = k ∧ k ≠ 0 ∧
      exProject (some 3) .PENDING = { p with onChainProjectIndex := some k } ∧
      (exStore (some 3) .PENDING).findById 1 = some (exProject (some 3) .PENDING) ∧
      (exProject (some 3) .PENDING).milestones = p.milestones ∧
      (exStore (some 3) .PENDING).ledgerStates 1 = (exStore none .PENDING).ledgerStates 1 :=
  syncProject_success_effect (exEnv (exOnChain 1 0 false)) 1 exSyncBody (exStore none .PENDING)
    (exStore (some 3) .PENDING) (exProject (some 3) .PENDING) exOnChainProject (exReceipt true) rfl

/-- Counterexample to C15: the example sync succeeds while the ledger reports
milestone 0 as SUBMITTED (state 1); afterwards the mirror still holds PENDING. -/
theorem syncProject_leaves_stale_state :
    syncProject (exEnv (exOnChain 1 0 false)) 1 exSyncBody (exStore none .PENDING) =
      (.synced (exProject (some 3) .PENDING) exOnChainProject (exReceipt true),
       exStore (some 3) .PENDING) ∧
    (getOnChainMilestone (exEnv (exOnChain 1 0 false)) (some "0xE5C") 3 0).toOption.bind
      (fun m => OnChainState.ofCode m.state) = some .SUBMITTED ∧
    (exStore (some 3) .PENDING).ledgerStates 1 = some [.PENDING] :=
  ⟨rfl, rfl, rfl⟩

/-- C17: running `syncProject` a second time with the same hash against the same
ledger answers what the first run answered and leaves the mirror as the first run
left it. -/
theorem syncProject_idempotent (env : Env) (pid : Nat) (body : SyncBody) (store : Store) :
    syncProject env pid body (syncProject env pid body store).2 =
      syncProject env pid body store := by
  by_cases hh : truthyStr body.txHash = true
  · cases hp : store.findById pid with
    | none =>
      have e : syncProject env pid body store = (.error 404 .projectNotFound, store) := by
        unfold syncProject; simp [hh, hp]
      rw [e]; exact e
    | some p =>
      cases hv : verifyTransaction env (body.txHash.getD "") with
      | error err =>
        have e : syncProject env pid body store = (.thrown err, store) := by
          unfold syncProject; simp [hh, hp, hv]
        rw [e]; exact e
      | ok r =>
        have h1 := syncProject_after_receipt env pid _ body store p r hh hp hv rfl
        by_cases hs : r.status = false
        · have e : syncProject env pid body store = (.error 400 .transactionFailed, store) := by
            rw [h1]; simp [hs]
          rw [e]; exact e
        · by_cases h0 : getProjectIndex env p.escrowContractAddress p.id = 0
          · have e : syncProject env pid body store =
                (.error 400 .notFoundOnBlockchain, store) := by
              rw [h1]; simp [hs, h0]
            rw [e]; exact e
          · generalize hk : getProjectIndex env p.escrowContractAddress p.id = k at h0 h1
            have hp1 : (store.save { p with onChainProjectIndex := some k }).findById pid =
                some { p with onChainProjectIndex := some k } :=
              findById_save_found store pid p _ hp rfl
            have h2 := syncProject_after_receipt env pid k body
              (store.save { p with onChainProjectIndex := some k })
              { p with onChainProjectIndex := some k } r hh hp1 hv hk
            cases hg : getOnChainProject env p.escrowContractAddress k with
            | error err =>
              have e1 : syncProject env pid body store =
                  (.thrown err, store.save { p with onChainProjectIndex := some k }) := by
                rw [h1]; simp [hs, h0, hg]
              have e2 : syncProject env pid body
                    (store.save { p with onChainProjectIndex := some k }) =
                  (.thrown err, (store.save { p with onChainProjectIndex := some k }).save
                    { p with onChainProjectIndex := some k }) := by
                rw [h2]; simp [hs, h0, hg]
              rw [e1]
              exact e2.trans (by rw [save_save])
            | ok onChain =>
              have e1 : syncProject env pid body store =
                  (.synced { p with onChainProjectIndex := some k } onChain r,
                   store.save { p with onChainProjectIndex := some k }) := by
                rw [h1]; simp [hs, h0, hg]
              have e2 : syncProject env pid body
                    (store.save { p with onChainProjectIndex := some k }) =
                  (.synced { p with onChainProjectIndex := some k } onChain r,
                   (store.save { p with onChainProjectIndex := some k }).save
                    { p with onChainProjectIndex := some k }) := by
                rw [h2]; simp [hs, h0, hg]
              rw [e1]
              exact e2.trans (by rw [save_save])
  · have e : syncProject env pid body store = (.error 400 .txHashRequired, store) := by
      unfold syncProject; simp [hh]
    rw [e]; exact e

/-! ## Failures -/

/-- The mirror after `Store.create`: the new document is appended. -/
theorem create_store (s s1 : Store) (d : ProjectDraft) (p : Project)
    (h : s.create d = .ok (p, s1)) :
    s1 = { projects := s.projects ++ [p], nextId := s.nextId + 1 } := by
  unfold Store.create at h
  split at h
  · split_ifs at h
    simp only [Except.ok.injEq, Prod.mk.injEq] at h
    obtain ⟨hp, hs⟩ := h
    rw [← hs, ← hp]
  · cases h

/-- An error reply of `createProject` leaves the mirror unchanged. -/
theorem createProject_store_of_error (env : Env) (user : User) (body : CreateProjectBody)
    (store : Store) (status : Nat) (msg : Msg)
    (h : (createProject env user body store).1 = .error status msg) :
    (createProject env user body store).2 = store := by
  revert h
  unfold createProject
  repeat' first
    | (intro _; rfl)
    | split
    | dsimp only
  all_goals intro h; cases h

/-- An error reply of `syncProject` leaves the mirror unchanged. -/
theorem syncProject_store_of_error (env : Env) (pid : Nat) (body : SyncBody)
    (store : Store) (status : Nat) (msg : Msg)
    (h : (syncProject env pid body store).1 = .error status msg) :
    (syncProject env pid body store).2 = store := by
  revert h
  unfold syncProject
  repeat' first
    | (intro _; rfl)
    | split
    | dsimp only
  all_goals intro h; cases h

/-- The mirror after `createProject`: unchanged, or the new project appended. -/
theorem createProject_store (env : Env) (user : User) (body : CreateProjectBody)
    (store : Store) :
    (createProject env user body store).2 = store ∨
    ∃ p, (createProject env user body store).2 =
      { projects := store.projects ++ [p], nextId := store.nextId + 1 } := by
  unfold createProject
  repeat' first
    | (left; rfl)
    | split
    | dsimp only
  all_goals
    right
    exact ⟨_, create_store _ _ _ _ (by assumption)⟩

/-- The mirror after an exception of `syncProject`: unchanged when the receipt could
not be read; when the final project read failed, the resolved index is stored. -/
theorem syncProject_store_of_thrown (env : Env) (pid : Nat) (body : SyncBody)
    (store : Store) (e : String)
    (h : (syncProject env pid body store).1 = .thrown e) :
    (verifyTransaction env (body.txHash.getD "") = .error e ∧
      (syncProject env pid body store).2 = store) ∨
    ∃ p k, store.findById pid = some p ∧
      getProjectIndex env p.escrowContractAddress p.id = k ∧ k ≠ 0 ∧
      getOnChainProject env p.escrowContractAddress k = .error e ∧
      (syncProject env pid body store).2 = store.save { p with onChainProjectIndex := some k } := by
  by_cases hh : truthyStr body.txHash = true
  · cases hp : store.findById pid with
    | none =>
      have e1 : syncProject env pid body store = (.error 404 .projectNotFound, store) := by
        unfold syncProject; simp [hh, hp]
      rw [e1] at h; cases h
    | some p =>
      cases hv : verifyTransaction env (body.txHash.getD "") with
      | error err =>
        have e1 : syncProject env pid body store = (.thrown err, store) := by
          unfold syncProject; simp [hh, hp, hv]
        rw [e1] at h ⊢
        cases h
        exact Or.inl ⟨rfl, rfl⟩
      | ok r =>
        have h1 := syncProject_after_receipt env pid _ body store p r hh hp hv rfl
        by_cases hs : r.status = false
        · rw [h1] at h; simp [hs] at h
        · by_cases h0 : getProjectIndex env p.escrowContractAddress p.id = 0
          · rw [h1] at h; simp [hs, h0] at h
          · right
            refine ⟨p, _, rfl, rfl, h0, ?_⟩
            rw [h1] at h ⊢
            simp only [hs, h0, if_false] at h ⊢
            cases hg : getOnChainProject env p.escrowContractAddress
                (getProjectIndex env p.escrowContractAddress p.id) with
            | error err =>
              rw [hg] at h
              cases h
              exact ⟨rfl, rfl⟩
            | ok onChain => rw [hg] at h; cases h
  · have e1 : syncProject env pid body store = (.error 400 .txHashRequired, store) := by
      unfold syncProject; simp [hh]
    rw [e1] at h; cases h

/-- C16 (as amended): an error reply (a status with a message) of `createProject`,
`syncProject` or `submitMilestone` leaves the mirror as it was; `verifyMilestone` and
`releaseFunds` never change the mirror, whatever they answer or throw. When
`syncProject` throws, the mirror is as it was if the receipt could not be read, and
holds the resolved index on the project if the final project read failed. When
`createProject` throws, the mirror is as it was or holds the new project. -/
theorem error_reply_leaves_mirror (env : Env) (now pid : Nat) (user : User)
    (create : CreateProjectBody) (sync : SyncBody) (submit : SubmitBody)
    (milestone : MilestoneBody) (store : Store) :
    (∀ status msg, (createProject env user create store).1 = .error status msg →
      (createProject env user create store).2 = store) ∧
    (∀ status msg, (syncProject env pid sync store).1 = .error status msg →
      (syncProject env pid sync store).2 = store) ∧
    (∀ status msg, (submitMilestone user submit store).1 = .error status msg →
      (submitMilestone user submit store).2 = store) ∧
    (verifyMilestone env milestone store).2 = store ∧
    (releaseFunds env now milestone store).2 = store ∧
    (∀ e, (syncProject env pid sync store).1 = .thrown e →
      (verifyTransaction env (sync.txHash.getD "") = .error e ∧
        (syncProject env pid sync store).2 = store) ∨
      ∃ p k, store.findById pid = some p ∧
        getProjectIndex env p.escrowContractAddress p.id = k ∧ k ≠ 0 ∧
        getOnChainProject env p.escrowContractAddress k = .error e ∧
        (syncProject env pid sync store).2 =
          store.save { p with onChainProjectIndex := some k }) ∧
    (∀ e, (createProject env user create store).1 = .thrown e →
      (createProject env user create store).2 = store ∨
      ∃ p, (createProject env user create store).2 =
        { projects := store.projects ++ [p], nextId := store.nextId + 1 }) := by
  refine ⟨createProject_store_of_error env user create store,
    syncProject_store_of_error env pid sync store, ?_,
    verifyMilestone_store env milestone store, releaseFunds_store env now milestone store,
    syncProject_store_of_thrown env pid sync store,
    fun _ _ => createProject_store env user create store⟩
  intro status msg h
  apply submitMilestone_store_of_error
  rw [h]
  rfl

/-- Counterexample to C16: the example sync against a ledger whose project read
fails ends in an exception, and the mirror now holds index 3 on the project. -/
theorem syncProject_failed_read_stores_index :
    syncProject (envOf (ledgerOf true (.ok 3) (.error "rpc down")
        (fun _ => .ok (exOnChain 0 0 false)))) 1 exSyncBody (exStore none .PENDING) =
      (.thrown "Failed to read on-chain project: rpc down", exStore (some 3) .PENDING) ∧
    (exStore (some 3) .PENDING).findById 1 ≠ (exStore none .PENDING).findById 1 := by
  refine ⟨by decide!, ?_⟩
  intro h
  have h1 := congrArg (fun o => o.bind (fun p => p.onChainProjectIndex)) h
  cases h1

/-- The reply of `syncProject` when the read that resolves the index fails: the
failure is answered as an unknown project. -/
theorem syncProject_index_read_failure (env : Env) (pid : Nat) (body : SyncBody)
    (store : Store) (p : Project) (r : Receipt) (e : String)
    (hh : truthyStr body.txHash = true) (hp : store.findById pid = some p)
    (hv : verifyTransaction env (body.txHash.getD "") = .ok r) (hs : r.status = true)
    (hf : env.ledger.getProjectByProjectId p.escrowContractAddress p.id = .error e) :
    syncProject env pid body store = (.error 400 .notFoundOnBlockchain, store) := by
  have h0 : getProjectIndex env p.escrowContractAddress p.id = 0 := by
    unfold getProjectIndex; rw [hf]
  rw [syncProject_after_receipt env pid 0 body store p r hh hp hv h0]
  simp [hs]

/-- C18 (the code departs from the claim): the example sync against a ledger whose
index read fails with 'rpc down' is answered 400 'Project not found on blockchain';
the failure of the read does not reach the caller, while a failed project read, a
failed milestone read and a failed receipt read do, under their own prefix. -/
theorem syncProject_index_rpc_failure_reported_not_found :
    syncProject (envOf (ledgerOf true (.error "rpc down") (.ok exOnChainProject)
        (fun _ => .ok (exOnChain 0 0 false)))) 1 exSyncBody (exStore none .PENDING) =
      (.error 400 .notFoundOnBlockchain, exStore none .PENDING) ∧
    getOnChainProject (envOf (ledgerOf true (.ok 3) (.error "rpc down")
        (fun _ => .ok (exOnChain 0 0 false)))) (some "0xE5C") 3 =
      .error "Failed to read on-chain project: rpc down" ∧
    getOnChainMilestone (envOf (ledgerOf true (.ok 3) (.ok exOnChainProject)
        (fun _ => .error "rpc down"))) (some "0xE5C") 3 0 =
      .error "Failed to read on-chain milestone: rpc down" := by
  refine ⟨rfl, rfl, rfl⟩

/-! ## The mirrored ledger state under the handlers -/

/-- Replacing a milestone by one in the same mirrored ledger state leaves the list of
mirrored ledger states as it was. -/
theorem map_onChainState_set (l : List Milestone) (idx : Nat) (m m1 : Milestone)
    (hm : l[idx]? = some m) (hs : m1.onChainState = m.onChainState) :
    (l.set idx m1).map (fun x => x.onChainState) = l.map (fun x => x.onChainState) := by
  induction l generalizing idx with
  | nil => rfl
  | cons a t ih =>
    cases idx with
    | zero =>
      simp only [List.getElem?_cons_zero, Option.some.injEq] at hm
      simp [List.set, hs, hm]
    | succ n =>
      simp only [List.getElem?_cons_succ] at hm
      simp only [List.set, List.map_cons, ih n hm]

/-- The mirrored ledger states of every project survive the `save` of a copy of a
stored project whose milestones are in the same mirrored ledger states. -/
theorem ledgerStates_save (s : Store) (pid : Nat) (p q : Project)
    (hp : s.findById pid = some p) (hid : q.id = p.id)
    (hst : q.milestones.map (fun x => x.onChainState) =
      p.milestones.map (fun x => x.onChainState)) (id : Nat) :
    (s.save q).ledgerStates id = s.ledgerStates id := by
  have hpid : p.id = pid := findById_id s pid p hp
  unfold Store.ledgerStates
  by_cases h : id = pid
  · subst h
    rw [findById_save_found s id p q hp hid, hp]
    simp [hst]
  · rw [findById_save_other s q id (by rw [hid, hpid]; exact h)]

/-- C11 (as amended): for a milestone of a project on the ledger that the ledger
reports as DISPUTED (state 3), `verifyMilestone` and `releaseFunds` refuse: each
answers 400 with the ledger state, returns no transaction proposal and leaves the
mirror as it was. -/
theorem disputed_refused (env : Env) (now pid idx k : Nat) (store : Store) (p : Project)
    (milestone : Milestone) (m : OnChainMilestone)
    (hp : store.findById pid = some p) (hm : p.milestones[idx]? = some milestone)
    (hk : p.onChainProjectIndex = some k) (hk0 : k ≠ 0)
    (hr : getOnChainMilestone env p.escrowContractAddress k idx = .ok m)
    (hs : m.state = 3) :
    verifyMilestone env ⟨some pid, some idx⟩ store =
      (.error 400 (.notSubmittedOnChain 3), store) ∧
    releaseFunds env now ⟨some pid, some idx⟩ store =
      (.error 400 (.notApprovedOnChain 3), store) := by
  rw [verifyMilestone_after_read env pid idx k store p milestone m hp hm hk hk0 hr,
    releaseFunds_after_read env now pid idx k store p milestone m hp hm hk hk0 hr]
  simp [hs]

/-- Witness of C11 (as amended): the example project on a ledger that reports its
milestone as DISPUTED. -/
theorem disputed_refused_witness :
    verifyMilestone (exEnv (exOnChain 3 0 false)) ⟨some 1, some 0⟩ (exStore (some 3) .PENDING) =
      (.error 400 (.notSubmittedOnChain 3), exStore (some 3) .PENDING) ∧
    releaseFunds (exEnv (exOnChain 3 0 false)) 5000 ⟨some 1, some 0⟩
        (exStore (some 3) .PENDING) =
      (.error 400 (.notApprovedOnChain 3), exStore (some 3) .PENDING) :=
  disputed_refused (exEnv (exOnChain 3 0 false)) 5000 1 0 3 (exStore (some 3) .PENDING)
    (exProject (some 3) .PENDING) (exMilestone .PENDING) (exOnChain 3 0 false)
    rfl rfl rfl (by decide) rfl rfl

/-- Counterexample to C11: the owning NGO submits a proof for a milestone mirrored as
DISPUTED; `submitMilestone` returns the transaction proposal and stores the milestone
with the proof, in progress, mirrored as PENDING. No ledger is read, so this is the
answer whatever the ledger reports. -/
theorem submitMilestone_accepts_disputed :
    submitMilestone exNgo exSubmitBody (exStore (some 3) .DISPUTED) =
      (.proposal exSubmittedProject exSubmittedMilestone none
        (prepareSubmitMilestoneTransaction (some "0xE5C") 3 0 "Qm123"),
       { projects := [exSubmittedProject], nextId := 2 }) ∧
    (exStore (some 3) .DISPUTED).ledgerStates 1 = some [.DISPUTED] ∧
    ({ projects := [exSubmittedProject], nextId := 2 } : Store).ledgerStates 1 =
      some [.PENDING] :=
  ⟨rfl, rfl, rfl⟩

/-- The handler `createProject` leaves the mirrored ledger states of the stored
projects as they were. -/
theorem createProject_ledgerStates (env : Env) (user : User) (body : CreateProjectBody)
    (store : Store) (id : Nat) (h : (store.findById id).isSome = true) :
    (createProject env user body store).2.ledgerStates id = store.ledgerStates id := by
  rcases createProject_store env user body store with h1 | ⟨p, h1⟩
  · rw [h1]
  · rw [h1]
    unfold Store.ledgerStates Store.findById at *
    rw [List.find?_append]
    cases hf : List.find? (fun p => p.id == id) store.projects with
    | none => rw [hf] at h; cases h
    | some q => rfl

/-- The handler `syncProject` leaves every mirrored ledger state as it was. -/
theorem syncProject_ledgerStates (env : Env) (pid : Nat) (body : SyncBody) (store : Store)
    (id : Nat) :
    (syncProject env pid body store).2.ledgerStates id = store.ledgerStates id := by
  rcases syncProject_store env pid body store with h1 | ⟨p, k, hp, -, -, h1⟩
  · rw [h1]
  · rw [h1]
    refine ledgerStates_save store pid p _ hp ?_ ?_ id <;> rfl

/-- The handler `updateMilestone` leaves every mirrored ledger state as it was. -/
theorem updateMilestone_ledgerStates (now pid mid : Nat) (body : UpdateMilestoneBody)
    (store : Store) (id : Nat) :
    (updateMilestone now pid mid body store).2.ledgerStates id = store.ledgerStates id := by
  unfold updateMilestone
  cases hp : store.findById pid with
  | none => rfl
  | some p =>
    dsimp only
    cases hm : p.milestones[mid]? with
    | none => rfl
    | some m =>
      dsimp only
      cases hst : body.status with
      | invalid => rfl
      | absent =>
        dsimp only
        refine ledgerStates_save store pid p _ hp ?_ ?_ id
        · rfl
        · refine map_onChainState_set p.milestones mid m _ hm ?_
          split_ifs <;> rfl
      | valid s =>
        dsimp only
        refine ledgerStates_save store pid p _ hp ?_ ?_ id
        · rfl
        · refine map_onChainState_set p.milestones mid m _ hm ?_
          split_ifs <;> rfl

/-- The handler `updateProject` leaves every mirrored ledger state as it was when
the body carries no `milestones`. -/
theorem updateProject_ledgerStates (user : User) (pid : Nat) (body : ProjectUpdate)
    (store : Store) (id : Nat) (hb : body.milestones = none) :
    (updateProject user pid body store).2.ledgerStates id = store.ledgerStates id := by
  unfold updateProject
  cases hp : store.findById pid with
  | none => rfl
  | some p =>
    dsimp only
    split_ifs with h1
    · rfl
    · cases ha : applyUpdate p body with
      | error e => rfl
      | ok q =>
        dsimp only
        unfold applyUpdate at ha
        rw [hb] at ha
        simp only [Option.map_none'] at ha
        split_ifs at ha
        simp only [Except.ok.injEq] at ha
        refine ledgerStates_save store pid p q hp ?_ ?_ id
        · rw [← ha]
        · rw [← ha]

/-- An `updateProject` whose body carries `milestones` stores the cast milestones of
the body. -/
theorem updateProject_milestones (user : User) (pid : Nat) (body : ProjectUpdate)
    (store : Store) (ms : List MilestonePatch) (p q : Project)
    (hb : body.milestones = some ms) (hp : store.findById pid = some p)
    (h : (updateProject user pid body store).1 = .document q) :
    castMilestonePatches ms = .ok q.milestones ∧
    (updateProject user pid body store).2.ledgerStates pid =
      some (q.milestones.map (fun m => m.onChainState)) := by
  unfold updateProject at h ⊢
  rw [hp] at h ⊢
  dsimp only at h ⊢
  by_cases h1 : p.ngo ≠ user.id
  · rw [if_pos h1] at h; cases h
  · rw [if_neg h1] at h ⊢
    cases ha : applyUpdate p body with
    | error e => rw [ha] at h; cases h
    | ok q1 =>
      rw [ha] at h
      dsimp only at h ⊢
      cases h
      unfold applyUpdate at ha
      rw [hb] at ha
      simp only [Option.map_some'] at ha
      split_ifs at ha
      cases hc : castMilestonePatches ms with
      | error e => rw [hc] at ha; cases ha
      | ok l =>
        rw [hc] at ha
        simp only [Except.ok.injEq] at ha
        have hq : q.milestones = l := by rw [← ha]
        have hid : q.id = p.id := by rw [← ha]
        refine ⟨by rw [hq], ?_⟩
        unfold Store.ledgerStates
        rw [findById_save_found store pid p q hp hid]
        rfl

/-- A reply of `submitMilestone` is an error reply or a proposal. -/
theorem submitMilestone_reply_kind (user : User) (body : SubmitBody) (store : Store) :
    (∃ status msg, (submitMilestone user body store).1 = .error status msg) ∨
    ∃ p m tx, (submitMilestone user body store).1 = .proposal p m none tx := by
  unfold submitMilestone
  repeat' first
    | exact Or.inl ⟨_, _, rfl⟩
    | exact Or.inr ⟨_, _, _, rfl⟩
    | split

/-- The handler `submitMilestone` leaves every mirrored ledger state as it was unless
the milestone it addresses is mirrored as DISPUTED. -/
theorem submitMilestone_ledgerStates (user : User) (body : SubmitBody) (store : Store)
    (hd : ∀ pid idx p m, body.projectId = some pid → body.milestoneIndex = some idx →
      store.findById pid = some p → p.milestones[idx]? = some m →
      m.onChainState ≠ .DISPUTED) (id : Nat) :
    (submitMilestone user body store).2.ledgerStates id = store.ledgerStates id := by
  rcases submitMilestone_reply_kind user body store with ⟨status, msg, h⟩ | ⟨p1, m1, tx, h⟩
  · rw [submitMilestone_store_of_error user body store (by rw [h]; rfl)]
  · obtain ⟨pid, idx, hash, p, m, k, hpid, hidx, -, -, -, hp, -, hm, hs, ha, -, -, hm1, hp1,
      -, -, hs1⟩ := submitMilestone_proposal_inv user body store _ p1 m1 none tx
        (Prod.ext h rfl)
    have hd1 := hd pid idx p m hpid hidx hp hm
    refine (congrArg (fun s => s.ledgerStates id) hs1).trans ?_
    refine ledgerStates_save store pid p p1 hp (by rw [hp1]) ?_ id
    rw [hp1]
    refine map_onChainState_set p.milestones idx m m1 hm ?_
    rw [hm1]
    cases hst : m.onChainState <;> simp_all [recordProof]

/-- C12 (as amended): `createProject`, `syncProject` and `updateMilestone` leave the
mirrored ledger state of every milestone of every stored project as it was; so does
`submitMilestone` when the milestone it addresses is not mirrored as DISPUTED, and so
does `updateProject` when the request body carries no `milestones`. An `updateProject`
whose body carries `milestones` stores the ledger states of the body. -/
theorem ledgerStates_preserved (env : Env) (now pid mid : Nat) (user : User)
    (create : CreateProjectBody) (sync : SyncBody) (submit : SubmitBody)
    (patch : UpdateMilestoneBody) (update : ProjectUpdate) (store : Store) (id : Nat) :
    ((store.findById id).isSome = true →
      (createProject env user create store).2.ledgerStates id = store.ledgerStates id) ∧
    (syncProject env pid sync store).2.ledgerStates id = store.ledgerStates id ∧
    (updateMilestone now pid mid patch store).2.ledgerStates id = store.ledgerStates id ∧
    ((∀ sid idx p m, submit.projectId = some sid → submit.milestoneIndex = some idx →
        store.findById sid = some p → p.milestones[idx]? = some m →
        m.onChainState ≠ .DISPUTED) →
      (submitMilestone user submit store).2.ledgerStates id = store.ledgerStates id) ∧
    (update.milestones = none →
      (updateProject user pid update store).2.ledgerStates id = store.ledgerStates id) ∧
    (∀ ms p q, update.milestones = some ms → store.findById pid = some p →
      (updateProject user pid update store).1 = .document q →
      castMilestonePatches ms = .ok q.milestones ∧
      (updateProject user pid update store).2.ledgerStates pid =
        some (q.milestones.map (fun m => m.onChainState))) :=
  ⟨createProject_ledgerStates env user create store id,
   syncProject_ledgerStates env pid sync store id,
   updateMilestone_ledgerStates now pid mid patch store id,
   fun hd => submitMilestone_ledgerStates user submit store hd id,
   updateProject_ledgerStates user pid update store id,
   updateProject_milestones user pid update store⟩

/-- Counterexample to C12: the owning NGO updates the example project, mirrored as
APPROVED, with a body whose milestone carries PENDING; `updateProject` stores it, and
PENDING is not APPROVED nor an advance of it. -/
theorem updateProject_lowers_state :
    updateProject exNgo 1 (exMilestonesUpdate .PENDING) (exStore (some 3) .APPROVED) =
      (.document (exProject (some 3) .PENDING), exStore (some 3) .PENDING) ∧
    (exStore (some 3) .APPROVED).ledgerStates 1 = some [.APPROVED] ∧
    (exStore (some 3) .PENDING).ledgerStates 1 = some [.PENDING] ∧
    OnChainState.advancesTo .APPROVED .PENDING = false :=
  ⟨rfl, rfl, rfl, rfl⟩

/-! ## `getProjectState` and the multisig panel -/

/-- The handler `getProjectState` once the ledger project has been read: the body
with one entry per mirrored milestone goes to `res.json`. -/
theorem getProjectState_after_read (env : Env) (pid k : Nat) (store : Store) (p : Project)
    (onChain : OnChainProject)
    (hp : store.findById pid = some p) (hk : p.onChainProjectIndex = some k) (hk0 : k ≠ 0)
    (ha : truthyStr p.escrowContractAddress = true)
    (hr : getOnChainProject env p.escrowContractAddress k = .ok onChain) :
    getProjectState env pid store =
      resJsonState (.state p (some onChain) ((List.range p.milestones.length).map
        (milestoneStateEntry env p.escrowContractAddress k))) := by
  simp [getProjectState, hp, hk, hk0, truthyIndex, ha, hr]

/-- C19: whenever `getProjectState` has read the ledger project and the read of at
least one mirrored milestone succeeds, the body holds that ledger milestone, `res.json`
throws, and the call ends in the exception instead of a reply with one entry per
milestone. On the example project with two milestones at index 3, where the read of
milestone 0 succeeds and the read of milestone 1 fails with 'rpc down', the call
throws; only when the reads of both milestones fail is the reply sent, with one error
record per milestone. -/
theorem getProjectState_read_milestone_throws :
    (∀ (env : Env) (pid k : Nat) (store : Store) (p : Project) (onChain : OnChainProject)
        (i : Nat) (m : OnChainMilestone),
      store.findById pid = some p → p.onChainProjectIndex = some k → k ≠ 0 →
      truthyStr p.escrowContractAddress = true →
      getOnChainProject env p.escrowContractAddress k = .ok onChain →
      i < p.milestones.length →
      getOnChainMilestone env p.escrowContractAddress k i = .ok m →
      getProjectState env pid store = .thrown "Do not know how to serialize a BigInt") ∧
    getProjectState
        (envOf (ledgerOf true (.ok 3) (.ok exOnChainProject)
          (fun i => if i = 1 then .error "rpc down" else .ok (exOnChain 1 0 false))))
        1 { projects := [exProject2 (some 3)], nextId := 2 } =
      .thrown "Do not know how to serialize a BigInt" ∧
    getProjectState
        (envOf (ledgerOf true (.ok 3) (.ok exOnChainProject) (fun _ => .error "rpc down")))
        1 { projects := [exProject2 (some 3)], nextId := 2 } =
      .state (exProject2 (some 3)) (some exOnChainProject)
        [.error 0 "Failed to read on-chain milestone: rpc down",
         .error 1 "Failed to read on-chain milestone: rpc down"] := by
  refine ⟨?_, rfl, rfl⟩
  intro env pid k store p onChain i m hp hk hk0 ha hr hi hm
  rw [getProjectState_after_read env pid k store p onChain hp hk hk0 ha hr]
  have hany : ((List.range p.milestones.length).map
      (milestoneStateEntry env p.escrowContractAddress k)).any
        MilestoneStateEntry.isState = true := by
    rw [List.any_eq_true]
    refine ⟨milestoneStateEntry env p.escrowContractAddress k i,
      List.mem_map.2 ⟨i, List.mem_range.2 hi, rfl⟩, ?_⟩
    simp [milestoneStateEntry, hm, MilestoneStateEntry.isState]
  simp only [resJsonState, hany, if_true]
  rfl

/-- With `onChainProjectIndex` 0 the handler makes no read: for the example project
at index 0, on a ledger that would answer the project read at index 0,
`getProjectState` answers with no ledger project and no entry. -/
theorem getProjectState_index_zero_no_entries :
    (exProject (some 0) .PENDING).onChainProjectIndex = some 0 ∧
    getOnChainProject (exEnv (exOnChain 0 0 false)) (some "0xE5C") 0 = .ok exOnChainProject ∧
    getProjectState (exEnv (exOnChain 0 0 false)) 1 (exStore (some 0) .PENDING) =
      .state (exProject (some 0) .PENDING) none [] ∧
    (exProject (some 0) .PENDING).milestones.length = 1 :=
  ⟨rfl, rfl, rfl, rfl⟩

/-- The card of a transaction that is not executed is in the pending list. -/
theorem executeOffered_eq (s : DashboardState) (tx : MultisigTx) (hmem : tx ∈ s.transactions) :
    executeOffered s tx =
      (!tx.executed && (isOwner s s.account && decide (tx.approvalCount ≥ s.requiredApprovals))) := by
  unfold executeOffered pendingCards
  rw [Bool.eq_iff_iff]
  simp only [List.any_eq_true, List.mem_map, List.mem_filter, Bool.and_eq_true,
    Bool.not_eq_true', beq_iff_eq, decide_eq_true_eq]
  constructor
  · rintro ⟨card, ⟨t, ⟨-, ht⟩, rfl⟩, hc, hb⟩
    have : t = tx := hc
    subst this
    simp only [pendingCard, Bool.and_eq_true, decide_eq_true_eq] at hb
    exact ⟨ht, hb⟩
  · rintro ⟨ht, hb⟩
    refine ⟨pendingCard s tx, ⟨tx, ⟨hmem, ht⟩, rfl⟩, rfl, ?_⟩
    simp only [pendingCard, Bool.and_eq_true, decide_eq_true_eq]
    exact hb

/-- C20: for a transaction of the panel shown to an owner, the 'Execute Transaction'
button is rendered exactly when `approvalCount >= requiredApprovals` and the
transaction is not executed; with `requiredApprovals` 2 it is not rendered for a
transaction with 1 approval and is rendered for a pending one with 2 approvals. -/
theorem executeOffered_iff (s : DashboardState) (tx : MultisigTx)
    (hmem : tx ∈ s.transactions) (hown : isOwner s s.account = true) :
    (executeOffered s tx = true ↔
      tx.approvalCount ≥ s.requiredApprovals ∧ tx.executed = false) ∧
    (s.requiredApprovals = 2 → tx.approvalCount = 1 → executeOffered s tx = false) ∧
    (s.requiredApprovals = 2 → tx.approvalCount = 2 → tx.executed = false →
      executeOffered s tx = true) := by
  rw [executeOffered_eq s tx hmem, hown]
  refine ⟨?_, ?_, ?_⟩
  · cases tx.executed <;> simp
  · intro h2 h1
    simp [h2, h1]
  · intro h2 h1 he
    simp [h2, h1, he]

/-- Witness of C20: the owner `0xa11ce` sees a pending transaction with 2 of 2
approvals, for which the button is rendered. -/
theorem executeOffered_iff_witness :
    (executeOffered (exDashboard (exTx 2 false)) (exTx 2 false) = true ↔
      (exTx 2 false).approvalCount ≥ (exDashboard (exTx 2 false)).requiredApprovals ∧
      (exTx 2 false).executed = false) ∧
    ((exDashboard (exTx 2 false)).requiredApprovals = 2 → (exTx 2 false).approvalCount = 1 →
      executeOffered (exDashboard (exTx 2 false)) (exTx 2 false) = false) ∧
    ((exDashboard (exTx 2 false)).requiredApprovals = 2 → (exTx 2 false).approvalCount = 2 →
      (exTx 2 false).executed = false →
      executeOffered (exDashboard (exTx 2 false)) (exTx 2 false) = true) :=
  executeOffered_iff (exDashboard (exTx 2 false)) (exTx 2 false)
    (List.mem_singleton.mpr rfl) (by decide)

/-! ## The wallet panel -/

/-- C21 (as amended): a transaction whose `executed` flag is true has no card among
the pending transactions, so the panel renders no Approve and no Execute control for
it, and it is listed among the executed transactions. The functions
`approveTransaction` and `executeTransaction` do not look at the flag: with a
contract and a signer they send the call for the given id and return what the
contract answers, its error included; without one of the two they fail with
'SmartWallet not connected' and send nothing. -/
theorem executed_transaction_requests (s : DashboardState) (tx : MultisigTx)
    (contract : Option WalletContract) (signer : Bool) (txId : Nat) :
    (tx.executed = true → ∀ card ∈ pendingCards s, card.tx ≠ tx) ∧
    (tx.executed = true → tx ∈ s.transactions → tx ∈ executedCards s) ∧
    (∀ c, contract = some c → signer = true →
      approveTransaction contract signer txId =
        (c.approveTransaction txId, [.approveTransaction txId]) ∧
      executeTransaction contract signer txId =
        (c.executeTransaction txId, [.executeTransaction txId])) ∧
    (contract = none ∨ signer = false →
      approveTransaction contract signer txId = (.error "SmartWallet not connected", []) ∧
      executeTransaction contract signer txId = (.error "SmartWallet not connected", [])) := by
  refine ⟨?_, ?_, ?_, ?_⟩
  · intro he card hc heq
    simp only [pendingCards, List.mem_map, List.mem_filter, Bool.not_eq_true'] at hc
    obtain ⟨t, ⟨-, ht⟩, rfl⟩ := hc
    have : t = tx := heq
    rw [this, he] at ht
    cases ht
  · intro he hmem
    simp [executedCards, hmem, he]
  · intro c hc hs
    subst hc hs
    exact ⟨rfl, rfl⟩
  · rintro (h | h)
    · subst h
      exact ⟨rfl, rfl⟩
    · subst h
      cases contract <;> exact ⟨rfl, rfl⟩

/-- Counterexample to C21: transaction 0 of the example wallet is executed; an
approve request and an execute request for it are each sent to the contract, and what
comes back is the contract's own error. -/
theorem executed_transaction_call_is_sent :
    ((exWallet true).getTransaction 0).toOption.map (fun tx => tx.item3) = some true ∧
    approveTransaction (some (exWallet true)) true 0 =
      (.error "execution reverted", [.approveTransaction 0]) ∧
    executeTransaction (some (exWallet true)) true 0 =
      (.error "execution reverted", [.executeTransaction 0]) ∧
    (handleApproveTransaction (some (exWallet true)) true (exDashboard (exTx 2 true)) 0).calls =
      [.approveTransaction 0] ∧
    (handleExecuteTransaction (some (exWallet true)) true (exDashboard (exTx 2 true)) 0).calls =
      [.executeTransaction 0] :=
  ⟨rfl, rfl, rfl, rfl, rfl⟩

/-! ## What `createProject` stores -/

/-- The drafted milestones that pass the schema are stored as given. -/
theorem castMilestones_draft (ms : List MilestoneInput) (out : List Milestone)
    (h : castMilestones (ms.map draftMilestone) = .ok out) :
    out = ms.map MilestoneInput.stored ∧ ∀ m ∈ ms, m.wellFormed = true := by
  induction ms generalizing out with
  | nil =>
    simp only [List.map_nil, castMilestones, Except.ok.injEq] at h
    simp [← h]
  | cons m ms ih =>
    simp only [List.map_cons, castMilestones] at h
    cases hm : castMilestone (draftMilestone m) with
    | error e => rw [hm] at h; cases h
    | ok sm =>
      cases hr : castMilestones (List.map draftMilestone ms) with
      | error e => rw [hm, hr] at h; cases h
      | ok rest =>
        rw [hm, hr] at h
        simp only [Except.ok.injEq] at h
        obtain ⟨hrest, hall⟩ := ih rest hr
        rcases m with ⟨t, d, a⟩
        cases t <;> cases d <;> cases a <;>
          simp only [castMilestone, draftMilestone, parseFloat] at hm <;> try cases hm
        split_ifs at hm with hc
        simp only [Except.ok.injEq] at hm
        refine ⟨?_, ?_⟩
        · rw [← h, ← hm, hrest]
          rfl
        · intro x hx
          rcases List.mem_cons.1 hx with rfl | hx
          · simp only [not_or] at hc
            simp [MilestoneInput.wellFormed, truthyStr, hc.1, hc.2]
          · exact hall x hx

/-- A 201 reply of `createProject`: what the request was and what was stored. -/
theorem createProject_created_inv (env : Env) (user : User) (body : CreateProjectBody)
    (store store1 : Store) (project : Project) (tx : TxData)
    (h : createProject env user body store = (.created project tx, store1)) :
    ∃ milestones total,
      user.role = .ngo ∧ body.milestones = some milestones ∧ milestones ≠ [] ∧
      truthyStr body.title = true ∧ truthyStr body.description = true ∧
      truthyStr body.category = true ∧
      body.totalRequired = some total ∧ total ≠ 0 ∧
      truthyStr body.multisigWalletAddress = true ∧
      truthyStr env.escrowContractAddress = true ∧
      sumMismatch milestones body.totalRequired = false ∧
      (∀ m ∈ milestones, m.wellFormed = true) ∧
      project =
        { id := store.nextId, ngo := user.id, title := body.title.getD "",
          description := body.description.getD "", category := body.category.getD "",
          totalRequired := total, totalFunded := 0,
          milestones := milestones.map MilestoneInput.stored,
          escrowContractAddress := some (env.escrowContractAddress.getD ""),
          multisigWalletAddress := some (body.multisigWalletAddress.getD ""),
          onChainProjectIndex := none, contractAddress := none, active := true } ∧
      store1 = { projects := store.projects ++ [project], nextId := store.nextId + 1 } ∧
      tx.toAddress = some (env.escrowContractAddress.getD "") ∧
      prepareCreateProjectTransaction env (env.escrowContractAddress.getD "") store.nextId
        (ngoAddressOf user) (body.multisigWalletAddress.getD "")
        (milestones.map (fun m => parseFloat m.requiredAmount)) = .ok tx := by
  unfold createProject at h
  by_cases hrole : user.role ≠ .ngo
  · rw [if_pos hrole] at h; cases h
  · rw [if_neg hrole] at h
    cases hms : body.milestones with
    | none => rw [hms] at h; cases h
    | some milestones =>
      rw [hms] at h
      dsimp only at h
      split_ifs at h with h1 h2 h3 h4 h5
      any_goals cases h
      split at h
      · cases h
      · rename_i p s1 hc
        split at h
        · cases h
        · rename_i txd hp
          simp only [Prod.mk.injEq, Response.created.injEq] at h
          obtain ⟨⟨hp1, htx⟩, hs1⟩ := h
          subst hp1 hs1 htx
          simp only [Bool.or_eq_true, Bool.not_eq_true', not_or, Bool.not_eq_false] at h1 h2 h5
          obtain ⟨⟨⟨ht, hd⟩, hcat⟩, htot⟩ := h1
          obtain ⟨total, htotal, htotal0⟩ : ∃ t, body.totalRequired = some t ∧ t ≠ 0 := by
            cases hb : body.totalRequired with
            | none => rw [hb] at htot; cases htot
            | some t =>
              refine ⟨t, rfl, ?_⟩
              rintro rfl
              rw [hb] at htot
              revert htot
              decide!
          have hmis : sumMismatch milestones body.totalRequired = false := by
            simpa using h4
          unfold Store.create at hc
          rw [htotal] at hc
          simp only [parseFloat] at hc
          cases hcm : castMilestones (List.map draftMilestone milestones) with
          | error e => rw [hcm] at hc; cases hc
          | ok out =>
            rw [hcm] at hc
            obtain ⟨hout, hall⟩ := castMilestones_draft milestones out hcm
            dsimp only at hc
            split_ifs at hc
            simp only [Except.ok.injEq, Prod.mk.injEq] at hc
            obtain ⟨hp1, hs1⟩ := hc
            refine ⟨milestones, total, not_not.1 hrole, rfl, ?_, ht, hd, hcat, htotal, htotal0,
              h2, h5, hmis, hall, ?_, ?_, ?_, ?_⟩
            · intro hnil
              exact h3 (by rw [hnil]; rfl)
            · rw [← hp1, hout]
            · rw [← hs1, ← hp1]
            · unfold prepareCreateProjectTransaction at hp
              split at hp
              · simp only [Except.ok.injEq] at hp
                rw [← hp]
              · cases hp
            · rw [← hp1] at hp
              exact hp

/-- What a `createProject` call that changes the mirror was asked and what it stored. -/
theorem createProject_stored_inv (env : Env) (user : User) (body : CreateProjectBody)
    (store : Store) (h : (createProject env user body store).2 ≠ store) :
    ∃ milestones total,
      body.milestones = some milestones ∧ body.totalRequired = some total ∧ total ≠ 0 ∧
      sumMismatch milestones body.totalRequired = false ∧
      (createProject env user body store).2 =
        { projects := store.projects ++
            [{ id := store.nextId, ngo := user.id, title := body.title.getD "",
               description := body.description.getD "", category := body.category.getD "",
               totalRequired := total, totalFunded := 0,
               milestones := milestones.map MilestoneInput.stored,
               escrowContractAddress := some (env.escrowContractAddress.getD ""),
               multisigWalletAddress := some (body.multisigWalletAddress.getD ""),
               onChainProjectIndex := none, contractAddress := none, active := true }],
          nextId := store.nextId + 1 } ∧
      ∀ m ∈ milestones, m.wellFormed = true := by
  unfold createProject at h ⊢
  by_cases hrole : user.role ≠ .ngo
  · rw [if_pos hrole] at h; exact absurd rfl h
  · rw [if_neg hrole] at h ⊢
    cases hms : body.milestones with
    | none => rw [hms] at h; exact absurd rfl h
    | some milestones =>
      rw [hms] at h
      dsimp only at h ⊢
      split_ifs at h ⊢ with h1 h2 h3 h4 h5
      any_goals exact absurd rfl h
      simp only [Bool.or_eq_true, Bool.not_eq_true', not_or, Bool.not_eq_false] at h1
      obtain ⟨-, htot⟩ := h1
      obtain ⟨total, htotal, htotal0⟩ : ∃ t, body.totalRequired = some t ∧ t ≠ 0 := by
        cases hb : body.totalRequired with
        | none => rw [hb] at htot; cases htot
        | some t =>
          refine ⟨t, rfl, ?_⟩
          rintro rfl
          rw [hb] at htot
          revert htot
          decide!
      have hmis : sumMismatch milestones body.totalRequired = false := by
        simpa using h4
      unfold Store.create at h ⊢
      rw [htotal] at h ⊢
      simp only [parseFloat] at h ⊢
      cases hcm : castMilestones (List.map draftMilestone milestones) with
      | error e => rw [hcm] at h; exact absurd rfl h
      | ok out =>
        obtain ⟨hout, hwf⟩ := castMilestones_draft milestones out hcm
        refine ⟨milestones, total, rfl, rfl, htotal0, by rw [← htotal]; exact hmis, ?_, hwf⟩
        rw [hcm] at h
        dsimp only at h ⊢
        split_ifs at h ⊢ with hv
        · exact absurd rfl h
        · dsimp only
          rw [hout]
          split <;> rfl

/-- C22 (as amended): a `createProject` call stores at most one project; the request
of a stored project passed the test `!totalRequired` and the sum test, and the
project holds `parseFloat(totalRequired)` and, one per requested milestone, the amounts
`parseFloat(m.requiredAmount)`. A request whose totalRequired is falsy (absent, or
the number 0) is answered with an error reply and nothing is stored. That a single
milestone amount is positive is not part of the statement. -/
theorem createProject_amount_checks (env : Env) (user : User) (body : CreateProjectBody)
    (store : Store) :
    ((createProject env user body store).2 ≠ store →
      ∃ project milestones,
        (createProject env user body store).2 =
          { projects := store.projects ++ [project], nextId := store.nextId + 1 } ∧
        truthyNum body.totalRequired = true ∧
        parseFloat body.totalRequired = .num project.totalRequired ∧
        body.milestones = some milestones ∧
        sumMismatch milestones body.totalRequired = false ∧
        milestones.map (fun m => parseFloat m.requiredAmount) =
          project.milestones.map (fun m => JSNumber.num m.requiredAmount)) ∧
    (truthyNum body.totalRequired = false →
      (∃ status msg, (createProject env user body store).1 = .error status msg) ∧
      (createProject env user body store).2 = store) := by
  constructor
  · intro h
    obtain ⟨milestones, total, hms, htotal, htotal0, hmis, hs, hwf⟩ :=
      createProject_stored_inv env user body store h
    refine ⟨_, milestones, hs, ?_, ?_, hms, hmis, ?_⟩
    · rw [htotal]
      simp [truthyNum, htotal0]
    · rw [htotal]
      rfl
    · simp only [List.map_map]
      apply List.map_congr_left
      intro m hm
      have hw := hwf m hm
      rcases m with ⟨t, d, am⟩
      cases am with
      | none => simp [MilestoneInput.wellFormed] at hw
      | some a => rfl
  · intro h
    unfold createProject
    by_cases hrole : user.role ≠ .ngo
    · rw [if_pos hrole]; exact ⟨⟨_, _, rfl⟩, rfl⟩
    · rw [if_neg hrole]
      cases body.milestones with
      | none => exact ⟨⟨_, _, rfl⟩, rfl⟩
      | some milestones =>
        have hc : (!truthyStr body.title || !truthyStr body.description ||
            !truthyStr body.category || !truthyNum body.totalRequired) = true := by
          simp [h]
        dsimp only
        rw [if_pos hc]
        exact ⟨⟨_, _, rfl⟩, rfl⟩

/-- Counterexample to C22: an NGO asks for milestones of 1 and of 0 against a
totalRequired of 1; the project is stored with a milestone whose amount is 0 and the
transaction proposal is returned. -/
theorem createProject_accepts_zero_amount :
    (createProject (exEnv (exOnChain 0 0 false)) exNgo (exCreateBody 1 exZeroMilestoneInputs)
        emptyStore).2.projects.map (fun p => p.milestones.map (fun m => m.requiredAmount)) =
      [[1, 0]] ∧
    (createProject (exEnv (exOnChain 0 0 false)) exNgo (exCreateBody 1 exZeroMilestoneInputs)
        emptyStore).1.transactionData.isSome = true := by
  decide!

/-- C25 (as amended): a `createProject` request whose multisig address is absent or
empty is answered with an error reply, stores nothing and returns no transaction
proposal, whatever the milestone amounts are; the reply is 400 'Multisig wallet
address is required' when the caller is an NGO and title, description, category, a
non-zero totalRequired and a milestones array are given. -/
theorem createProject_missing_multisig (env : Env) (user : User) (body : CreateProjectBody)
    (store : Store) (h : truthyStr body.multisigWalletAddress = false) :
    (createProject env user body store).2 = store ∧
    (createProject env user body store).1.transactionData = none ∧
    (∃ status msg, (createProject env user body store).1 = .error status msg) ∧
    (user.role = .ngo → body.milestones.isSome = true → truthyStr body.title = true →
      truthyStr body.description = true → truthyStr body.category = true →
      truthyNum body.totalRequired = true →
      (createProject env user body store).1 = .error 400 .multisigRequired) := by
  unfold createProject
  by_cases hrole : user.role ≠ .ngo
  · rw [if_pos hrole]
    exact ⟨rfl, rfl, ⟨_, _, rfl⟩, fun hr => absurd hr hrole⟩
  · rw [if_neg hrole]
    cases hms : body.milestones with
    | none => exact ⟨rfl, rfl, ⟨_, _, rfl⟩, fun _ hm => by cases hm⟩
    | some milestones =>
      dsimp only
      by_cases h1 : (!truthyStr body.title || !truthyStr body.description ||
          !truthyStr body.category || !truthyNum body.totalRequired) = true
      · rw [if_pos h1]
        refine ⟨rfl, rfl, ⟨_, _, rfl⟩, ?_⟩
        intro _ _ ht hd hc hn
        simp [ht, hd, hc, hn] at h1
      · have hm : (!truthyStr body.multisigWalletAddress) = true := by
          simp [h]
        rw [if_neg h1, if_pos hm]
        exact ⟨rfl, rfl, ⟨_, _, rfl⟩, fun _ _ _ _ _ _ => rfl⟩

/-- Witness of C25 (as amended): the example request without multisig address. -/
theorem createProject_missing_multisig_witness :
    (createProject (exEnv (exOnChain 0 0 false)) exNgo
        { exCreateBody 1 exMilestoneInputs with multisigWalletAddress := none } emptyStore).2 =
      emptyStore ∧
    (createProject (exEnv (exOnChain 0 0 false)) exNgo
        { exCreateBody 1 exMilestoneInputs with multisigWalletAddress := none } emptyStore).1 =
      .error 400 .multisigRequired :=
  have h := createProject_missing_multisig (exEnv (exOnChain 0 0 false)) exNgo
    { exCreateBody 1 exMilestoneInputs with multisigWalletAddress := none } emptyStore rfl
  ⟨h.1, h.2.2.2 rfl rfl rfl rfl rfl (by decide!)⟩

/-- Counterexample to C25: an NGO request without multisig address and without title
is answered 400 'Please provide title, description, category, totalRequired, and
milestones array', not with the multisig message. -/
theorem createProject_missing_multisig_and_title :
    truthyStr exBareBody.multisigWalletAddress = false ∧
    createProject (exEnv (exOnChain 0 0 false)) exNgo exBareBody emptyStore =
      (.error 400 .missingCreateFields, emptyStore) := by
  decide!

/-! ## The proposals -/

/-- No reply of `verifyMilestone` carries a transaction proposal. -/
theorem verifyMilestone_no_proposal (env : Env) (body : MilestoneBody) (store : Store) :
    (verifyMilestone env body store).1.transactionData = none := by
  unfold verifyMilestone
  repeat' first
    | rfl
    | split
    | dsimp only

/-- No reply of `releaseFunds` carries a transaction proposal. -/
theorem releaseFunds_no_proposal (env : Env) (now : Nat) (body : MilestoneBody)
    (store : Store) : (releaseFunds env now body store).1.transactionData = none := by
  unfold releaseFunds
  repeat' first
    | rfl
    | split
    | dsimp only

/-- C24: every proposal `createProject` and `submitMilestone` return has `to` equal to
the escrow address of the project in the reply (for `createProject` the configured
one, which is stored on the project); the call data of a submission is the
`submitMilestone` call on the project's `onChainProjectIndex`, the requested milestone
index and the given proof hash, and the owning NGO's submission for a project on the
ledger is answered with that proposal. `verifyMilestone` and `releaseFunds` return no
proposal. Each proposal is the value of its `prepare...` function, whose `to` is the
escrow address it is given and whose call data is the call on the indices it is
given, so equal arguments give equal proposals. -/
theorem proposal_target_and_arguments (env : Env) (now : Nat) (user : User)
    (create : CreateProjectBody) (submit : SubmitBody) (body : MilestoneBody) (store : Store) :
    (∀ p tx s1, createProject env user create store = (.created p tx, s1) →
      tx.toAddress = p.escrowContractAddress ∧
      p.escrowContractAddress = env.escrowContractAddress ∧
      ∃ milestones, create.milestones = some milestones ∧
        prepareCreateProjectTransaction env (env.escrowContractAddress.getD "") p.id
          (ngoAddressOf user) (create.multisigWalletAddress.getD "")
          (milestones.map (fun m => parseFloat m.requiredAmount)) = .ok tx) ∧
    (∀ p m oc tx s1, submitMilestone user submit store = (.proposal p m oc tx, s1) →
      ∃ k idx hash, p.onChainProjectIndex = some k ∧ submit.milestoneIndex = some idx ∧
        submit.proofHash = some hash ∧
        tx = prepareSubmitMilestoneTransaction p.escrowContractAddress k idx hash ∧
        tx.toAddress = p.escrowContractAddress ∧
        tx.data = { functionName := "submitMilestone",
                    args := [.uint k, .uint idx, .string hash] }) ∧
    (∀ pid idx hash doc p milestone k, user.role = .ngo → hash ≠ "" →
      store.findById pid = some p → p.ngo = user.id →
      p.milestones[idx]? = some milestone →
      milestone.onChainState ≠ .SUBMITTED → milestone.onChainState ≠ .APPROVED →
      p.onChainProjectIndex = some k → k ≠ 0 →
      (submitMilestone user ⟨some pid, some idx, some hash, doc⟩ store).1.transactionData =
        some (prepareSubmitMilestoneTransaction p.escrowContractAddress k idx hash)) ∧
    (verifyMilestone env body store).1.transactionData = none ∧
    (releaseFunds env now body store).1.transactionData = none ∧
    (∀ a k idx hash, prepareSubmitMilestoneTransaction a k idx hash =
      { toAddress := a,
        data := { functionName := "submitMilestone",
                  args := [.uint k, .uint idx, .string hash] } }) ∧
    (∀ a k idx, prepareApproveMilestoneTransaction a k idx =
      { toAddress := a,
        data := { functionName := "approveMilestone", args := [.uint k, .uint idx] } }) ∧
    (∀ a k idx, prepareReleaseFundsTransaction a k idx =
      { toAddress := a,
        data := { functionName := "releaseFunds", args := [.uint k, .uint idx] } }) := by
  refine ⟨?_, ?_, ?_, verifyMilestone_no_proposal env body store,
    releaseFunds_no_proposal env now body store, fun _ _ _ _ => rfl, fun _ _ _ => rfl,
    fun _ _ _ => rfl⟩
  · intro p tx s1 h
    obtain ⟨milestones, total, -, hms, -, -, -, -, -, -, -, hesc, -, -, hp, -, htx, hprep⟩ :=
      createProject_created_inv env user create store s1 p tx h
    obtain ⟨a, ha, -⟩ := (truthyStr_iff _).1 hesc
    have hpe : p.escrowContractAddress = some (env.escrowContractAddress.getD "") := by
      rw [hp]
    have hid : p.id = store.nextId := by rw [hp]
    refine ⟨by rw [htx, hpe], by rw [hpe, ha]; rfl, milestones, hms, ?_⟩
    rw [hid]
    exact hprep
  · intro p m oc tx s1 h
    obtain ⟨pid, idx, hash, p0, m0, k, -, hidx, hhash, -, -, -, -, -, -, -, hk, -, -, hp1, -,
      htx, -⟩ := submitMilestone_proposal_inv user submit store s1 p m oc tx h
    have hesc : p.escrowContractAddress = p0.escrowContractAddress := by rw [hp1]
    have hkp : p.onChainProjectIndex = some k := by rw [hp1]; exact hk
    refine ⟨k, idx, hash, hkp, hidx, hhash, by rw [htx, hesc], by rw [htx, hesc]; rfl,
      by rw [htx]; rfl⟩
  · intro pid idx hash doc p milestone k hrole hhash hp hown hm hs ha hk hk0
    rw [submitMilestone_owner user store pid idx hash doc p milestone hrole hhash hp hown hm]
    have hidx : truthyIndex (some k) = true := by
      simp [truthyIndex, hk0]
    simp [hs, ha, hk, hidx, Response.transactionData]

/-- C26: the project a successful `createProject` stores has no `onChainProjectIndex`,
is active, holds the configured escrow address and the requested multisig address,
and has exactly one milestone per requested milestone, in the requested order, each
with the requested title, description and amount, status `pending`, ledger state
PENDING and no proof, transaction hash or completion date. -/
theorem createProject_stored_project (env : Env) (user : User) (body : CreateProjectBody)
    (store store1 : Store) (project : Project) (tx : TxData)
    (h : createProject env user body store = (.created project tx, store1)) :
    store1.projects = store.projects ++ [project] ∧
    project.onChainProjectIndex = none ∧ project.active = true ∧
    project.escrowContractAddress = env.escrowContractAddress ∧
    project.multisigWalletAddress = body.multisigWalletAddress ∧
    ∃ milestones : List MilestoneInput, body.milestones = some milestones ∧
      project.milestones.length = milestones.length ∧
      ∀ (i : Nat) (m : MilestoneInput), milestones[i]? = some m →
        ∃ sm : Milestone, project.milestones[i]? = some sm ∧
          m.title = some sm.title ∧ m.description = some sm.description ∧
          m.requiredAmount = some sm.requiredAmount ∧
          sm.status = .pending ∧ sm.onChainState = .PENDING ∧
          sm.proofHash = none ∧ sm.proofDocument = none ∧
          sm.submissionTxHash = none ∧ sm.approvalTxHash = none ∧
          sm.releaseTxHash = none ∧ sm.completedAt = none := by
  obtain ⟨milestones, total, -, hms, -, -, -, -, -, -, hmulti, hesc, -, hall, hp, hs1, -, -⟩ :=
    createProject_created_inv env user body store store1 project tx h
  obtain ⟨a, ha, -⟩ := (truthyStr_iff _).1 hesc
  obtain ⟨w, hw, -⟩ := (truthyStr_iff _).1 hmulti
  refine ⟨by rw [hs1], by rw [hp], by rw [hp], by rw [hp, ha]; rfl, by rw [hp, hw]; rfl,
    milestones, hms, by rw [hp]; simp, ?_⟩
  intro i m hi
  refine ⟨m.stored, by rw [hp]; simp [hi], ?_⟩
  have hwf := hall m (List.getElem?_mem hi)
  rcases m with ⟨t, d, am⟩
  cases t <;> cases d <;> cases am <;>
    simp [MilestoneInput.wellFormed, truthyStr] at hwf
  simp [MilestoneInput.stored]

/-- Witness of C26: the example request with the milestones 0.5, 0.3 and 0.2. -/
theorem createProject_stored_project_witness :
    ({ projects := [exCreatedProject], nextId := 2 } : Store).projects =
      emptyStore.projects ++ [exCreatedProject] ∧
    exCreatedProject.onChainProjectIndex = none ∧ exCreatedProject.active = true ∧
    exCreatedProject.escrowContractAddress = (exEnv (exOnChain 0 0 false)).escrowContractAddress ∧
    exCreatedProject.multisigWalletAddress =
      (exCreateBody 1 exMilestoneInputs).multisigWalletAddress ∧
    ∃ milestones : List MilestoneInput, (exCreateBody 1 exMilestoneInputs).milestones = some milestones ∧
      exCreatedProject.milestones.length = milestones.length ∧
      ∀ (i : Nat) (m : MilestoneInput), milestones[i]? = some m →
        ∃ sm : Milestone, exCreatedProject.milestones[i]? = some sm ∧
          m.title = some sm.title ∧ m.description = some sm.description ∧
          m.requiredAmount = some sm.requiredAmount ∧
          sm.status = .pending ∧ sm.onChainState = .PENDING ∧
          sm.proofHash = none ∧ sm.proofDocument = none ∧
          sm.submissionTxHash = none ∧ sm.approvalTxHash = none ∧
          sm.releaseTxHash = none ∧ sm.completedAt = none :=
  createProject_stored_project (exEnv (exOnChain 0 0 false)) exNgo
    (exCreateBody 1 exMilestoneInputs) emptyStore { projects := [exCreatedProject], nextId := 2 }
    exCreatedProject exCreateTx (by decide!)

/-! ## Frame: the addresses of a project -/

/-- The addresses of every project survive the `save` of a copy of a stored project
that holds the same two addresses. -/
theorem addresses_save (s : Store) (pid : Nat) (p q : Project)
    (hp : s.findById pid = some p) (hid : q.id = p.id)
    (he : q.escrowContractAddress = p.escrowContractAddress)
    (hw : q.multisigWalletAddress = p.multisigWalletAddress) (id : Nat) :
    (s.save q).addresses id = s.addresses id := by
  have hpid : p.id = pid := findById_id s pid p hp
  unfold Store.addresses
  by_cases h : id = pid
  · subst h
    rw [findById_save_found s id p q hp hid, hp]
    simp [he, hw]
  · rw [findById_save_other s q id (by rw [hid, hpid]; exact h)]

/-- The handler `syncProject` leaves the addresses of every project as they were. -/
theorem syncProject_addresses (env : Env) (pid : Nat) (body : SyncBody) (store : Store)
    (id : Nat) :
    (syncProject env pid body store).2.addresses id = store.addresses id := by
  rcases syncProject_store env pid body store with h1 | ⟨p, k, hp, -, -, h1⟩
  · rw [h1]
  · rw [h1]
    refine addresses_save store pid p _ hp ?_ ?_ ?_ id <;> rfl

/-- The handler `submitMilestone` leaves the addresses of every project as they were. -/
theorem submitMilestone_addresses (user : User) (body : SubmitBody) (store : Store)
    (id : Nat) :
    (submitMilestone user body store).2.addresses id = store.addresses id := by
  rcases submitMilestone_reply_kind user body store with ⟨status, msg, h⟩ | ⟨p1, m1, tx, h⟩
  · rw [submitMilestone_store_of_error user body store (by rw [h]; rfl)]
  · obtain ⟨pid, idx, hash, p, m, k, -, -, -, -, -, hp, -, -, -, -, -, -, -, hp1,
      -, -, hs1⟩ := submitMilestone_proposal_inv user body store _ p1 m1 none tx
        (Prod.ext h rfl)
    refine (congrArg (fun s => s.addresses id) hs1).trans ?_
    refine addresses_save store pid p p1 hp ?_ ?_ ?_ id <;> rw [hp1]

/-- The handler `updateMilestone` leaves the addresses of every project as they were. -/
theorem updateMilestone_addresses (now pid mid : Nat) (body : UpdateMilestoneBody)
    (store : Store) (id : Nat) :
    (updateMilestone now pid mid body store).2.addresses id = store.addresses id := by
  unfold updateMilestone
  cases hp : store.findById pid with
  | none => rfl
  | some p =>
    dsimp only
    cases hm : p.milestones[mid]? with
    | none => rfl
    | some m =>
      dsimp only
      cases hst : body.status with
      | invalid => rfl
      | absent =>
        dsimp only
        refine addresses_save store pid p _ hp ?_ ?_ ?_ id <;> rfl
      | valid s =>
        dsimp only
        refine addresses_save store pid p _ hp ?_ ?_ ?_ id <;> rfl

/-- What `updateProject` leaves of the two addresses: the stored ones where the body
carries no address, the address of the body where it carries one. -/
theorem updateProject_addresses (user : User) (pid : Nat) (body : ProjectUpdate)
    (store : Store) (p q : Project) (hp : store.findById pid = some p)
    (h : (updateProject user pid body store).1 = .document q) :
    (updateProject user pid body store).2.addresses pid =
      some (body.escrowContractAddress.getD p.escrowContractAddress,
            body.multisigWalletAddress.getD p.multisigWalletAddress) := by
  unfold updateProject at h ⊢
  rw [hp] at h ⊢
  dsimp only at h ⊢
  by_cases h1 : p.ngo ≠ user.id
  · rw [if_pos h1] at h; cases h
  · rw [if_neg h1] at h ⊢
    cases ha : applyUpdate p body with
    | error e => rw [ha] at h; cases h
    | ok q1 =>
      dsimp only
      unfold applyUpdate at ha
      split_ifs at ha
      split at ha
      · cases ha
      · simp only [Except.ok.injEq] at ha
        have hid : q1.id = p.id := by rw [← ha]
        unfold Store.addresses
        rw [findById_save_found store pid p q1 hp hid, ← ha]
        rfl

/-- An `updateProject` that does not answer with the document leaves the mirror as it was. -/
theorem updateProject_store_of_error (user : User) (pid : Nat) (body : ProjectUpdate)
    (store : Store) (h : ∀ q, (updateProject user pid body store).1 ≠ .document q) :
    (updateProject user pid body store).2 = store := by
  unfold updateProject at h ⊢
  cases hp : store.findById pid with
  | none => rfl
  | some p =>
    rw [hp] at h
    dsimp only at h ⊢
    by_cases h1 : p.ngo ≠ user.id
    · rw [if_pos h1]
    · rw [if_neg h1] at h ⊢
      cases ha : applyUpdate p body with
      | error e => rfl
      | ok q1 =>
        rw [ha] at h
        exact absurd rfl (h q1)

/-- The handler `updateProject` leaves the addresses of every project as they were
when the body carries neither address. -/
theorem updateProject_addresses_frame (user : User) (pid : Nat) (body : ProjectUpdate)
    (store : Store) (he : body.escrowContractAddress = none)
    (hw : body.multisigWalletAddress = none) (id : Nat) :
    (updateProject user pid body store).2.addresses id = store.addresses id := by
  unfold updateProject
  cases hp : store.findById pid with
  | none => rfl
  | some p =>
    dsimp only
    by_cases h1 : p.ngo ≠ user.id
    · rw [if_pos h1]
    · rw [if_neg h1]
      cases ha : applyUpdate p body with
      | error e => rfl
      | ok q =>
        dsimp only
        unfold applyUpdate at ha
        split_ifs at ha
        split at ha
        · cases ha
        · simp only [Except.ok.injEq] at ha
          refine addresses_save store pid p q hp ?_ ?_ ?_ id
          · rw [← ha]
          · rw [← ha, he]; rfl
          · rw [← ha, hw]; rfl

/-- C23 (as amended): `syncProject`, `submitMilestone`, `verifyMilestone`,
`releaseFunds` and `updateMilestone` leave the escrow address and the multisig
address of every stored project as they were, and so does `updateProject` when the
request body carries neither address. An `updateProject` that answers with the
document stores, for each of the two addresses, the value of the body where the body
carries one. -/
theorem addresses_preserved (env : Env) (now pid mid : Nat) (user : User)
    (sync : SyncBody) (submit : SubmitBody) (body : MilestoneBody)
    (patch : UpdateMilestoneBody) (update : ProjectUpdate) (store : Store) (id : Nat) :
    (syncProject env pid sync store).2.addresses id = store.addresses id ∧
    (submitMilestone user submit store).2.addresses id = store.addresses id ∧
    (verifyMilestone env body store).2.addresses id = store.addresses id ∧
    (releaseFunds env now body store).2.addresses id = store.addresses id ∧
    (updateMilestone now pid mid patch store).2.addresses id = store.addresses id ∧
    (update.escrowContractAddress = none → update.multisigWalletAddress = none →
      (updateProject user pid update store).2.addresses id = store.addresses id) ∧
    (∀ p q, store.findById pid = some p →
      (updateProject user pid update store).1 = .document q →
      (updateProject user pid update store).2.addresses pid =
        some (update.escrowContractAddress.getD p.escrowContractAddress,
              update.multisigWalletAddress.getD p.multisigWalletAddress)) :=
  ⟨syncProject_addresses env pid sync store id,
   submitMilestone_addresses user submit store id,
   by rw [verifyMilestone_store],
   by rw [releaseFunds_store],
   updateMilestone_addresses now pid mid patch store id,
   fun he hw => updateProject_addresses_frame user pid update store he hw id,
   fun p q hp h => updateProject_addresses user pid update store p q hp h⟩

/-- Counterexample to C23: the owning NGO updates the example project with a body
that carries the two addresses; afterwards the mirror holds the addresses of the body. -/
theorem updateProject_overwrites_addresses :
    (exStore (some 3) .PENDING).addresses 1 = some (some "0xE5C", some "0x5AFE") ∧
    (updateProject exNgo 1 exAddressUpdate (exStore (some 3) .PENDING)).2.addresses 1 =
      some (some "0xBAD", some "0xBAD") ∧
    (updateProject exNgo 1 exAddressUpdate (exStore (some 3) .PENDING)).1 =
      .document { exProject (some 3) .PENDING with
        escrowContractAddress := some "0xBAD", multisigWalletAddress := some "0xBAD" } :=
  ⟨rfl, rfl, rfl⟩

/-! ## Reachable mirrors -/

/-- A document found by `findById` is in the collection. -/
theorem mem_of_findById (s : Store) (id : Nat) (p : Project) (h : s.findById id = some p) :
    p ∈ s.projects :=
  List.mem_of_find?_eq_some h

/-- Saving a project whose milestones are all mirrored as PENDING keeps every milestone
of the mirror PENDING. -/
theorem allPending_save (s : Store) (q : Project) (hs : s.allPending)
    (hq : ∀ m ∈ q.milestones, m.onChainState = .PENDING) : (s.save q).allPending := by
  intro p hp m hm
  simp only [Store.save, List.mem_map] at hp
  obtain ⟨r, hr, hrp⟩ := hp
  split_ifs at hrp
  · rw [← hrp] at hm
    exact hq m hm
  · rw [← hrp] at hm
    exact hs r hr m hm

/-- The handler `createProject` keeps every milestone of the mirror PENDING. -/
theorem createProject_allPending (env : Env) (user : User) (body : CreateProjectBody)
    (s : Store) (hs : s.allPending) : (createProject env user body s).2.allPending := by
  by_cases h : (createProject env user body s).2 = s
  · rw [h]; exact hs
  · obtain ⟨milestones, total, -, -, -, -, h1, -⟩ :=
      createProject_stored_inv env user body s h
    rw [h1]
    intro p hp m hm
    simp only [List.mem_append, List.mem_singleton] at hp
    rcases hp with hp | hp
    · exact hs p hp m hm
    · rw [hp] at hm
      simp only [List.mem_map] at hm
      obtain ⟨x, -, hx⟩ := hm
      rw [← hx]
      rfl

/-- The handler `syncProject` keeps every milestone of the mirror PENDING. -/
theorem syncProject_allPending (env : Env) (pid : Nat) (body : SyncBody)
    (s : Store) (hs : s.allPending) : (syncProject env pid body s).2.allPending := by
  rcases syncProject_store env pid body s with h1 | ⟨p, k, hp, -, -, h1⟩
  · rw [h1]; exact hs
  · rw [h1]
    exact allPending_save s _ hs (hs p (mem_of_findById s pid p hp))

/-- The handler `submitMilestone` keeps every milestone of the mirror PENDING. -/
theorem submitMilestone_allPending (user : User) (body : SubmitBody)
    (s : Store) (hs : s.allPending) : (submitMilestone user body s).2.allPending := by
  rcases submitMilestone_reply_kind user body s with ⟨status, msg, h⟩ | ⟨p1, m1, tx, h⟩
  · rw [submitMilestone_store_of_error user body s (by rw [h]; rfl)]
    exact hs
  · obtain ⟨pid, idx, hash, p, m, k, -, -, -, -, -, hp, -, -, -, -, -, -, hm1, hp1,
      -, -, hs1⟩ := submitMilestone_proposal_inv user body s _ p1 m1 none tx (Prod.ext h rfl)
    rw [show (submitMilestone user body s).2 = s.save p1 from hs1]
    refine allPending_save s p1 hs ?_
    intro x hx
    rw [hp1] at hx
    rcases List.mem_or_eq_of_mem_set hx with hx | hx
    · exact hs p (mem_of_findById s pid p hp) x hx
    · rw [hx, hm1]
      rfl

/-- Every milestone of a reachable mirror is mirrored as PENDING. -/
theorem reachable_allPending (s : Store) (h : Reachable s) : s.allPending := by
  induction h with
  | empty n =>
    intro p hp
    cases hp
  | createProject env user body s _ ih => exact createProject_allPending env user body s ih
  | syncProject env id body s _ ih => exact syncProject_allPending env id body s ih
  | submitMilestone user body s _ ih => exact submitMilestone_allPending user body s ih
  | verifyMilestone env body s _ ih => rw [verifyMilestone_store]; exact ih
  | releaseFunds env now body s _ ih => rw [releaseFunds_store]; exact ih

/-- The reply 'Milestone already submitted' of `submitMilestone` comes from a
milestone mirrored as SUBMITTED or APPROVED. -/
theorem submitMilestone_alreadySubmitted_inv (user : User) (body : SubmitBody) (s : Store)
    (h : (submitMilestone user body s).1 = .error 400 .alreadySubmitted) :
    ∃ p ∈ s.projects, ∃ m ∈ p.milestones,
      m.onChainState = .SUBMITTED ∨ m.onChainState = .APPROVED := by
  by_cases hrole : user.role ≠ .ngo
  · simp [submitMilestone, hrole] at h
  · rcases body with ⟨_ | pid, _ | idx, hash, doc⟩
    · simp [submitMilestone, hrole] at h
    · simp [submitMilestone, hrole] at h
    · simp [submitMilestone, hrole] at h
    by_cases hh : truthyStr hash = true
    · cases hp : s.findById pid with
      | none => simp [submitMilestone, hrole, hh, hp] at h
      | some p =>
        by_cases hown : p.ngo ≠ user.id
        · simp [submitMilestone, hrole, hh, hp, hown] at h
        · cases hm : p.milestones[idx]? with
          | none => simp [submitMilestone, hrole, hh, hp, hown, hm] at h
          | some m =>
            by_cases hst : m.onChainState = .SUBMITTED ∨ m.onChainState = .APPROVED
            · exact ⟨p, mem_of_findById s pid p hp, m, List.getElem?_mem hm, hst⟩
            · simp only [submitMilestone, hrole, hh, hp, hown, hm, hst, if_false,
                Bool.not_true, Bool.false_eq_true] at h
              split_ifs at h
              cases h
    · simp [submitMilestone, hrole, hh] at h

/-- C27: in every mirror reachable from the empty collection by calls of
`createProject`, `syncProject`, `submitMilestone`, `verifyMilestone` and
`releaseFunds`, every milestone is mirrored as PENDING; so no `submitMilestone` call on
such a mirror is answered 'Milestone already submitted', and the owning NGO's call
with a proof hash for a milestone of a project with a non-zero index is answered with
the submission proposal also when the ledger reports that milestone as submitted
(state 1) or approved (state 2). -/
theorem reachable_all_pending (s : Store) (h : Reachable s) :
    s.allPending ∧
    (∀ (user : User) (body : SubmitBody),
      (submitMilestone user body s).1 ≠ .error 400 .alreadySubmitted) ∧
    (∀ (env : Env) (user : User) (pid idx : Nat) (hash : String) (doc : Option String)
        (p : Project) (milestone : Milestone) (onChain : OnChainMilestone),
      user.role = .ngo → hash ≠ "" → s.findById pid = some p → p.ngo = user.id →
      p.milestones[idx]? = some milestone → truthyIndex p.onChainProjectIndex = true →
      getOnChainMilestone env p.escrowContractAddress (p.onChainProjectIndex.getD 0) idx =
        .ok onChain →
      onChain.state = 1 ∨ onChain.state = 2 →
      (submitMilestone user ⟨some pid, some idx, some hash, doc⟩ s).1 =
        .proposal { p with milestones := p.milestones.set idx (recordProof milestone hash doc) }
          (recordProof milestone hash doc) none
          (prepareSubmitMilestoneTransaction p.escrowContractAddress
            (p.onChainProjectIndex.getD 0) idx hash)) := by
  have hall := reachable_allPending s h
  refine ⟨hall, ?_, ?_⟩
  · intro user body hb
    obtain ⟨p, hp, m, hm, hst⟩ := submitMilestone_alreadySubmitted_inv user body s hb
    have hpend := hall p hp m hm
    rw [hpend] at hst
    rcases hst with hst | hst <;> cases hst
  · intro env user pid idx hash doc p milestone onChain hrole hhash hp hown hm hidx _ _
    have hpend := hall p (mem_of_findById s pid p hp) milestone (List.getElem?_mem hm)
    rw [submitMilestone_owner user s pid idx hash doc p milestone hrole hhash hp hown hm]
    simp [hpend, hidx]

/-- Witness of C27: the example request created in an empty mirror and synced to
index 3; the ledger reports its milestones as submitted, and the owner's submission
of `Qm123` for milestone 0 is answered with the proposal. -/
theorem reachable_all_pending_witness :
    Reachable exReachedStore ∧ exReachedStore.allPending ∧
    (submitMilestone exNgo exSubmitBody exReachedStore).1 ≠ .error 400 .alreadySubmitted ∧
    (getOnChainMilestone (exEnv (exOnChain 1 0 false)) (some "0xE5C") 3 0).toOption.map
      (fun m => m.state) = some 1 ∧
    (submitMilestone exNgo exSubmitBody exReachedStore).1.transactionData =
      some (prepareSubmitMilestoneTransaction (some "0xE5C") 3 0 "Qm123") :=
  have hr : Reachable exReachedStore :=
    Reachable.syncProject (exEnv (exOnChain 1 0 false)) 1 exSyncBody _
      (Reachable.createProject (exEnv (exOnChain 1 0 false)) exNgo
        (exCreateBody 1 exMilestoneInputs) emptyStore (Reachable.empty 1))
  ⟨hr, (reachable_all_pending exReachedStore hr).1,
    (reachable_all_pending exReachedStore hr).2.1 exNgo exSubmitBody, rfl,
    congrArg Response.transactionData
      ((reachable_all_pending exReachedStore hr).2.2 (exEnv (exOnChain 1 0 false)) exNgo 1 0
        "Qm123" none { exCreatedProject with onChainProjectIndex := some 3 }
        (MilestoneInput.stored
          { title := some "Survey", description := some "Site survey",
            requiredAmount := some (1 / 2) })
        (exOnChain 1 0 false) rfl (by decide) (by decide!) rfl (by decide!) rfl rfl (Or.inl rfl))⟩

/-! ## The dashboards against the wallet and the gateway -/

/-- C28: `loadTransactions` records the approvals of a transaction under the owner
strings as the wallet returned them, and the card looks them up under the lower-cased
strings: for the owners `0xA11CE` and `0xB0B`, who both approved transaction 0, the
recorded results are `true`, while the card marks neither owner as approved and shows
the connected owner `0xa11ce` the 'Approve' button instead of 'You Approved'. -/
theorem approval_marks_miss_recorded_approvals :
    (loadTransactions (some (exWallet false)) (exDashboard (exTx 2 false))).2 = none ∧
    exLoadedDashboard.transactions = [exTx 2 false] ∧
    (exLoadedDashboard.transactionApprovals 0).bind (fun obj => obj "0xA11CE") = some true ∧
    (exLoadedDashboard.transactionApprovals 0).bind (fun obj => obj "0xB0B") = some true ∧
    (exLoadedDashboard.transactionApprovals 0).bind (fun obj => obj "0xa11ce") = none ∧
    (pendingCard exLoadedDashboard (exTx 2 false)).ownerMarks =
      [("0xA11CE", false), ("0xB0B", false)] ∧
    isOwner exLoadedDashboard exLoadedDashboard.account = true ∧
    (pendingCard exLoadedDashboard (exTx 2 false)).youApproved = false ∧
    (pendingCard exLoadedDashboard (exTx 2 false)).approveButton = true := by
  refine ⟨rfl, ?_, ?_, ?_, ?_, ?_, ?_, ?_, ?_⟩ <;> decide

/-- C29: `getOnChainProject` and the dashboards' `loadProjects` read the positions 0
and 1 of the project tuple crosswise: what the gateway names `ngoAddress` the
dashboards name `projectId` and the reverse, and the ownership filter of the NGO
dashboard compares the wallet address with what the gateway names `projectId`. On the
example tuple the two decodings differ and the NGO `0xA11CE` is not shown its project. -/
theorem project_tuple_decoded_crosswise :
    (∀ (project : ProjectTuple) (walletAddress : Option String),
      (gatewayProject project).ngoAddress = (dashboardProject project).projectId ∧
      (gatewayProject project).projectId = (dashboardProject project).ngoAddress ∧
      (ngoOwnsProject walletAddress project = true ↔
        walletAddress = some (gatewayProject project).projectId)) ∧
    (gatewayProject exProjectTuple).ngoAddress = "0xA11CE" ∧
    (dashboardProject exProjectTuple).ngoAddress = "665f1c0de" ∧
    (gatewayProject exProjectTuple).projectId = "665f1c0de" ∧
    (dashboardProject exProjectTuple).projectId = "0xA11CE" ∧
    ngoOwnsProject (some (gatewayProject exProjectTuple).ngoAddress) exProjectTuple = false := by
  refine ⟨fun project walletAddress => ⟨rfl, rfl, ?_⟩, rfl, rfl, rfl, rfl, by decide⟩
  simp only [ngoOwnsProject, gatewayProject, beq_iff_eq]
  exact eq_comm

/-- The value of `getDaysRemaining` at a time before the end of the window. -/
theorem getDaysRemaining_before (now disputeWindowEnd : Nat) (h : now < disputeWindowEnd) :
    getDaysRemaining now disputeWindowEnd = some (daysRemaining (disputeWindowEnd - now)) := by
  unfold getDaysRemaining
  have h0 : disputeWindowEnd ≠ 0 := by omega
  have h1 : ¬ ((disputeWindowEnd : Int) - (now : Int) ≤ 0) := by omega
  have h2 : ((disputeWindowEnd : Int) - (now : Int)).toNat = disputeWindowEnd - now := by omega
  simp only [h0, if_false, h1, h2]

/-- The value of `getDaysRemaining` at a time from the end of a non-zero window on. -/
theorem getDaysRemaining_after (now disputeWindowEnd : Nat) (h0 : disputeWindowEnd ≠ 0)
    (h : disputeWindowEnd ≤ now) : getDaysRemaining now disputeWindowEnd = some 0 := by
  unfold getDaysRemaining
  have h1 : (disputeWindowEnd : Int) - (now : Int) ≤ 0 := by omega
  simp only [h0, if_false, h1, if_true]

/-- C30: for a ledger milestone that is APPROVED, with dispute window end `E`, and
every time `now`: if `E` is not 0, `getDaysRemaining` returns 0 exactly when `E ≤ now`,
and then the dispute-window check of `releaseFunds` passes: the reply is not the
dispute-window rejection, and it is the already-released rejection of the next check
when the ledger reports the milestone released; if `now < E`, `getDaysRemaining`
returns `ceil((E - now) / 86400)`, which is positive, and `releaseFunds` is rejected
with the dispute-window message carrying the same number of days; if `E` is 0,
`getDaysRemaining` returns null and the check of `releaseFunds` passes. -/
theorem getDaysRemaining_agrees_with_release_check (env : Env) (now pid idx k : Nat)
    (store : Store) (p : Project) (milestone : Milestone) (m : OnChainMilestone)
    (hp : store.findById pid = some p) (hm : p.milestones[idx]? = some milestone)
    (hk : p.onChainProjectIndex = some k) (hk0 : k ≠ 0)
    (hr : getOnChainMilestone env p.escrowContractAddress k idx = .ok m)
    (hstate : m.state = 2) :
    (m.disputeWindowEnd ≠ 0 →
      (getDaysRemaining now m.disputeWindowEnd = some 0 ↔ m.disputeWindowEnd ≤ now) ∧
      (m.disputeWindowEnd ≤ now →
        (∀ d, (releaseFunds env now ⟨some pid, some idx⟩ store).1 ≠
          .error 400 (.disputeWindowNotElapsed d)) ∧
        (m.released = true →
          releaseFunds env now ⟨some pid, some idx⟩ store =
            (.error 400 .alreadyReleased, store)))) ∧
    (now < m.disputeWindowEnd →
      getDaysRemaining now m.disputeWindowEnd =
        some ⌈((m.disputeWindowEnd : ℚ) - now) / 86400⌉₊ ∧
      0 < ⌈((m.disputeWindowEnd : ℚ) - now) / 86400⌉₊ ∧
      releaseFunds env now ⟨some pid, some idx⟩ store =
        (.error 400 (.disputeWindowNotElapsed ⌈((m.disputeWindowEnd : ℚ) - now) / 86400⌉₊),
         store)) ∧
    (m.disputeWindowEnd = 0 →
      getDaysRemaining now m.disputeWindowEnd = none ∧
      (∀ d, (releaseFunds env now ⟨some pid, some idx⟩ store).1 ≠
        .error 400 (.disputeWindowNotElapsed d)) ∧
      (m.released = true →
        releaseFunds env now ⟨some pid, some idx⟩ store =
          (.error 400 .alreadyReleased, store))) := by
  have hrel := releaseFunds_after_read env now pid idx k store p milestone m hp hm hk hk0 hr
  have hceil : ∀ n, n < m.disputeWindowEnd → daysRemaining (m.disputeWindowEnd - n) =
      ⌈((m.disputeWindowEnd : ℚ) - n) / 86400⌉₊ := by
    intro n hn
    unfold daysRemaining
    rw [Nat.cast_sub hn.le]
    norm_num
  have hpass : ¬ now < m.disputeWindowEnd →
      (∀ d, (releaseFunds env now ⟨some pid, some idx⟩ store).1 ≠
        .error 400 (.disputeWindowNotElapsed d)) ∧
      (m.released = true →
        releaseFunds env now ⟨some pid, some idx⟩ store =
          (.error 400 .alreadyReleased, store)) := by
    intro h2
    rw [hrel]
    cases h3 : m.released <;> simp [hstate, h2]
  refine ⟨fun h0 => ⟨⟨fun h => ?_, fun h => getDaysRemaining_after now _ h0 h⟩, fun h => ?_⟩,
    fun h => ⟨?_, ?_, ?_⟩, fun h0 => ⟨?_, ?_⟩⟩
  · by_contra hlt
    have hlt1 : now < m.disputeWindowEnd := by omega
    rw [getDaysRemaining_before now _ hlt1] at h
    have hpos := daysRemaining_pos (m.disputeWindowEnd - now) (by omega)
    simp only [Option.some.injEq] at h
    omega
  · exact hpass (by omega)
  · rw [getDaysRemaining_before now _ h, hceil now h]
  · rw [← hceil now h]
    exact daysRemaining_pos _ (by omega)
  · rw [hrel, ← hceil now h]
    have h0 : m.disputeWindowEnd ≠ 0 := by omega
    simp [hstate, h0, h]
  · rw [h0]
    rfl
  · exact hpass (by omega)

/-- Witness of C30: dispute window end 606800, seen one second before the end. -/
theorem getDaysRemaining_agrees_with_release_check_witness :
    getDaysRemaining 606799 606800 = some 1 ∧
    releaseFunds (exEnv (exOnChain 2 606800 false)) 606799 ⟨some 1, some 0⟩
        (exStore (some 3) .PENDING) =
      (.error 400 (.disputeWindowNotElapsed 1), exStore (some 3) .PENDING) := by
  have h := (getDaysRemaining_agrees_with_release_check (exEnv (exOnChain 2 606800 false))
    606799 1 0 3 (exStore (some 3) .PENDING) (exProject (some 3) .PENDING)
    (exMilestone .PENDING) (exOnChain 2 606800 false) rfl rfl rfl (by decide) rfl rfl).2.1
    (by decide)
  have e : ⌈(((exOnChain 2 606800 false).disputeWindowEnd : ℚ) - (606799 : ℕ)) / 86400⌉₊ = 1 := by
    decide!
  rw [e] at h
  exact ⟨h.1, h.2.2⟩

/-- Witness of C24: the proposal of the example creation and the proposal of the
example submission go to the escrow address `0xE5C` of their project, and the
submission proposal is the `submitMilestone` call on index 3, milestone 0 and the
proof hash. -/
theorem proposal_target_and_arguments_witness :
    exCreateTx.toAddress = exCreatedProject.escrowContractAddress ∧
    (prepareSubmitMilestoneTransaction (some "0xE5C") 3 0 "Qm123").toAddress =
      exSubmittedProject.escrowContractAddress ∧
    (submitMilestone exNgo exSubmitBody (exStore (some 3) .PENDING)).1.transactionData =
      some (prepareSubmitMilestoneTransaction (some "0xE5C") 3 0 "Qm123") :=
  ⟨((proposal_target_and_arguments (exEnv (exOnChain 0 0 false)) 0 exNgo
      (exCreateBody 1 exMilestoneInputs) exSubmitBody ⟨some 1, some 0⟩ emptyStore).1
      exCreatedProject exCreateTx { projects := [exCreatedProject], nextId := 2 }
      (by decide!)).1,
   let ⟨_, _, _, _, _, _, _, hto, _⟩ :=
     (proposal_target_and_arguments (exEnv (exOnChain 0 0 false)) 0 exNgo
      (exCreateBody 1 exMilestoneInputs) exSubmitBody ⟨some 1, some 0⟩
      (exStore (some 3) .PENDING)).2.1 exSubmittedProject exSubmittedMilestone none
      (prepareSubmitMilestoneTransaction (some "0xE5C") 3 0 "Qm123")
      { projects := [exSubmittedProject], nextId := 2 } rfl
   hto,
   (proposal_target_and_arguments (exEnv (exOnChain 0 0 false)) 0 exNgo
      (exCreateBody 1 exMilestoneInputs) exSubmitBody ⟨some 1, some 0⟩
      (exStore (some 3) .PENDING)).2.2.1 1 0 "Qm123" none (exProject (some 3) .PENDING)
      (exMilestone .PENDING) 3 rfl (by decide) rfl rfl rfl (by decide) (by decide) rfl
      (by decide)⟩

end Orchestration
